import Mathlib

/-!
# Sensor fusion orchestration core (`sensor_fusion.c`)

A shallow embedding of the top level programming interface of the sensor
fusion library: sample conditioning, the software FIFOs, the registry of
physical sensors, the per-cycle read loop, the conditioning pipeline, the
buffer utility and the initialization sequence, followed by the properties
proved about them.

Machine integers are `Int`/`Nat` with the wrap-around of their C type written
out where a value is stored.  Pointers are `Option` values (`none` is `NULL`).
-/

namespace SensorFusion

/-! ## Samples and FIFOs -/

/-- Conversion of an `int` value to `int16_t` (two's complement wrap-around). -/
def toInt16 (n : Int) : Int := (n + 32768) % 65536 - 32768

/-- One reading `int16_t sample[3]`; the fields are the entries `[CHX]`, `[CHY]`, `[CHZ]`. -/
structure Sample where
  chx : Int
  chy : Int
  chz : Int
deriving DecidableEq, Repr

/-- Function `conditionSample`: each axis that equals `-32768` is incremented
(`sample[CH]++`, stored back as `int16_t`). -/
def conditionSample (sample : Sample) : Sample :=
  let s1 := if sample.chx = -32768 then { sample with chx := toInt16 (sample.chx + 1) } else sample
  let s2 := if s1.chy = -32768 then { s1 with chy := toInt16 (s1.chy + 1) } else s1
  if s2.chz = -32768 then { s2 with chz := toInt16 (s2.chz + 1) } else s2

/-- Modelled from the spec: the declarations of `union FifoSensor` and of the
structs `AccelSensor`, `MagSensor`, `GyroSensor` (header `sensor_fusion.h`) are
missing.  The spec describes a sample FIFO as "fixed capacity array of 3-axis
16-bit signed samples, a count, and an overflow counter/flag", and the sensor
blocks as holding an enabled flag and the stored integer average.  The count
`iFIFOCount` is a `uint8_t` (the type of the local that `addToFifo` loads it
into), `iFIFOExceeded` a `uint16_t`; the array `iGsFIFO` is a list whose length
is the compile-time FIFO size. -/
structure FifoSensor where
  isEnabled : Bool
  iFIFOCount : Nat
  iFIFOExceeded : Nat
  iGsFIFO : List Sample
  iGs : Sample
deriving DecidableEq, Repr

/-- Function `addToFifo`.  `fifoCount` is the `uint8_t` local; the three axis stores into
slot `fifoCount` are one slot update (a store past the end of the array is
undefined in C and is a no-operation here). -/
def addToFifo (sensor : FifoSensor) (maxFifoSize : Nat) (sample : Sample) : FifoSensor :=
  let fifoCount := sensor.iFIFOCount % 256
  if fifoCount < maxFifoSize then
    { sensor with
      iGsFIFO := sensor.iGsFIFO.set fifoCount sample
      iFIFOCount := (sensor.iFIFOCount + 1) % 256
      iFIFOExceeded := 0 }
  else
    { sensor with iFIFOExceeded := (sensor.iFIFOExceeded + 1) % 65536 }

/-- Successive `addToFifo` calls, one per sample, in list order. -/
def pushAll (sensor : FifoSensor) (maxFifoSize : Nat) (samples : List Sample) : FifoSensor :=
  samples.foldl (fun s x => addToFifo s maxFifoSize x) sensor

/-! ## Status collaborator -/

/-- Modelled from the spec: the enumeration `fusion_status_t` (header `status.h`) is
missing; the spec lists the status values as "one of {INITIALIZING, NORMAL,
SOFT_FAULT, HARD_FAULT}". -/
inductive fusion_status_t where
  | INITIALIZING
  | NORMAL
  | SOFT_FAULT
  | HARD_FAULT
deriving DecidableEq, Repr

/-- A call made by the core on the status collaborator (recorded for specification only). -/
inductive StatusCall where
  | set (status : fusion_status_t)
  | queue (status : fusion_status_t)
  | update
deriving DecidableEq, Repr

/-- Modelled from the spec: the status subsystem (`status.h`, `status.c`) is missing.
The spec gives it "two slots — *current* (externally visible) and *queued*
(staged)"; `calls` is a ghost log of the calls received, oldest first. -/
structure StatusSubsystem where
  status : fusion_status_t
  next : fusion_status_t
  calls : List StatusCall
deriving DecidableEq, Repr

/-- Modelled from the spec: capability `set(status)` of the missing status
subsystem, "immediate": it writes the current slot. -/
def StatusSubsystem.set (p : StatusSubsystem) (status : fusion_status_t) : StatusSubsystem :=
  { p with status := status, calls := p.calls ++ [StatusCall.set status] }

/-- Modelled from the spec: capability `queue(status)` of the missing status
subsystem, "stage": it writes the queued slot only. -/
def StatusSubsystem.queue (p : StatusSubsystem) (status : fusion_status_t) : StatusSubsystem :=
  { p with next := status, calls := p.calls ++ [StatusCall.queue status] }

/-- Modelled from the spec: capability `update()` of the missing status
subsystem, "promote staged to current". -/
def StatusSubsystem.update (p : StatusSubsystem) : StatusSubsystem :=
  { p with status := p.next, calls := p.calls ++ [StatusCall.update] }

/-- Modelled from the spec: capability `get() -> status` of the missing status
subsystem: the current slot. -/
def StatusSubsystem.get (p : StatusSubsystem) : fusion_status_t := p.status

/-! ## Top level structure -/

/-- Non-null address of a `struct PhysicalSensor`. -/
abbrev Ptr := Nat

/-- Identity of a driver function (the target of a non-null function pointer). -/
abbrev FnId := Nat

/-- Compile-time constants of `build.h`, which is missing: "either 0x0000 or a
1-bit value".  They are parameters of the functions that test them with `#if`. -/
structure Build where
  F_USING_ACCEL : Nat
  F_USING_MAG : Nat
  F_USING_GYRO : Nat
deriving DecidableEq, Repr

/-- Modelled from the spec: `F_USING_NONE` of the missing `build.h`; storing it in
`isInitialized` is what the spec calls "mark the node uninitialized". -/
def F_USING_NONE : Nat := 0

/-- Modelled from the spec: `SENSOR_ERROR_NONE` of the missing headers; every other
code is a "nonzero error". -/
def SENSOR_ERROR_NONE : Int := 0

/-- The fields of `SensorFusionGlobals` used by the functions embedded here;
`pStatusSubsystem` is the pointee of the status subsystem pointer. -/
structure SensorFusionGlobals where
  iFlags : Nat
  loopcounter : Nat
  pSensors : Option Ptr
  Accel : FifoSensor
  Mag : FifoSensor
  Gyro : FifoSensor
  pStatusSubsystem : StatusSubsystem
deriving DecidableEq, Repr

/-- Function `setStatus`: delegates to the `set` capability of the status subsystem. -/
def setStatus (sfg : SensorFusionGlobals) (status : fusion_status_t) : SensorFusionGlobals :=
  { sfg with pStatusSubsystem := sfg.pStatusSubsystem.set status }

/-- Function `getStatus`: delegates to the `get` capability of the status subsystem. -/
def getStatus (sfg : SensorFusionGlobals) : fusion_status_t :=
  sfg.pStatusSubsystem.get

/-- Function `queueStatus`: delegates to the `queue` capability of the status subsystem. -/
def queueStatus (sfg : SensorFusionGlobals) (status : fusion_status_t) : SensorFusionGlobals :=
  { sfg with pStatusSubsystem := sfg.pStatusSubsystem.queue status }

/-- Function `updateStatus`: delegates to the `update` capability of the status subsystem. -/
def updateStatus (sfg : SensorFusionGlobals) : SensorFusionGlobals :=
  { sfg with pStatusSubsystem := sfg.pStatusSubsystem.update }

/-- Function `clearFIFOs`: each block is compiled in when its `F_USING_*` constant is nonzero. -/
def clearFIFOs (b : Build) (sfg : SensorFusionGlobals) : SensorFusionGlobals :=
  let g1 := if b.F_USING_ACCEL ≠ 0 then
      { sfg with Accel := { sfg.Accel with iFIFOCount := 0, iFIFOExceeded := 0 } } else sfg
  let g2 := if b.F_USING_MAG ≠ 0 then
      { g1 with Mag := { g1.Mag with iFIFOCount := 0, iFIFOExceeded := 0 } } else g1
  if b.F_USING_GYRO ≠ 0 then
    { g2 with Gyro := { g2.Gyro with iFIFOCount := 0, iFIFOExceeded := 0 } } else g2

/-! ## Sensor registry -/

/-- The `deviceInfo` member of a node (`registerDeviceInfo_t`). -/
structure DeviceInfo where
  deviceInstance : Nat
  functionParam : Option Ptr
  idleFunction : Option Ptr
deriving DecidableEq, Repr

/-- The node `struct PhysicalSensor`.  The function pointer member `initialize`
is spelled `initialize_` (the plain word is reserved in Lean); `none` is a null
pointer.  `isInitialized` is a bit field tested for being nonzero. -/
structure PhysicalSensor where
  deviceInfo : DeviceInfo
  initialize_ : Option FnId
  read : Option FnId
  addr : Nat
  schedule : Nat
  isInitialized : Nat
  next : Option Ptr
deriving DecidableEq, Repr

/-- Function `installSensor`.  `sfg` is the context pointer (`none` when null, otherwise the
context it points to), `sensors` the memory holding the nodes.  Returns the
`int8_t` code with the context and the memory as the call leaves them. -/
def installSensor (sfg : Option SensorFusionGlobals) (sensors : Ptr → PhysicalSensor)
    (pSensor : Option Ptr) (addr schedule : Nat) (_busInfo : Option Ptr)
    (initialize_ read : Option FnId) :
    Int × Option SensorFusionGlobals × (Ptr → PhysicalSensor) :=
  match sfg, pSensor, initialize_, read with
  | some g, some p, some i, some r =>
    let node : PhysicalSensor :=
      { sensors p with
        deviceInfo := { deviceInstance := 0, functionParam := none, idleFunction := none }
        initialize_ := some i
        read := some r
        addr := addr
        schedule := schedule
        next := g.pSensors }
    (0, some { g with pSensors := some p }, Function.update sensors p node)
  | _, _, _, _ => (1, sfg, sensors)

/-- The arguments of one successful-form `installSensor` call (all pointers non-null). -/
structure Install where
  pSensor : Ptr
  addr : Nat
  schedule : Nat
  initialize_ : FnId
  read : FnId
deriving DecidableEq, Repr

/-- One `installSensor` call with non-null arguments on a context and a node memory. -/
def installOne (st : SensorFusionGlobals × (Ptr → PhysicalSensor)) (c : Install) :
    SensorFusionGlobals × (Ptr → PhysicalSensor) :=
  match installSensor (some st.1) st.2 (some c.pSensor) c.addr c.schedule none
      (some c.initialize_) (some c.read) with
  | (_, some g, sensors) => (g, sensors)
  | (_, none, sensors) => (st.1, sensors)

/-- A sequence of `installSensor` calls, in registration order. -/
def installAll (calls : List Install) (g : SensorFusionGlobals)
    (sensors : Ptr → PhysicalSensor) : SensorFusionGlobals × (Ptr → PhysicalSensor) :=
  calls.foldl installOne (g, sensors)

/-- The nodes visited by `for (p = head; p != NULL; p = p->next)`, in visiting
order; `none` when the walk does not reach `NULL` within `fuel` nodes. -/
def traverse (sensors : Ptr → PhysicalSensor) : Nat → Option Ptr → Option (List Ptr)
  | _, none => some []
  | 0, some _ => none
  | fuel + 1, some p => (traverse sensors fuel (sensors p).next).map (fun ps => p :: ps)

/-! ## Sensor drivers and the read loop -/

/-- Which capability of a node was invoked. -/
inductive CapKind where
  | init
  | read
deriving DecidableEq, Repr

/-- One invocation of a driver capability: which one, on which node, and the
code it returned (recorded for specification only). -/
structure CapCall where
  kind : CapKind
  node : Ptr
  code : Int
deriving DecidableEq, Repr

/-- Modelled from the spec: the sensor drivers are missing; the spec gives them the
interface `initialize(node, ctx) -> ErrorCode`, `read(node, ctx) -> ErrorCode`.
The outcome of a call is the `int8_t` code, the value the driver leaves in the
`isInitialized` flag of the node it was given ("init function will set flag
back to sensor type"), the sensor blocks of the context as it leaves them (a
read loads its readings into them), and the state `env` of everything else it
owns (the device).  A driver neither relinks the registry nor calls the status
subsystem. -/
structure DriverResult (σ : Type) where
  code : Int
  isInitialized : Nat
  Accel : FifoSensor
  Mag : FifoSensor
  Gyro : FifoSensor
  env : σ

/-- Modelled from the spec: a driver function, called with the node pointer, the
node, the context and the driver-side state. -/
abbrev Driver (σ : Type) := Ptr → PhysicalSensor → SensorFusionGlobals → σ → DriverResult σ

/-- The state a `readSensors` call works on: the context, the node memory, the
driver-side state, and the ghost log `trace` of capability invocations, oldest first. -/
structure Machine (σ : Type) where
  sfg : SensorFusionGlobals
  sensors : Ptr → PhysicalSensor
  env : σ
  trace : List CapCall

/-- The machine after a driver capability of node `p` returned `r`. -/
def Machine.afterCall {σ : Type} (m : Machine σ) (kind : CapKind) (p : Ptr)
    (r : DriverResult σ) : Machine σ :=
  { sfg := { m.sfg with Accel := r.Accel, Mag := r.Mag, Gyro := r.Gyro }
    sensors := Function.update m.sensors p { m.sensors p with isInitialized := r.isInitialized }
    env := r.env
    trace := m.trace ++ [{ kind := kind, node := p, code := r.code }] }

/-- The store `pSensor->isInitialized = v`. -/
def Machine.setInitialized {σ : Type} (m : Machine σ) (p : Ptr) (v : Nat) : Machine σ :=
  { m with sensors := Function.update m.sensors p { m.sensors p with isInitialized := v } }

/-- The body of the `for` loop of `readSensors` for the node `p`, with the running
`status`.  `none` stands for an execution without defined result: a remainder
by a zero schedule or a call through a null function pointer. -/
def readSensorsBody {σ : Type} (drv : FnId → Driver σ) (read_loop_counter : Nat) (p : Ptr)
    (m : Machine σ) (status : Int) : Option (Int × Machine σ) :=
  let n := m.sensors p
  if n.isInitialized ≠ 0 then
    if n.schedule = 0 then none
    else if 0 = read_loop_counter % n.schedule then
      match n.read with
      | none => none
      | some f =>
        let r := drv f p n m.sfg m.env
        let m1 := m.afterCall CapKind.read p r
        let m2 := if r.code ≠ SENSOR_ERROR_NONE then m1.setInitialized p F_USING_NONE else m1
        some (if status = SENSOR_ERROR_NONE then r.code else status, m2)
    else some (status, m)
  else
    match n.initialize_ with
    | none => none
    | some f =>
      let r := drv f p n m.sfg m.env
      let m1 := m.afterCall CapKind.init p r
      some (if r.code ≠ SENSOR_ERROR_NONE then r.code else status, m1)

/-- The `for` loop of `readSensors` from the node pointer `pSensor` on; `none`
also when the list does not end within `fuel` nodes. -/
def readSensorsLoop {σ : Type} (drv : FnId → Driver σ) (read_loop_counter : Nat) :
    Nat → Option Ptr → Machine σ → Int → Option (Int × Machine σ)
  | _, none, m, status => some (status, m)
  | 0, some _, _, _ => none
  | fuel + 1, some p, m, status =>
    match readSensorsBody drv read_loop_counter p m status with
    | none => none
    | some (status1, m1) =>
      readSensorsLoop drv read_loop_counter fuel (m1.sensors p).next m1 status1

/-- Function `readSensors`: the loop, then the status report; returns the `int8_t` status. -/
def readSensors {σ : Type} (drv : FnId → Driver σ) (fuel : Nat) (m : Machine σ)
    (read_loop_counter : Nat) : Option (Int × Machine σ) :=
  match readSensorsLoop drv read_loop_counter fuel m.sfg.pSensors m SENSOR_ERROR_NONE with
  | none => none
  | some (status, m1) =>
    if status = SENSOR_ERROR_NONE then
      some (status, { m1 with sfg := queueStatus m1.sfg fusion_status_t.NORMAL })
    else
      some (status, { m1 with sfg := setStatus m1.sfg fusion_status_t.SOFT_FAULT })

/-! ## Initialization of the sensors -/

/-- The `for` loop of `initializeSensors` from the node pointer `pSensor` on, with the
running `status`; `none` when the list does not end within `fuel` nodes or a
null `initialize` pointer is called. -/
def initializeSensorsLoop {σ : Type} (drv : FnId → Driver σ) :
    Nat → Option Ptr → Machine σ → Int → Option (Int × Machine σ)
  | _, none, m, status => some (status, m)
  | 0, some _, _, _ => none
  | fuel + 1, some p, m, status =>
    match (m.sensors p).initialize_ with
    | none => none
    | some f =>
      let r := drv f p (m.sensors p) m.sfg m.env
      let m1 := m.afterCall CapKind.init p r
      initializeSensorsLoop drv fuel (m1.sensors p).next m1
        (if status = 0 then r.code else status)

/-- Function `initializeSensors`: calls the initialization function of each linked
node and returns the `int8_t` status. -/
def initializeSensors {σ : Type} (drv : FnId → Driver σ) (fuel : Nat) (m : Machine σ) :
    Option (Int × Machine σ) :=
  initializeSensorsLoop drv fuel m.sfg.pSensors m 0

/-! ## Sensor classes -/

/-- The three sensor classes that own a FIFO. -/
inductive SensorClass where
  | accel
  | mag
  | gyro
deriving DecidableEq, Repr

/-- The block of a sensor class inside the context (`sfg->Accel`, `sfg->Mag`, `sfg->Gyro`). -/
def SensorClass.block (k : SensorClass) (sfg : SensorFusionGlobals) : FifoSensor :=
  match k with
  | SensorClass.accel => sfg.Accel
  | SensorClass.mag => sfg.Mag
  | SensorClass.gyro => sfg.Gyro

/-- The build constant that compiles a sensor class in (`F_USING_ACCEL`, `F_USING_MAG`,
`F_USING_GYRO`). -/
def SensorClass.feature (k : SensorClass) (b : Build) : Nat :=
  match k with
  | SensorClass.accel => b.F_USING_ACCEL
  | SensorClass.mag => b.F_USING_MAG
  | SensorClass.gyro => b.F_USING_GYRO

/-! ## Conditioning pipeline -/

/-- Conversion of an integer value to `int32_t` (two's complement wrap-around). -/
def toInt32 (n : Int) : Int := (n + 2147483648) % 4294967296 - 2147483648

/-- The channel sums `int32_t iSum[3]`. -/
structure ChannelSums where
  chx : Int
  chy : Int
  chz : Int
deriving DecidableEq, Repr

/-- The two summation loops of a `process...Data` function: `iSum[j] = 0`, then
`iSum[j] += FIFO[i][j]` for `i < count`, each sum kept in an `int32_t` (a read
past the end of the array is undefined in C and yields zeros here). -/
def sumFifo (fifo : List Sample) (count : Nat) : ChannelSums :=
  (List.range count).foldl
    (fun acc i =>
      { chx := toInt32 (acc.chx + (fifo.getD i ⟨0, 0, 0⟩).chx)
        chy := toInt32 (acc.chy + (fifo.getD i ⟨0, 0, 0⟩).chy)
        chz := toInt32 (acc.chz + (fifo.getD i ⟨0, 0, 0⟩).chz) })
    { chx := 0, chy := 0, chz := 0 }

/-- The averaging block shared by `processAccelData`, `processMagData` and
`processGyroData`: the sums, then, when the count is positive, the store
`(int16_t)(iSum[j] / (int32_t) iFIFOCount)` into the integer average (the float
copy of the average is not modelled). -/
def averageFifo (s : FifoSensor) : FifoSensor :=
  let iSum := sumFifo s.iGsFIFO s.iFIFOCount
  if s.iFIFOCount > 0 then
    { s with iGs :=
        { chx := toInt16 (Int.tdiv iSum.chx (s.iFIFOCount : Int))
          chy := toInt16 (Int.tdiv iSum.chy (s.iFIFOCount : Int))
          chz := toInt16 (Int.tdiv iSum.chz (s.iFIFOCount : Int)) } }
  else s

/-- Modelled from the spec: the hardware abstraction, calibration and fusion
functions are missing (external collaborators).  The spec gives the
hardware abstraction as "`applyHAL(rawBlock)` — in-place correction" applied
"to the raw samples": it yields the corrected sample array of the block.  The
calibration and fusion functions work on the calibration, buffer and
estimation-variant blocks, "opaque to this core", which are the state `τ`;
they read the sensor blocks they are handed.  `iMagBufferReadOnly` reads the
flag of that name in the magnetic calibration block. -/
structure Collaborators (τ : Type) where
  ApplyAccelHAL : FifoSensor → List Sample
  ApplyMagHAL : FifoSensor → List Sample
  ApplyGyroHAL : FifoSensor → List Sample
  fInvertAccelCal : FifoSensor → τ → τ
  fUpdateAccelBuffer : FifoSensor → τ → τ
  fInvertMagCal : FifoSensor → τ → τ
  iMagBufferReadOnly : τ → Bool
  iUpdateMagBuffer : FifoSensor → Nat → τ → τ
  fRunMagCalibration : FifoSensor → Nat → τ → τ
  fFuseSensors : Option FifoSensor → Option FifoSensor → Option FifoSensor → τ → τ
  fInitializeFusion : SensorFusionGlobals → τ → τ
  fInitializeMagCalibration : τ → τ
  fInitializeAccelCalibration : τ → τ

/-- Function `processAccelData`. -/
def processAccelData {τ : Type} (c : Collaborators τ) (sfg : SensorFusionGlobals) (t : τ) :
    SensorFusionGlobals × τ :=
  let g1 := if sfg.Accel.iFIFOExceeded > 0 then setStatus sfg fusion_status_t.SOFT_FAULT else sfg
  let accel := averageFifo { g1.Accel with iGsFIFO := c.ApplyAccelHAL g1.Accel }
  let t1 := c.fInvertAccelCal accel t
  let t2 := c.fUpdateAccelBuffer accel t1
  ({ g1 with Accel := accel }, t2)

/-- Function `processMagData`. -/
def processMagData {τ : Type} (c : Collaborators τ) (sfg : SensorFusionGlobals) (t : τ) :
    SensorFusionGlobals × τ :=
  let g1 := if sfg.Mag.iFIFOExceeded > 0 then setStatus sfg fusion_status_t.SOFT_FAULT else sfg
  let mag := averageFifo { g1.Mag with iGsFIFO := c.ApplyMagHAL g1.Mag }
  let t1 := c.fInvertMagCal mag t
  let t2 := if c.iMagBufferReadOnly t1 = false then c.iUpdateMagBuffer mag g1.loopcounter t1
    else t1
  let t3 := c.fRunMagCalibration mag g1.loopcounter t2
  ({ g1 with Mag := mag }, t3)

/-- Function `processGyroData`. -/
def processGyroData {τ : Type} (c : Collaborators τ) (sfg : SensorFusionGlobals) (t : τ) :
    SensorFusionGlobals × τ :=
  let g1 := if sfg.Gyro.iFIFOExceeded > 0 then setStatus sfg fusion_status_t.SOFT_FAULT else sfg
  let gyro := averageFifo { g1.Gyro with iGsFIFO := c.ApplyGyroHAL g1.Gyro }
  ({ g1 with Gyro := gyro }, t)

/-- The `process...Data` function of a sensor class. -/
def processData {τ : Type} (c : Collaborators τ) (k : SensorClass)
    (sfg : SensorFusionGlobals) (t : τ) : SensorFusionGlobals × τ :=
  match k with
  | SensorClass.accel => processAccelData c sfg t
  | SensorClass.mag => processMagData c sfg t
  | SensorClass.gyro => processGyroData c sfg t

/-- The hardware abstraction function of a sensor class. -/
def SensorClass.hal {τ : Type} (k : SensorClass) (c : Collaborators τ) :
    FifoSensor → List Sample :=
  match k with
  | SensorClass.accel => c.ApplyAccelHAL
  | SensorClass.mag => c.ApplyMagHAL
  | SensorClass.gyro => c.ApplyGyroHAL

/-- Function `conditionSensorReadings`: each line is compiled in when its `F_USING_*`
constant is nonzero. -/
def conditionSensorReadings {τ : Type} (b : Build) (c : Collaborators τ)
    (sfg : SensorFusionGlobals) (t : τ) : SensorFusionGlobals × τ :=
  let r1 := if b.F_USING_ACCEL ≠ 0 then
      (if sfg.Accel.isEnabled then processAccelData c sfg t else (sfg, t)) else (sfg, t)
  let r2 := if b.F_USING_MAG ≠ 0 then
      (if r1.1.Mag.isEnabled then processMagData c r1.1 r1.2 else r1) else r1
  if b.F_USING_GYRO ≠ 0 then
    (if r2.1.Gyro.isEnabled then processGyroData c r2.1 r2.2 else r2) else r2

/-- Function `runFusion`: the sensor pointers handed to `fFuseSensors` are null for
a class that is compiled out; the estimation-variant pointers are part of `τ`. -/
def runFusion {τ : Type} (b : Build) (c : Collaborators τ)
    (sfg : SensorFusionGlobals) (t : τ) : SensorFusionGlobals × τ :=
  let pAccel := if b.F_USING_ACCEL ≠ 0 then some sfg.Accel else none
  let pMag := if b.F_USING_MAG ≠ 0 then some sfg.Mag else none
  let pGyro := if b.F_USING_GYRO ≠ 0 then some sfg.Gyro else none
  let t1 := c.fFuseSensors pAccel pMag pGyro t
  (clearFIFOs b sfg, t1)

/-! ## Fatal status and the buffer utility -/

/-- Modelled from the spec: the status subsystem is missing; its `set` "must
trap/never-return for HARD_FAULT" (the source marks the call "Never returns"). -/
def StatusSubsystem.traps (status : fusion_status_t) : Bool :=
  decide (status = fusion_status_t.HARD_FAULT)

/-- How a function that may raise a fatal status ends: it returns to its caller,
or control never comes back from a `set` call that traps; either way with the
state reached. -/
inductive Outcome (α : Type) where
  | returned (a : α)
  | trapped (a : α)

/-- The state an outcome ends with. -/
def Outcome.state {α : Type} : Outcome α → α
  | Outcome.returned a => a
  | Outcome.trapped a => a

/-- Whether the function returned to its caller. -/
def Outcome.isReturned {α : Type} : Outcome α → Bool
  | Outcome.returned _ => true
  | Outcome.trapped _ => false

/-- The call `pStatus->set(pStatus, status)` inside a function that goes on with
`next` when the call returns. -/
def setOrTrap {α : Type} (pStatus : StatusSubsystem) (status : fusion_status_t)
    (mk : StatusSubsystem → α) (next : StatusSubsystem → Outcome α) : Outcome α :=
  if StatusSubsystem.traps status then Outcome.trapped (mk (pStatus.set status))
  else next (pStatus.set status)

/-- The zeroing loop `for (i=0; i<numElements; i++) d[i]=0` of `zeroArray` (a store
past the end of the buffer is undefined in C and is a no-operation here). -/
def zeroLoop (data : List Nat) (numElements : Nat) : List Nat :=
  (List.range numElements).foldl (fun d i => d.set i 0) data

/-- The checking loop `for (i=0; i<numElements; i++) if (d[i]!=0) pStatus->set(pStatus,
HARD_FAULT)` of `zeroArray`, from index `i` on with `n` indices left. -/
def checkLoop (data : List Nat) : Nat → Nat → StatusSubsystem →
    Outcome (StatusSubsystem × List Nat)
  | 0, _, pStatus => Outcome.returned (pStatus, data)
  | n + 1, i, pStatus =>
    if data.getD i 0 ≠ 0 then
      setOrTrap pStatus fusion_status_t.HARD_FAULT (fun p => (p, data))
        (fun p => checkLoop data n (i + 1) p)
    else checkLoop data n (i + 1) pStatus

/-- Function `zeroArray`.  The buffer `data` is the array of `numElements` elements
of `size` bits each; `size`, `numElements` and `check` are the unsigned
arguments. -/
def zeroArray (pStatus : StatusSubsystem) (data : List Nat) (size numElements check : Nat) :
    Outcome (StatusSubsystem × List Nat) :=
  let checked : StatusSubsystem → List Nat → Outcome (StatusSubsystem × List Nat) :=
    fun p d =>
      if check ≠ 0 then
        (if size = 8 ∨ size = 16 ∨ size = 32 then checkLoop d numElements 0 p
         else Outcome.returned (p, d))
      else Outcome.returned (p, d)
  if size = 8 ∨ size = 16 ∨ size = 32 then
    checked pStatus (zeroLoop data numElements)
  else
    setOrTrap pStatus fusion_status_t.HARD_FAULT (fun p => (p, data)) (fun p => checked p data)

/-! ## Initialization sequence -/

/-- The enumeration `quaternion_type` as the source recalls it:
`typedef enum quaternion {Q3, Q3M, Q3G, Q6MA, Q6AG, Q9} quaternion_type`. -/
inductive quaternion_type where
  | Q3
  | Q3M
  | Q3G
  | Q6MA
  | Q6AG
  | Q9
deriving DecidableEq, Repr

/-- The two members of `struct ControlSubsystem` that `initializeFusionEngine` writes. -/
structure ControlSubsystem where
  DefaultQuaternionPacketType : quaternion_type
  QuaternionPacketType : quaternion_type
deriving DecidableEq, Repr

/-- Compile-time constants of the missing `build.h` that select the estimation
variants tested by `initializeFusionEngine`: "either 0x0000 or a 1-bit value". -/
structure Variants where
  F_3DOF_B_BASIC : Nat
  F_3DOF_Y_BASIC : Nat
  F_6DOF_GB_BASIC : Nat
  F_6DOF_GY_KALMAN : Nat
  F_9DOF_GBY_KALMAN : Nat
deriving DecidableEq, Repr

/-- The resolution of `DefaultQuaternionPacketType` in `initializeFusionEngine`: the
assignment of `Q3` followed by the five conditional assignments. -/
def defaultQuaternion (v : Variants) (iFlags : Nat) : quaternion_type :=
  let q0 := quaternion_type.Q3
  let q1 := if iFlags &&& v.F_3DOF_B_BASIC ≠ 0 then quaternion_type.Q3M else q0
  let q2 := if iFlags &&& v.F_3DOF_Y_BASIC ≠ 0 then quaternion_type.Q3G else q1
  let q3 := if iFlags &&& v.F_6DOF_GB_BASIC ≠ 0 then quaternion_type.Q6MA else q2
  let q4 := if iFlags &&& v.F_6DOF_GY_KALMAN ≠ 0 then quaternion_type.Q6AG else q3
  if iFlags &&& v.F_9DOF_GBY_KALMAN ≠ 0 then quaternion_type.Q9 else q4

/-- The last-wins rule in the words of the specification: the designation of the
last variant, in the given order, whose feature bit is set, and the most basic
type `Q3` when none is. -/
def lastEnabled (candidates : List (Bool × quaternion_type)) : quaternion_type :=
  ((candidates.filter (fun x => x.1)).getLast?.map (fun x => x.2)).getD quaternion_type.Q3

/-- The variants in the fixed priority order, each with whether its feature bit is
set in the bitmask. -/
def variantBits (v : Variants) (iFlags : Nat) : List (Bool × quaternion_type) :=
  [(decide (iFlags &&& v.F_3DOF_B_BASIC ≠ 0), quaternion_type.Q3M),
   (decide (iFlags &&& v.F_3DOF_Y_BASIC ≠ 0), quaternion_type.Q3G),
   (decide (iFlags &&& v.F_6DOF_GB_BASIC ≠ 0), quaternion_type.Q6MA),
   (decide (iFlags &&& v.F_6DOF_GY_KALMAN ≠ 0), quaternion_type.Q6AG),
   (decide (iFlags &&& v.F_9DOF_GBY_KALMAN ≠ 0), quaternion_type.Q9)]

/-- Everything `initializeFusionEngine` works on: the machine of the sensor
registry, the control subsystem behind `pControlSubsystem`, and the blocks `τ`
of the external fusion and calibration code. -/
structure Engine (σ τ : Type) where
  machine : Machine σ
  control : ControlSubsystem
  fusion : τ

/-- Function `initializeFusionEngine` from the call of `initializeSensors` to its end. -/
def initializeFusionEngineRest {σ τ : Type} (b : Build) (v : Variants)
    (drv : FnId → Driver σ) (c : Collaborators τ) (fuel : Nat) (e : Engine σ τ) :
    Option (Outcome (Engine σ τ)) :=
  match initializeSensors drv fuel e.machine with
  | none => none
  | some (status, m2) =>
    let g3 := if status ≠ SENSOR_ERROR_NONE then setStatus m2.sfg fusion_status_t.SOFT_FAULT
      else m2.sfg
    let control : ControlSubsystem :=
      { e.control with
        DefaultQuaternionPacketType := defaultQuaternion v g3.iFlags
        QuaternionPacketType := defaultQuaternion v g3.iFlags }
    let t1 := c.fInitializeFusion g3 e.fusion
    let g4 := { g3 with loopcounter := 0 }
    let t2 := if b.F_USING_MAG ≠ 0 then c.fInitializeMagCalibration t1 else t1
    let t3 := if b.F_USING_ACCEL ≠ 0 then c.fInitializeAccelCalibration t2 else t2
    let g5 := clearFIFOs b g4
    let g6 := if status = SENSOR_ERROR_NONE then setStatus g5 fusion_status_t.NORMAL else g5
    some (Outcome.returned { machine := { m2 with sfg := g6 }, control := control, fusion := t3 })

/-- Function `initializeFusionEngine`.  `I2CInitialize` is the missing bus bring-up
("an I2C initializer taking two pin identifiers and returning
success/failure"), acting on the driver-side state. -/
def initializeFusionEngine {σ τ : Type} (b : Build) (v : Variants)
    (drv : FnId → Driver σ) (I2CInitialize : Int → Int → σ → Bool × σ)
    (c : Collaborators τ) (fuel : Nat) (e : Engine σ τ)
    (pin_i2c_sda pin_i2c_scl : Int) : Option (Outcome (Engine σ τ)) :=
  let g0 := setStatus e.machine.sfg fusion_status_t.INITIALIZING
  let i2c := I2CInitialize pin_i2c_sda pin_i2c_scl e.machine.env
  let e1 : Engine σ τ := { e with machine := { e.machine with sfg := g0, env := i2c.2 } }
  if i2c.1 = false then
    let e2 : Engine σ τ :=
      { e1 with machine :=
          { e1.machine with sfg := setStatus e1.machine.sfg fusion_status_t.HARD_FAULT } }
    if StatusSubsystem.traps fusion_status_t.HARD_FAULT then some (Outcome.trapped e2)
    else initializeFusionEngineRest b v drv c fuel e2
  else initializeFusionEngineRest b v drv c fuel e1

/-! ## Specification vocabulary for the read loop -/

/-- The first nonzero code of a list, `0` when there is none. -/
def firstNonzero : List Int → Int
  | [] => 0
  | c :: cs => if c ≠ 0 then c else firstNonzero cs

/-- The codes of a log taken sensor by sensor in the given order of sensors. -/
def codesInOrder (order : List Ptr) (log : List CapCall) : List Int :=
  order.flatMap (fun p => (log.filter (fun c => c.node = p)).map (fun c => c.code))

/-- The capability, if any, that one cycle invokes on node `p`: `initialize` when
the node is not initialized, `read` when it is and the cycle index is a multiple
of its schedule. -/
def dueCall (sensors : Ptr → PhysicalSensor) (read_loop_counter : Nat) (p : Ptr) :
    Option (CapKind × Ptr) :=
  if (sensors p).isInitialized = 0 then some (CapKind.init, p)
  else if read_loop_counter % (sensors p).schedule = 0 then some (CapKind.read, p)
  else none

/-- How `readSensors` folds one returned code into its running status. -/
def foldStatus (status : Int) (c : CapCall) : Int :=
  match c.kind with
  | CapKind.read => if status = 0 then c.code else status
  | CapKind.init => if c.code ≠ 0 then c.code else status

/-- How `initializeSensors` folds one returned code into its running status. -/
def firstWins (status : Int) (c : CapCall) : Int :=
  if status = 0 then c.code else status

/-- A sample whose three axes are `int16_t` values. -/
def Sample.inRange (s : Sample) : Prop :=
  -32768 ≤ s.chx ∧ s.chx ≤ 32767 ∧ -32768 ≤ s.chy ∧ s.chy ≤ 32767 ∧
  -32768 ≤ s.chz ∧ s.chz ≤ 32767

instance (s : Sample) : Decidable s.inRange := by
  unfold Sample.inRange; infer_instance

/-- The three axes of a sample (the index `j` of the averaging loops, with the
source's names `CHX`, `CHY`, `CHZ`). -/
inductive Channel where
  | CHX
  | CHY
  | CHZ
  deriving DecidableEq, Repr

/-- The value of a sample on one axis. -/
def Sample.channel (s : Sample) : Channel → Int
  | Channel.CHX => s.chx
  | Channel.CHY => s.chy
  | Channel.CHZ => s.chz

/-- The value of `iSum[j]` for one axis. -/
def ChannelSums.channel (s : ChannelSums) : Channel → Int
  | Channel.CHX => s.chx
  | Channel.CHY => s.chy
  | Channel.CHZ => s.chz

/-- The status subsystem after receiving one call. -/
def StatusSubsystem.apply (p : StatusSubsystem) : StatusCall → StatusSubsystem
  | StatusCall.set status => p.set status
  | StatusCall.queue status => p.queue status
  | StatusCall.update => p.update

/-- The status subsystem after receiving the calls of a list, in order. -/
def StatusSubsystem.replay (p : StatusSubsystem) (calls : List StatusCall) : StatusSubsystem :=
  calls.foldl StatusSubsystem.apply p

/-- The status write that conditioning makes for a sensor class: `set(SOFT_FAULT)`
when the class is compiled in, enabled and its overflow counter is positive. -/
def overflowFault (b : Build) (sfg : SensorFusionGlobals) (k : SensorClass) : List StatusCall :=
  if k.feature b ≠ 0 ∧ (k.block sfg).isEnabled = true ∧ 0 < (k.block sfg).iFIFOExceeded then
    [StatusCall.set fusion_status_t.SOFT_FAULT]
  else []

/-- The sensor classes that conditioning processes, in the order of the source:
those compiled in whose `isEnabled` flag is set at the start of conditioning. -/
def processedClasses (b : Build) (sfg : SensorFusionGlobals) : List SensorClass :=
  [SensorClass.accel, SensorClass.mag, SensorClass.gyro].filter
    (fun k => decide (k.feature b ≠ 0) && (k.block sfg).isEnabled)

/-- What `installSensor` has checked or what the data model requires of a linked
node: both capabilities are non-null and the schedule is at least 1. -/
def NodeOk (n : PhysicalSensor) : Prop :=
  n.read ≠ none ∧ n.initialize_ ≠ none ∧ 1 ≤ n.schedule

instance (n : PhysicalSensor) : Decidable (NodeOk n) := by
  unfold NodeOk; infer_instance

/-- No `initialize` invocation of the log fails after an earlier failure: for each
entry that is a failing `initialize`, every entry before it has code 0. -/
def InitFailuresLead (log : List CapCall) : Prop :=
  log.Pairwise (fun d c => (c.kind = CapKind.init ∧ c.code ≠ 0) → d.code = 0)

instance (log : List CapCall) : Decidable (InitFailuresLead log) := by
  unfold InitFailuresLead; infer_instance

/-- What one pass of the read loop over the nodes `ps` does to the machine `m`
entered with the running `status`: `new` is the list of capability invocations
it adds to the log, `st` and `m1` are the status and the machine it ends with. -/
structure LoopEffect {σ : Type} (ctr : Nat) (ps : List Ptr) (status : Int) (m : Machine σ)
    (st : Int) (m1 : Machine σ) (new : List CapCall) : Prop where
  trace_eq : m1.trace = m.trace ++ new
  calls_eq : new.map (fun c => (c.kind, c.node)) = ps.filterMap (dueCall m.sensors ctr)
  status_eq : st = new.foldl foldStatus status
  frame_out : ∀ q, q ∉ ps → m1.sensors q = m.sensors q
  frame_fields : ∀ q,
    m1.sensors q = { m.sensors q with isInitialized := (m1.sensors q).isInitialized }
  head_eq : m1.sfg.pSensors = m.sfg.pSensors
  status_sub_eq : m1.sfg.pStatusSubsystem = m.sfg.pStatusSubsystem
  read_fail_clears : ∀ c ∈ new, c.kind = CapKind.read → c.code ≠ 0 →
    (m1.sensors c.node).isInitialized = 0
  idle_same : ∀ q ∈ ps, dueCall m.sensors ctr q = none → m1.sensors q = m.sensors q

/-- Successive `readSensors` calls, one per cycle index, each on the machine left
by the previous one; the result lists, cycle by cycle, the capability
invocations that the cycle added to the log. -/
def cycleLogs {σ : Type} (drv : FnId → Driver σ) (fuel : Nat) :
    Machine σ → List Nat → Option (List (List CapCall))
  | _, [] => some []
  | m, i :: rest =>
    match readSensors drv fuel m i with
    | none => none
    | some (_, m1) =>
      (cycleLogs drv fuel m1 rest).map (fun logs => m1.trace.drop m.trace.length :: logs)

/-! ## Concrete inputs used in the examples below -/

/-- A cleared FIFO (count 0, overflow 0) whose array has 256 slots. -/
def clearedFifo256 : FifoSensor :=
  { isEnabled := true, iFIFOCount := 0, iFIFOExceeded := 0,
    iGsFIFO := List.replicate 256 ⟨0, 0, 0⟩, iGs := ⟨0, 0, 0⟩ }

/-- A cleared FIFO (count 0, overflow 0) whose array has 4 slots. -/
def clearedFifo4 : FifoSensor :=
  { isEnabled := true, iFIFOCount := 0, iFIFOExceeded := 0,
    iGsFIFO := List.replicate 4 ⟨0, 0, 0⟩, iGs := ⟨0, 0, 0⟩ }

/-- The 256-slot FIFO after 256 pushes with capacity 256. -/
def filledFifo256 : FifoSensor :=
  pushAll clearedFifo256 256 (List.replicate 256 ⟨1, 1, 1⟩)

/-- A FIFO with 256 slots holding 255 samples, overflow counter at 3. -/
def fifoAt255 : FifoSensor :=
  { isEnabled := true, iFIFOCount := 255, iFIFOExceeded := 3,
    iGsFIFO := List.replicate 256 ⟨0, 0, 0⟩, iGs := ⟨0, 0, 0⟩ }

/-- A FIFO with 4 slots holding one sample, overflow counter at 3. -/
def fifoAt1 : FifoSensor :=
  { isEnabled := true, iFIFOCount := 1, iFIFOExceeded := 3,
    iGsFIFO := [⟨5, 5, 5⟩, ⟨0, 0, 0⟩, ⟨0, 0, 0⟩, ⟨0, 0, 0⟩], iGs := ⟨0, 0, 0⟩ }

/-- A status subsystem in state NORMAL with nothing queued or logged. -/
def idleStatus : StatusSubsystem :=
  { status := fusion_status_t.NORMAL, next := fusion_status_t.NORMAL, calls := [] }

/-- A context with an empty registry and the three FIFOs in the states given. -/
def globalsWith (accel mag gyro : FifoSensor) : SensorFusionGlobals :=
  { iFlags := 0, loopcounter := 0, pSensors := none,
    Accel := accel, Mag := mag, Gyro := gyro, pStatusSubsystem := idleStatus }

/-- A build with the accelerometer and the gyroscope compiled in. -/
def buildAccelGyro : Build :=
  { F_USING_ACCEL := 1, F_USING_MAG := 0, F_USING_GYRO := 4 }

/-- A node whose members hold arbitrary leftovers (caller-owned, not yet installed). -/
def staleNode : PhysicalSensor :=
  { deviceInfo := { deviceInstance := 7, functionParam := some 3, idleFunction := some 4 }
    initialize_ := none, read := none, addr := 0, schedule := 0, isInitialized := 1, next := none }

/-- A context with an empty registry. -/
def emptyGlobals : SensorFusionGlobals := globalsWith clearedFifo4 clearedFifo4 clearedFifo4

/-- The registry holding the single node 1 (installed with schedule 1). -/
def oneSensor : SensorFusionGlobals × (Ptr → PhysicalSensor) :=
  installAll [{ pSensor := 1, addr := 30, schedule := 1, initialize_ := 10, read := 11 }]
    emptyGlobals (fun _ => staleNode)

/-- Node 1 installed a second time into the registry that already links it. -/
def oneSensorTwice : Int × Option SensorFusionGlobals × (Ptr → PhysicalSensor) :=
  installSensor (some oneSensor.1) oneSensor.2 (some 1) 30 1 none (some 10) (some 11)

/-- A driver outcome that leaves the sensor blocks of the context as they are. -/
def driverReturn {σ : Type} (code : Int) (flag : Nat) (g : SensorFusionGlobals) (e : σ) :
    DriverResult σ :=
  { code := code, isInitialized := flag, Accel := g.Accel, Mag := g.Mag, Gyro := g.Gyro, env := e }

/-- The registry after installing node 1 (schedule 1, functions 10 and 11) and then
node 2 (schedule 2, functions 20 and 21); both nodes carry a nonzero flag. -/
def twoSensors : SensorFusionGlobals × (Ptr → PhysicalSensor) :=
  installAll
    [{ pSensor := 1, addr := 30, schedule := 1, initialize_ := 10, read := 11 },
     { pSensor := 2, addr := 31, schedule := 2, initialize_ := 20, read := 21 }]
    emptyGlobals (fun _ => staleNode)

/-- Drivers for the schedule scenario.  The driver-side state counts the reads of
node 2; its read (function 21) fails with code 7 on its second invocation only;
its initialize (function 20) succeeds and sets the flag to 2.  Everything else
succeeds and leaves the flag alone. -/
def scenarioDrivers : FnId → Driver Nat := fun f _ n g e =>
  if f = 21 then driverReturn (if e = 1 then 7 else 0) n.isInitialized g (e + 1)
  else if f = 20 then driverReturn 0 2 g e
  else driverReturn 0 n.isInitialized g e

/-- The machine the schedule scenario starts from. -/
def scenarioMachine : Machine Nat :=
  { sfg := twoSensors.1, sensors := twoSensors.2, env := 0, trace := [] }

/-- Drivers that fail: the read of node 1 (function 11) returns 5, the read of node 2
(function 21) and of node 3 (function 31) return 7, the initialize of node 2
(function 20) returns 9. -/
def failingDrivers : FnId → Driver Unit := fun f _ n g e =>
  if f = 11 then driverReturn 5 n.isInitialized g e
  else if f = 21 then driverReturn 7 n.isInitialized g e
  else if f = 31 then driverReturn 7 n.isInitialized g e
  else if f = 20 then driverReturn 9 n.isInitialized g e
  else driverReturn 0 n.isInitialized g e

/-- The two-sensor registry with failing drivers. -/
def failingMachine : Machine Unit :=
  { sfg := twoSensors.1, sensors := twoSensors.2, env := (), trace := [] }

/-- Nodes 1, 2, 3 installed in this order (schedule 1 each); node 2 is not
initialized, nodes 1 and 3 are. -/
def threeSensors : SensorFusionGlobals × (Ptr → PhysicalSensor) :=
  installAll
    [{ pSensor := 1, addr := 30, schedule := 1, initialize_ := 10, read := 11 },
     { pSensor := 2, addr := 31, schedule := 1, initialize_ := 20, read := 21 },
     { pSensor := 3, addr := 32, schedule := 1, initialize_ := 30, read := 31 }]
    emptyGlobals (fun q => if q = 2 then { staleNode with isInitialized := 0 } else staleNode)

/-- The three-sensor registry with failing drivers. -/
def failingMachine3 : Machine Unit :=
  { sfg := threeSensors.1, sensors := threeSensors.2, env := (), trace := [] }

/-- A FIFO block of a class that is switched off at run time (`isEnabled` false),
holding one sample, overflow counter at 3. -/
def disabledFifo : FifoSensor :=
  { isEnabled := false, iFIFOCount := 1, iFIFOExceeded := 3,
    iGsFIFO := [⟨5, 5, 5⟩, ⟨0, 0, 0⟩, ⟨0, 0, 0⟩, ⟨0, 0, 0⟩], iGs := ⟨5, 5, 5⟩ }

/-- Collaborators that correct nothing and keep no state. -/
def idleCollaborators : Collaborators Unit :=
  { ApplyAccelHAL := fun s => s.iGsFIFO
    ApplyMagHAL := fun s => s.iGsFIFO
    ApplyGyroHAL := fun s => s.iGsFIFO
    fInvertAccelCal := fun _ t => t
    fUpdateAccelBuffer := fun _ t => t
    fInvertMagCal := fun _ t => t
    iMagBufferReadOnly := fun _ => false
    iUpdateMagBuffer := fun _ _ t => t
    fRunMagCalibration := fun _ _ t => t
    fFuseSensors := fun _ _ _ t => t
    fInitializeFusion := fun _ t => t
    fInitializeMagCalibration := fun t => t
    fInitializeAccelCalibration := fun t => t }

/-- A FIFO block holding the three samples (-7, 1, 4), (2, 1, 4), (0, 2, 4). -/
def fifoThree : FifoSensor :=
  { isEnabled := true, iFIFOCount := 3, iFIFOExceeded := 0,
    iGsFIFO := [⟨-7, 1, 4⟩, ⟨2, 1, 4⟩, ⟨0, 2, 4⟩, ⟨9, 9, 9⟩], iGs := ⟨0, 0, 0⟩ }

/-- A build with all five tested estimation variants compiled in, one bit each. -/
def allVariants : Variants :=
  { F_3DOF_B_BASIC := 0x0400, F_3DOF_Y_BASIC := 0x0800, F_6DOF_GB_BASIC := 0x1000,
    F_6DOF_GY_KALMAN := 0x2000, F_9DOF_GBY_KALMAN := 0x4000 }

/-- A bus bring-up that succeeds. -/
def i2cOk : Int → Int → Unit → Bool × Unit := fun _ _ e => (true, e)

/-- Drivers that all succeed and leave the flag set. -/
def goodDrivers : FnId → Driver Unit := fun _ _ _ g e => driverReturn 0 1 g e

/-- The engine on the two-sensor registry, feature bitmask with the 3DOF-mag and the
6DOF accel+gyro bits set. -/
def twoSensorEngine : Engine Unit Unit :=
  { machine :=
      { sfg := { twoSensors.1 with iFlags := 0x2400 }, sensors := twoSensors.2,
        env := (), trace := [] }
    control := { DefaultQuaternionPacketType := quaternion_type.Q3,
                 QuaternionPacketType := quaternion_type.Q3 }
    fusion := () }

/-! # Properties -/

/-! ## Sample conditioning -/

/-- C1: `conditionSample` treats the three axes independently; an axis equal to
`-32768` becomes `-32767` and every other value of an axis is left as it is. -/
theorem conditionSample_axes (s : Sample) :
    (conditionSample s).chx = (if s.chx = -32768 then -32767 else s.chx) ∧
    (conditionSample s).chy = (if s.chy = -32768 then -32767 else s.chy) ∧
    (conditionSample s).chz = (if s.chz = -32768 then -32767 else s.chz) := by
  obtain ⟨x, y, z⟩ := s
  by_cases hx : x = -32768 <;> by_cases hy : y = -32768 <;> by_cases hz : z = -32768 <;>
    simp [conditionSample, toInt16, hx, hy, hz]

/-! ## FIFO ingestion -/

lemma take_succ_set (l : List Sample) (c : Nat) (x : Sample) (h : c < l.length) :
    (l.set c x).take (c + 1) = l.take c ++ [x] := by
  rw [List.set_eq_take_append_cons_drop, if_pos h]
  have hl : (l.take c).length = c := by simp; omega
  rw [List.take_append_eq_append_take, hl]
  simp [List.take_take]

lemma addToFifo_room (s : FifoSensor) (cap : Nat) (x : Sample)
    (h : s.iFIFOCount < cap) (h255 : s.iFIFOCount < 255) :
    addToFifo s cap x =
      { s with iGsFIFO := s.iGsFIFO.set s.iFIFOCount x
               iFIFOCount := s.iFIFOCount + 1
               iFIFOExceeded := 0 } := by
  have h1 : s.iFIFOCount % 256 = s.iFIFOCount := Nat.mod_eq_of_lt (by omega)
  have h2 : (s.iFIFOCount + 1) % 256 = s.iFIFOCount + 1 := Nat.mod_eq_of_lt (by omega)
  simp [addToFifo, h1, h2, h]

lemma addToFifo_full (s : FifoSensor) (cap : Nat) (x : Sample)
    (h : s.iFIFOCount = cap) (h255 : cap ≤ 255) :
    addToFifo s cap x = { s with iFIFOExceeded := (s.iFIFOExceeded + 1) % 65536 } := by
  have h1 : ¬ (s.iFIFOCount % 256 < cap) := by
    rw [Nat.mod_eq_of_lt (by omega)]; omega
  simp [addToFifo, h1]

lemma pushAll_room (samples : List Sample) :
    ∀ (s : FifoSensor) (cap : Nat),
      s.iFIFOCount + samples.length ≤ cap → s.iFIFOCount + samples.length ≤ 255 →
      s.iFIFOCount + samples.length ≤ s.iGsFIFO.length →
      (pushAll s cap samples).iFIFOCount = s.iFIFOCount + samples.length ∧
      (pushAll s cap samples).iFIFOExceeded = (if samples = [] then s.iFIFOExceeded else 0) ∧
      (pushAll s cap samples).iGsFIFO =
        s.iGsFIFO.take s.iFIFOCount ++ samples ++
          s.iGsFIFO.drop (s.iFIFOCount + samples.length) := by
  induction samples with
  | nil => intro s cap _ _ _; simp [pushAll]
  | cons x xs ih =>
    intro s cap hcap h255 hlen
    simp only [List.length_cons] at hcap hlen h255
    have hstep := addToFifo_room s cap x (by omega) (by omega)
    have hfold : pushAll s cap (x :: xs) = pushAll (addToFifo s cap x) cap xs := rfl
    rw [hfold, hstep]
    obtain ⟨hc, he, hf⟩ := ih
      { s with iGsFIFO := s.iGsFIFO.set s.iFIFOCount x
               iFIFOCount := s.iFIFOCount + 1
               iFIFOExceeded := 0 } cap
      (by simp only; omega) (by simp only; omega) (by simp only [List.length_set]; omega)
    refine ⟨?_, ?_, ?_⟩
    · rw [hc]; simp only [List.length_cons]; omega
    · rw [he]; simp
    · rw [hf]
      simp only [List.length_cons]
      have hlt : s.iFIFOCount < s.iGsFIFO.length := by omega
      rw [take_succ_set _ _ _ hlt, List.drop_set_of_lt x s.iGsFIFO (by omega)]
      have h4 : s.iFIFOCount + 1 + xs.length = s.iFIFOCount + (xs.length + 1) := by omega
      rw [h4]
      simp [List.append_assoc]

/-- C2 (as amended): for every capacity `C ≤ 255` not larger than the FIFO array,
starting from a cleared FIFO, `C` calls of `addToFifo` give count `C`, overflow `0`
and the pushed samples in slots `0..C-1` in push order (the other slots keep
their content); one more call leaves every slot and the count unchanged and
increases the overflow counter by exactly one. -/
theorem addToFifo_fill_then_overflow (C : Nat) (sensor : FifoSensor)
    (samples : List Sample) (extra : Sample)
    (hC : C ≤ 255) (harray : C ≤ sensor.iGsFIFO.length)
    (hcount : sensor.iFIFOCount = 0) (hexc : sensor.iFIFOExceeded = 0)
    (hsamples : samples.length = C) :
    (pushAll sensor C samples).iFIFOCount = C ∧
    (pushAll sensor C samples).iFIFOExceeded = 0 ∧
    (∀ i, i < C → (pushAll sensor C samples).iGsFIFO[i]? = samples[i]?) ∧
    (pushAll sensor C samples).iGsFIFO = samples ++ sensor.iGsFIFO.drop C ∧
    (addToFifo (pushAll sensor C samples) C extra).iGsFIFO = (pushAll sensor C samples).iGsFIFO ∧
    (addToFifo (pushAll sensor C samples) C extra).iFIFOCount = C ∧
    (addToFifo (pushAll sensor C samples) C extra).iFIFOExceeded
      = (pushAll sensor C samples).iFIFOExceeded + 1 := by
  obtain ⟨hc, he, hf⟩ := pushAll_room samples sensor C (by omega) (by omega) (by omega)
  rw [hcount] at hc hf
  simp only [Nat.zero_add, List.take_zero, List.nil_append, hsamples] at hc hf
  have he0 : (pushAll sensor C samples).iFIFOExceeded = 0 := by
    rw [he]; split_ifs <;> simp [hexc]
  have hfull := addToFifo_full (pushAll sensor C samples) C extra hc hC
  refine ⟨hc, he0, ?_, hf, ?_, ?_, ?_⟩
  · intro i hi
    rw [hf, List.getElem?_append_left (by omega)]
  · rw [hfull]
  · rw [hfull]; exact hc
  · rw [hfull]; simp [he0]

/-- C2, example: capacity 2 on a 4-slot array. -/
theorem addToFifo_fill_then_overflow_witness :
    (pushAll clearedFifo4 2 [⟨1, 2, 3⟩, ⟨4, 5, 6⟩]).iFIFOCount = 2 ∧
    (pushAll clearedFifo4 2 [⟨1, 2, 3⟩, ⟨4, 5, 6⟩]).iFIFOExceeded = 0 ∧
    (∀ i, i < 2 → (pushAll clearedFifo4 2 [⟨1, 2, 3⟩, ⟨4, 5, 6⟩]).iGsFIFO[i]?
      = [(⟨1, 2, 3⟩ : Sample), ⟨4, 5, 6⟩][i]?) ∧
    (pushAll clearedFifo4 2 [⟨1, 2, 3⟩, ⟨4, 5, 6⟩]).iGsFIFO
      = [⟨1, 2, 3⟩, ⟨4, 5, 6⟩] ++ clearedFifo4.iGsFIFO.drop 2 ∧
    (addToFifo (pushAll clearedFifo4 2 [⟨1, 2, 3⟩, ⟨4, 5, 6⟩]) 2 ⟨7, 8, 9⟩).iGsFIFO
      = (pushAll clearedFifo4 2 [⟨1, 2, 3⟩, ⟨4, 5, 6⟩]).iGsFIFO ∧
    (addToFifo (pushAll clearedFifo4 2 [⟨1, 2, 3⟩, ⟨4, 5, 6⟩]) 2 ⟨7, 8, 9⟩).iFIFOCount = 2 ∧
    (addToFifo (pushAll clearedFifo4 2 [⟨1, 2, 3⟩, ⟨4, 5, 6⟩]) 2 ⟨7, 8, 9⟩).iFIFOExceeded
      = (pushAll clearedFifo4 2 [⟨1, 2, 3⟩, ⟨4, 5, 6⟩]).iFIFOExceeded + 1 :=
  addToFifo_fill_then_overflow 2 clearedFifo4 [⟨1, 2, 3⟩, ⟨4, 5, 6⟩] ⟨7, 8, 9⟩
    (by decide) (by decide) rfl rfl rfl

set_option maxRecDepth 1000000 in
/-- C2, counterexample: with capacity 256 on a 256-slot array, after 256 pushes
into a cleared FIFO the count is 0 (not 256), and the 257th push is not
rejected: it overwrites slot 0 and leaves the overflow counter at 0. -/
theorem addToFifo_capacity_256_not_rejected :
    filledFifo256.iFIFOCount = 0 ∧
    filledFifo256.iFIFOCount ≠ 256 ∧
    filledFifo256.iGsFIFO[0]? = some ⟨1, 1, 1⟩ ∧
    (addToFifo filledFifo256 256 ⟨2, 2, 2⟩).iGsFIFO[0]? = some ⟨2, 2, 2⟩ ∧
    (addToFifo filledFifo256 256 ⟨2, 2, 2⟩).iFIFOExceeded = 0 ∧
    (addToFifo filledFifo256 256 ⟨2, 2, 2⟩).iFIFOExceeded ≠ filledFifo256.iFIFOExceeded + 1 := by
  decide

/-- C3 (as amended): for every FIFO state with count below the capacity and
below 255 (the slot being inside the array), one `addToFifo` call stores the
sample in slot number (old count), leaves every other slot unchanged, increases
the count by exactly one and sets the overflow counter to 0. -/
theorem addToFifo_append (s : FifoSensor) (cap : Nat) (x : Sample)
    (hroom : s.iFIFOCount < cap) (h255 : s.iFIFOCount < 255)
    (hslot : s.iFIFOCount < s.iGsFIFO.length) :
    (addToFifo s cap x).iGsFIFO[s.iFIFOCount]? = some x ∧
    (∀ j, j ≠ s.iFIFOCount → (addToFifo s cap x).iGsFIFO[j]? = s.iGsFIFO[j]?) ∧
    (addToFifo s cap x).iGsFIFO.length = s.iGsFIFO.length ∧
    (addToFifo s cap x).iFIFOCount = s.iFIFOCount + 1 ∧
    (addToFifo s cap x).iFIFOExceeded = 0 := by
  rw [addToFifo_room s cap x hroom h255]
  refine ⟨?_, ?_, ?_, rfl, rfl⟩
  · simp [List.getElem?_set_self hslot]
  · intro j hj
    simp [List.getElem?_set_ne (Ne.symm hj)]
  · simp

/-- C3, example: a push into slot 1 of a 4-slot FIFO whose overflow counter was 3. -/
theorem addToFifo_append_witness :
    (addToFifo fifoAt1 4 ⟨7, 8, 9⟩).iGsFIFO[fifoAt1.iFIFOCount]? = some ⟨7, 8, 9⟩ ∧
    (∀ j, j ≠ fifoAt1.iFIFOCount →
      (addToFifo fifoAt1 4 ⟨7, 8, 9⟩).iGsFIFO[j]? = fifoAt1.iGsFIFO[j]?) ∧
    (addToFifo fifoAt1 4 ⟨7, 8, 9⟩).iGsFIFO.length = fifoAt1.iGsFIFO.length ∧
    (addToFifo fifoAt1 4 ⟨7, 8, 9⟩).iFIFOCount = fifoAt1.iFIFOCount + 1 ∧
    (addToFifo fifoAt1 4 ⟨7, 8, 9⟩).iFIFOExceeded = 0 :=
  addToFifo_append fifoAt1 4 ⟨7, 8, 9⟩ (by decide) (by decide) (by decide)

set_option maxRecDepth 1000000 in
/-- C3, counterexample: with count 255 below capacity 256 the call stores the
sample in slot 255 but the count becomes 0 instead of 256. -/
theorem addToFifo_count_255_wraps :
    fifoAt255.iFIFOCount < 256 ∧
    (addToFifo fifoAt255 256 ⟨1, 1, 1⟩).iGsFIFO[255]? = some ⟨1, 1, 1⟩ ∧
    (addToFifo fifoAt255 256 ⟨1, 1, 1⟩).iFIFOCount = 0 ∧
    (addToFifo fifoAt255 256 ⟨1, 1, 1⟩).iFIFOCount ≠ fifoAt255.iFIFOCount + 1 := by
  decide

/-- C4: the invariant `count ≤ capacity` is preserved by `addToFifo` (called
with that capacity, for every sample and prior overflow value) and, for each of
the three FIFOs, by `clearFIFOs`. -/
theorem fifo_count_le_capacity_preserved (s : FifoSensor) (cap : Nat) (x : Sample)
    (b : Build) (sfg : SensorFusionGlobals) (capA capM capG : Nat)
    (hs : s.iFIFOCount ≤ cap)
    (hA : sfg.Accel.iFIFOCount ≤ capA) (hM : sfg.Mag.iFIFOCount ≤ capM)
    (hG : sfg.Gyro.iFIFOCount ≤ capG) :
    (addToFifo s cap x).iFIFOCount ≤ cap ∧
    (clearFIFOs b sfg).Accel.iFIFOCount ≤ capA ∧
    (clearFIFOs b sfg).Mag.iFIFOCount ≤ capM ∧
    (clearFIFOs b sfg).Gyro.iFIFOCount ≤ capG := by
  refine ⟨?_, ?_, ?_, ?_⟩
  · unfold addToFifo
    by_cases h : s.iFIFOCount % 256 < cap
    · simp only [h, if_true]
      have := Nat.mod_le (s.iFIFOCount + 1) 256
      have h2 : (s.iFIFOCount + 1) % 256 ≤ s.iFIFOCount % 256 + 1 := by omega
      omega
    · simp only [h, if_false]; exact hs
  all_goals
    unfold clearFIFOs
    by_cases h1 : b.F_USING_ACCEL = 0 <;> by_cases h2 : b.F_USING_MAG = 0 <;>
      by_cases h3 : b.F_USING_GYRO = 0 <;> simp [h1, h2, h3, hA, hM, hG]

/-- C4, example: a full 1-slot-capacity push and a clear with the magnetometer
compiled out. -/
theorem fifo_count_le_capacity_preserved_witness :
    (addToFifo fifoAt1 1 ⟨7, 8, 9⟩).iFIFOCount ≤ 1 ∧
    (clearFIFOs buildAccelGyro (globalsWith fifoAt1 fifoAt1 fifoAt255)).Accel.iFIFOCount ≤ 4 ∧
    (clearFIFOs buildAccelGyro (globalsWith fifoAt1 fifoAt1 fifoAt255)).Mag.iFIFOCount ≤ 1 ∧
    (clearFIFOs buildAccelGyro (globalsWith fifoAt1 fifoAt1 fifoAt255)).Gyro.iFIFOCount ≤ 255 :=
  fifo_count_le_capacity_preserved fifoAt1 1 ⟨7, 8, 9⟩ buildAccelGyro
    (globalsWith fifoAt1 fifoAt1 fifoAt255) 4 1 255
    (by decide) (by decide) (by decide) (by decide)

/-! ## Sensor registry -/

lemma traverse_congr (s1 s2 : Ptr → PhysicalSensor) :
    ∀ (fuel : Nat) (head : Option Ptr) (ps : List Ptr),
      traverse s1 fuel head = some ps → (∀ q ∈ ps, (s2 q).next = (s1 q).next) →
      traverse s2 fuel head = some ps := by
  intro fuel
  induction fuel with
  | zero =>
    intro head ps h _
    cases head with
    | none => simpa [traverse] using h
    | some p => simp [traverse] at h
  | succ f ih =>
    intro head ps h hq
    cases head with
    | none => simpa [traverse] using h
    | some p =>
      simp only [traverse, Option.map_eq_some'] at h ⊢
      obtain ⟨rest, hrest, rfl⟩ := h
      refine ⟨rest, ?_, rfl⟩
      rw [hq p (by simp)]
      exact ih _ _ hrest (fun q hqm => hq q (by simp [hqm]))

lemma traverse_mono (s : Ptr → PhysicalSensor) :
    ∀ (fuel : Nat) (head : Option Ptr) (ps : List Ptr),
      traverse s fuel head = some ps → traverse s (fuel + 1) head = some ps := by
  intro fuel
  induction fuel with
  | zero =>
    intro head ps h
    cases head with
    | none => simpa [traverse] using h
    | some p => simp [traverse] at h
  | succ f ih =>
    intro head ps h
    cases head with
    | none => simpa [traverse] using h
    | some p =>
      simp only [traverse, Option.map_eq_some'] at h
      obtain ⟨rest, hrest, rfl⟩ := h
      have := ih _ _ hrest
      simp [traverse, this]

lemma traverse_mono_le (s : Ptr → PhysicalSensor) (fuel fuel2 : Nat) (head : Option Ptr)
    (ps : List Ptr) (h : traverse s fuel head = some ps) (hle : fuel ≤ fuel2) :
    traverse s fuel2 head = some ps := by
  induction hle with
  | refl => exact h
  | step _ ih => exact traverse_mono s _ _ _ ih

lemma traverse_suffix (s : Ptr → PhysicalSensor) (p : Ptr) (b : List Ptr) :
    ∀ (a : List Ptr) (fuel : Nat) (head : Option Ptr),
      traverse s fuel head = some (a ++ p :: b) → traverse s fuel (some p) = some (p :: b) := by
  intro a
  induction a with
  | nil =>
    intro fuel head h
    cases head with
    | none => cases fuel <;> simp [traverse] at h
    | some q =>
      cases fuel with
      | zero => simp [traverse] at h
      | succ f =>
        simp only [traverse, Option.map_eq_some', List.nil_append] at h
        obtain ⟨rest, hrest, hcons⟩ := h
        simp only [List.cons.injEq] at hcons
        obtain ⟨rfl, rfl⟩ := hcons
        simp [traverse, hrest]
  | cons x a ih =>
    intro fuel head h
    cases head with
    | none => cases fuel <;> simp [traverse] at h
    | some q =>
      cases fuel with
      | zero => simp [traverse] at h
      | succ f =>
        simp only [traverse, Option.map_eq_some', List.cons_append] at h
        obtain ⟨rest, hrest, hcons⟩ := h
        simp only [List.cons.injEq] at hcons
        obtain ⟨rfl, rfl⟩ := hcons
        exact traverse_mono s _ _ _ (ih _ _ hrest)

lemma traverse_nodup (s : Ptr → PhysicalSensor) :
    ∀ (ps : List Ptr) (fuel : Nat) (head : Option Ptr),
      traverse s fuel head = some ps → ps.Nodup := by
  intro ps
  induction ps with
  | nil => intros; exact List.nodup_nil
  | cons p rest ih =>
    intro fuel head h
    cases head with
    | none => cases fuel <;> simp [traverse] at h
    | some q =>
      cases fuel with
      | zero => simp [traverse] at h
      | succ f =>
        have h0 := h
        simp only [traverse, Option.map_eq_some'] at h
        obtain ⟨rest2, hrest, hcons⟩ := h
        simp only [List.cons.injEq] at hcons
        obtain ⟨rfl, rfl⟩ := hcons
        refine List.nodup_cons.mpr ⟨?_, ih _ _ hrest⟩
        intro hmem
        obtain ⟨a, b, hab⟩ := List.append_of_mem hmem
        rw [hab] at hrest
        have h1 := traverse_mono s _ _ _ (traverse_suffix s q b a f _ hrest)
        rw [h0] at h1
        simp only [Option.some.injEq, List.cons.injEq, true_and] at h1
        have hlen := congrArg List.length h1
        rw [hab] at hlen
        simp at hlen
        omega

/-- C5: `installSensor` returns a nonzero code if and only if the context, the
node, the initialize capability or the read capability is null, and then the
context (with the head reference) and the whole node memory are returned as
they were, so the registry and every field of the passed node are unchanged. -/
theorem installSensor_null_rejected (sfg : Option SensorFusionGlobals)
    (sensors : Ptr → PhysicalSensor) (pSensor : Option Ptr) (addr schedule : Nat)
    (busInfo : Option Ptr) (initialize_ read : Option FnId) :
    ((installSensor sfg sensors pSensor addr schedule busInfo initialize_ read).1 ≠ 0 ↔
      (sfg = none ∨ pSensor = none ∨ initialize_ = none ∨ read = none)) ∧
    ((installSensor sfg sensors pSensor addr schedule busInfo initialize_ read).1 ≠ 0 →
      (installSensor sfg sensors pSensor addr schedule busInfo initialize_ read).2.1 = sfg ∧
      (installSensor sfg sensors pSensor addr schedule busInfo initialize_ read).2.2 = sensors ∧
      ∀ fuel head, traverse
        (installSensor sfg sensors pSensor addr schedule busInfo initialize_ read).2.2 fuel head
          = traverse sensors fuel head) := by
  cases sfg <;> cases pSensor <;> cases initialize_ <;> cases read <;> simp [installSensor]

/-- C6 (as amended): when the context, node and both capabilities are non-null and
the node is not already linked in the registry, `installSensor` returns 0, stores
the address, schedule and both capabilities in the node, and links it at the
head: the traversal afterwards is the new node followed by the previous
traversal, and no other node is modified. -/
theorem installSensor_links_at_head (g : SensorFusionGlobals)
    (sensors : Ptr → PhysicalSensor) (p : Ptr) (addr schedule : Nat)
    (busInfo : Option Ptr) (i r : FnId) (fuel : Nat) (ps : List Ptr)
    (hreg : traverse sensors fuel g.pSensors = some ps) (hfresh : p ∉ ps) :
    ∃ g1 sensors1,
      installSensor (some g) sensors (some p) addr schedule busInfo (some i) (some r)
        = (0, some g1, sensors1) ∧
      (sensors1 p).addr = addr ∧ (sensors1 p).schedule = schedule ∧
      (sensors1 p).initialize_ = some i ∧ (sensors1 p).read = some r ∧
      g1.pSensors = some p ∧
      traverse sensors1 (fuel + 1) g1.pSensors = some (p :: ps) ∧
      (∀ q, q ≠ p → sensors1 q = sensors q) := by
  refine ⟨_, _, rfl, ?_, ?_, ?_, ?_, rfl, ?_, ?_⟩
  · simp
  · simp
  · simp
  · simp
  · have h := traverse_congr sensors
      (Function.update sensors p
        { sensors p with
          deviceInfo := { deviceInstance := 0, functionParam := none, idleFunction := none }
          initialize_ := some i, read := some r, addr := addr, schedule := schedule
          next := g.pSensors }) fuel g.pSensors ps hreg
      (fun q hq => by
        have hne : q ≠ p := fun e => hfresh (e ▸ hq)
        simp [Function.update_noteq hne])
    simp [traverse, h]
  · intro q hq
    simp [Function.update_noteq hq]

/-- C6, example: installing node 2 into the registry that links node 1. -/
theorem installSensor_links_at_head_witness :
    ∃ g1 sensors1,
      installSensor (some oneSensor.1) oneSensor.2 (some 2) 31 2 none (some 20) (some 21)
        = (0, some g1, sensors1) ∧
      (sensors1 2).addr = 31 ∧ (sensors1 2).schedule = 2 ∧
      (sensors1 2).initialize_ = some 20 ∧ (sensors1 2).read = some 21 ∧
      g1.pSensors = some 2 ∧
      traverse sensors1 (1 + 1) g1.pSensors = some (2 :: [1]) ∧
      (∀ q, q ≠ 2 → sensors1 q = oneSensor.2 q) :=
  installSensor_links_at_head oneSensor.1 oneSensor.2 2 31 2 none 20 21 1 [1]
    (by decide) (by decide)

/-- C6, counterexample: node 1 is installed with non-null arguments into the
registry that already links it.  The call returns 0, but the previously linked
node is modified (its `next` now points to itself) and the traversal, which was
`[1]`, no longer ends: it is not the new node followed by the previous traversal. -/
theorem installSensor_twice_makes_cycle :
    traverse oneSensor.2 1 oneSensor.1.pSensors = some [1] ∧
    (oneSensor.2 1).next = none ∧
    oneSensorTwice.1 = 0 ∧
    (oneSensorTwice.2.1.map (fun g => g.pSensors)) = some (some 1) ∧
    (oneSensorTwice.2.2 1).next = some 1 ∧
    (∀ fuel, traverse oneSensorTwice.2.2 fuel (some 1) = none) ∧
    (∀ fuel, traverse oneSensorTwice.2.2 fuel (some 1) ≠ some [1, 1]) := by
  have hnext : (oneSensorTwice.2.2 1).next = some 1 := by decide
  have hcyc : ∀ fuel, traverse oneSensorTwice.2.2 fuel (some 1) = none := by
    intro fuel
    induction fuel with
    | zero => rfl
    | succ f ih => simp [traverse, hnext, ih]
  refine ⟨by decide, by decide, by decide, by decide, hnext, hcyc, ?_⟩
  intro fuel
  rw [hcyc fuel]
  simp

/-! ## The read loop -/

lemma readSensorsBody_spec {σ : Type} (drv : FnId → Driver σ) (ctr : Nat) (p : Ptr)
    (m : Machine σ) (status : Int) (hok : NodeOk (m.sensors p)) :
    ∃ st1 m1 e, readSensorsBody drv ctr p m status = some (st1, m1) ∧
      m1.trace = m.trace ++ e ∧
      e.map (fun c => (c.kind, c.node)) = (dueCall m.sensors ctr p).toList ∧
      st1 = e.foldl foldStatus status ∧
      (∀ q, q ≠ p → m1.sensors q = m.sensors q) ∧
      m1.sensors p = { m.sensors p with isInitialized := (m1.sensors p).isInitialized } ∧
      m1.sfg.pSensors = m.sfg.pSensors ∧
      m1.sfg.pStatusSubsystem = m.sfg.pStatusSubsystem ∧
      (∀ c ∈ e, c.kind = CapKind.read → c.code ≠ 0 → (m1.sensors p).isInitialized = 0) ∧
      (e = [] → m1.sensors p = m.sensors p) := by
  obtain ⟨hr, hi, hs⟩ := hok
  obtain ⟨f, hf⟩ := Option.ne_none_iff_exists'.mp hr
  obtain ⟨fi, hfi⟩ := Option.ne_none_iff_exists'.mp hi
  have hs0 : (m.sensors p).schedule ≠ 0 := by omega
  by_cases hflag : (m.sensors p).isInitialized = 0
  · have hbody : readSensorsBody drv ctr p m status =
        some (if (drv fi p (m.sensors p) m.sfg m.env).code ≠ SENSOR_ERROR_NONE
                then (drv fi p (m.sensors p) m.sfg m.env).code else status,
              m.afterCall CapKind.init p (drv fi p (m.sensors p) m.sfg m.env)) := by
      simp only [readSensorsBody, hflag, hfi, ne_eq, not_true_eq_false, if_false]
    refine ⟨_, _, [⟨CapKind.init, p, (drv fi p (m.sensors p) m.sfg m.env).code⟩], hbody,
      ?_, ?_, ?_, ?_, ?_, ?_, ?_, ?_, ?_⟩
    · simp [Machine.afterCall]
    · simp [dueCall, hflag]
    · simp [foldStatus, SENSOR_ERROR_NONE]
    · intro q hq; simp [Machine.afterCall, Function.update_noteq hq]
    · simp [Machine.afterCall]
    · simp [Machine.afterCall]
    · simp [Machine.afterCall]
    · simp
    · simp
  · by_cases hdue : ctr % (m.sensors p).schedule = 0
    · have hbody : readSensorsBody drv ctr p m status =
          some (if status = SENSOR_ERROR_NONE
                  then (drv f p (m.sensors p) m.sfg m.env).code else status,
                if (drv f p (m.sensors p) m.sfg m.env).code ≠ SENSOR_ERROR_NONE
                  then (m.afterCall CapKind.read p
                    (drv f p (m.sensors p) m.sfg m.env)).setInitialized p F_USING_NONE
                  else m.afterCall CapKind.read p (drv f p (m.sensors p) m.sfg m.env)) := by
        simp only [readSensorsBody, hflag, hs0, hdue, hf, ne_eq, not_false_eq_true, if_true,
            if_false]
      refine ⟨_, _, [⟨CapKind.read, p, (drv f p (m.sensors p) m.sfg m.env).code⟩], hbody,
          ?_, ?_, ?_, ?_, ?_, ?_, ?_, ?_, ?_⟩
      · split_ifs <;> simp [Machine.afterCall, Machine.setInitialized]
      · simp [dueCall, hflag, hdue]
      · simp [foldStatus, SENSOR_ERROR_NONE]
      · intro q hq
        split_ifs <;>
          simp [Machine.afterCall, Machine.setInitialized, Function.update_noteq hq]
      · split_ifs <;> simp [Machine.afterCall, Machine.setInitialized]
      · split_ifs <;> simp [Machine.afterCall, Machine.setInitialized]
      · split_ifs <;> simp [Machine.afterCall, Machine.setInitialized]
      · intro c hc _ hcode
        simp only [List.mem_singleton] at hc
        subst hc
        have hcode2 : (drv f p (m.sensors p) m.sfg m.env).code ≠ SENSOR_ERROR_NONE := hcode
        simp [hcode2, Machine.afterCall, Machine.setInitialized, F_USING_NONE]
      · simp
    · have hdue2 : ¬ (0 = ctr % (m.sensors p).schedule) := fun e => hdue e.symm
      have hbody : readSensorsBody drv ctr p m status = some (status, m) := by
        simp only [readSensorsBody, hflag, hs0, hdue2, ne_eq, not_false_eq_true, if_true,
            if_false]
      refine ⟨status, m, [], hbody, ?_, ?_, ?_, ?_, ?_, ?_, ?_, ?_, ?_⟩
      · simp
      · simp [dueCall, hflag, hdue]
      · simp
      · intro q _; rfl
      · rfl
      · rfl
      · rfl
      · simp
      · simp

lemma dueCall_node (sensors : Ptr → PhysicalSensor) (ctr : Nat) (p : Ptr) (x : CapKind × Ptr)
    (h : dueCall sensors ctr p = some x) : x.2 = p := by
  unfold dueCall at h
  split_ifs at h <;> simp at h <;> rw [← h]

lemma dueCall_congr (s1 s2 : Ptr → PhysicalSensor) (ctr : Nat) (p : Ptr) (h : s1 p = s2 p) :
    dueCall s1 ctr p = dueCall s2 ctr p := by
  simp [dueCall, h]

lemma filterMap_cons_toList {α β : Type} (f : α → Option β) (a : α) (l : List α) :
    (a :: l).filterMap f = (f a).toList ++ l.filterMap f := by
  cases h : f a <;> simp [List.filterMap_cons, h]

lemma readSensorsLoop_spec {σ : Type} (drv : FnId → Driver σ) (ctr : Nat) :
    ∀ (fuel : Nat) (head : Option Ptr) (m : Machine σ) (status : Int) (ps : List Ptr),
      traverse m.sensors fuel head = some ps → (∀ p ∈ ps, NodeOk (m.sensors p)) →
      ∃ st m1 new, readSensorsLoop drv ctr fuel head m status = some (st, m1) ∧
        LoopEffect ctr ps status m st m1 new := by
  intro fuel
  induction fuel with
  | zero =>
    intro head m status ps h _
    cases head with
    | some p => simp [traverse] at h
    | none =>
      simp only [traverse, Option.some.injEq] at h
      subst h
      exact ⟨status, m, [], rfl, ⟨by simp, by simp, by simp, fun _ _ => rfl, fun _ => rfl,
        rfl, rfl, by simp, by simp⟩⟩
  | succ f ih =>
    intro head m status ps h hok
    cases head with
    | none =>
      simp only [traverse, Option.some.injEq] at h
      subst h
      exact ⟨status, m, [], rfl, ⟨by simp, by simp, by simp, fun _ _ => rfl, fun _ => rfl,
        rfl, rfl, by simp, by simp⟩⟩
    | some p =>
      have hnd := traverse_nodup m.sensors ps _ _ h
      simp only [traverse, Option.map_eq_some'] at h
      obtain ⟨rest, hrest, rfl⟩ := h
      obtain ⟨hp_notin, _⟩ := List.nodup_cons.mp hnd
      obtain ⟨st1, m1, e, hbody, he_tr, he_calls, he_st, he_frame, he_fields, he_head,
        he_sub, he_clear, he_idle⟩ :=
        readSensorsBody_spec drv ctr p m status (hok p (by simp))
      have hne : ∀ q ∈ rest, q ≠ p := fun q hq e => hp_notin (e ▸ hq)
      have hnext : (m1.sensors p).next = (m.sensors p).next := by rw [he_fields]
      have hrest1 : traverse m1.sensors f (m1.sensors p).next = some rest := by
        rw [hnext]
        exact traverse_congr m.sensors m1.sensors f _ rest hrest
          (fun q hq => by rw [he_frame q (hne q hq)])
      have hok1 : ∀ q ∈ rest, NodeOk (m1.sensors q) := fun q hq => by
        rw [he_frame q (hne q hq)]; exact hok q (by simp [hq])
      obtain ⟨st, m2, new2, hloop, hE⟩ := ih (m1.sensors p).next m1 st1 rest hrest1 hok1
      have he_node : ∀ c ∈ e, c.node = p := by
        intro c hc
        have hmem : (c.kind, c.node) ∈ e.map (fun c => (c.kind, c.node)) :=
          List.mem_map.mpr ⟨c, hc, rfl⟩
        rw [he_calls] at hmem
        cases hd : dueCall m.sensors ctr p with
        | none => simp [hd] at hmem
        | some x =>
          simp only [hd, Option.toList_some, List.mem_singleton] at hmem
          have := dueCall_node _ _ _ _ hd
          rw [← hmem] at this
          exact this
      have hdue_rest : rest.filterMap (dueCall m1.sensors ctr)
          = rest.filterMap (dueCall m.sensors ctr) := by
        apply List.filterMap_congr
        intro q hq
        exact dueCall_congr _ _ _ _ (he_frame q (hne q hq))
      refine ⟨st, m2, e ++ new2, ?_, ?_⟩
      · simp only [readSensorsLoop, hbody]
        exact hloop
      · refine ⟨?_, ?_, ?_, ?_, ?_, ?_, ?_, ?_, ?_⟩
        · rw [hE.trace_eq, he_tr, List.append_assoc]
        · rw [List.map_append, he_calls, hE.calls_eq, hdue_rest, filterMap_cons_toList]
        · rw [List.foldl_append, ← he_st, hE.status_eq]
        · intro q hq
          simp only [List.mem_cons, not_or] at hq
          rw [hE.frame_out q hq.2, he_frame q hq.1]
        · intro q
          have h2 := hE.frame_fields q
          by_cases hqp : q = p
          · subst hqp
            rw [h2, he_fields]
          · rw [h2, he_frame q hqp]
        · rw [hE.head_eq, he_head]
        · rw [hE.status_sub_eq, he_sub]
        · intro c hc hk hcode
          rcases List.mem_append.mp hc with hc1 | hc2
          · rw [he_node c hc1, hE.frame_out p hp_notin]
            exact he_clear c hc1 hk hcode
          · exact hE.read_fail_clears c hc2 hk hcode
        · intro q hq hnone
          rcases List.mem_cons.mp hq with rfl | hq2
          · rw [hE.frame_out q hp_notin]
            apply he_idle
            have : e.map (fun c => (c.kind, c.node)) = [] := by rw [he_calls, hnone]; rfl
            simpa using this
          · have hq1 : dueCall m1.sensors ctr q = none := by
              rw [dueCall_congr _ _ _ _ (he_frame q (hne q hq2))]; exact hnone
            rw [hE.idle_same q hq2 hq1, he_frame q (hne q hq2)]

lemma readSensors_spec {σ : Type} (drv : FnId → Driver σ) (fuel : Nat) (m : Machine σ)
    (ctr : Nat) (ps : List Ptr)
    (hreg : traverse m.sensors fuel m.sfg.pSensors = some ps)
    (hok : ∀ p ∈ ps, NodeOk (m.sensors p)) :
    ∃ st m1 new, LoopEffect ctr ps 0 m st m1 new ∧
      readSensors drv fuel m ctr = some (st,
        { m1 with sfg := if st = 0 then queueStatus m1.sfg fusion_status_t.NORMAL
                         else setStatus m1.sfg fusion_status_t.SOFT_FAULT }) := by
  obtain ⟨st, m1, new, hloop, hE⟩ :=
    readSensorsLoop_spec drv ctr fuel m.sfg.pSensors m 0 ps hreg hok
  refine ⟨st, m1, new, hE, ?_⟩
  simp only [readSensors, SENSOR_ERROR_NONE, hloop]
  split_ifs <;> rfl

lemma registry_preserved {σ : Type} (ctr : Nat) (ps : List Ptr) (status : Int)
    (m : Machine σ) (st : Int) (m1 : Machine σ) (new : List CapCall) (fuel : Nat)
    (hE : LoopEffect ctr ps status m st m1 new)
    (hreg : traverse m.sensors fuel m.sfg.pSensors = some ps)
    (hok : ∀ p ∈ ps, NodeOk (m.sensors p)) :
    traverse m1.sensors fuel m1.sfg.pSensors = some ps ∧
    (∀ p ∈ ps, NodeOk (m1.sensors p)) ∧
    (∀ p, (m1.sensors p).schedule = (m.sensors p).schedule) := by
  refine ⟨?_, ?_, ?_⟩
  · rw [hE.head_eq]
    exact traverse_congr m.sensors m1.sensors fuel _ ps hreg
      (fun q _ => by rw [hE.frame_fields q])
  · intro p hp
    have h := hok p hp
    unfold NodeOk at h ⊢
    rw [hE.frame_fields p]
    exact h
  · intro p
    rw [hE.frame_fields p]

lemma foldStatus_eq_zero_iff (new : List CapCall) :
    ∀ s : Int, new.foldl foldStatus s = 0 ↔ (s = 0 ∧ ∀ c ∈ new, c.code = 0) := by
  induction new with
  | nil => intro s; simp
  | cons c cs ih =>
    intro s
    rw [List.foldl_cons, ih]
    have h1 : foldStatus s c = 0 ↔ (s = 0 ∧ c.code = 0) := by
      unfold foldStatus
      cases c.kind <;> simp only <;> split_ifs <;> simp_all
    rw [h1]
    simp only [List.mem_cons, forall_eq_or_imp]
    tauto

lemma calls_mem_iff (sensors : Ptr → PhysicalSensor) (ctr : Nat) (ps : List Ptr)
    (new : List CapCall)
    (h : new.map (fun c => (c.kind, c.node)) = ps.filterMap (dueCall sensors ctr))
    (k : CapKind) (p : Ptr) :
    (k, p) ∈ new.map (fun c => (c.kind, c.node)) ↔
      (p ∈ ps ∧ dueCall sensors ctr p = some (k, p)) := by
  rw [h, List.mem_filterMap]
  constructor
  · rintro ⟨q, hq, hd⟩
    have := dueCall_node _ _ _ _ hd
    simp only at this
    subst this
    exact ⟨hq, hd⟩
  · rintro ⟨hp, hd⟩
    exact ⟨p, hp, hd⟩

lemma filter_calls_of_nodup (sensors : Ptr → PhysicalSensor) (ctr : Nat) (p : Ptr) :
    ∀ ps : List Ptr, ps.Nodup →
      (ps.filterMap (dueCall sensors ctr)).filter (fun x => decide (x.2 = p)) =
        if p ∈ ps then (dueCall sensors ctr p).toList else [] := by
  intro ps
  induction ps with
  | nil => intro _; simp
  | cons q rest ih =>
    intro hnd
    obtain ⟨hq, hrest⟩ := List.nodup_cons.mp hnd
    rw [filterMap_cons_toList, List.filter_append, ih hrest]
    by_cases hqp : q = p
    · subst hqp
      have h1 : (dueCall sensors ctr q).toList.filter (fun x => decide (x.2 = q))
          = (dueCall sensors ctr q).toList := by
        cases hd : dueCall sensors ctr q with
        | none => simp
        | some x => simp [dueCall_node _ _ _ _ hd]
      simp [h1, hq]
    · have h1 : (dueCall sensors ctr q).toList.filter (fun x => decide (x.2 = p)) = [] := by
        cases hd : dueCall sensors ctr q with
        | none => simp
        | some x => simp [dueCall_node _ _ _ _ hd, hqp]
      have h2 : (p ∈ q :: rest) ↔ p ∈ rest := by
        simp [List.mem_cons, Ne.symm hqp]
      simp [h1, h2]

/-- C8: in one `readSensors` call over a registry whose nodes have both
capabilities installed and a schedule of at least 1, the call returns and every
registered node is processed exactly once, whatever codes the drivers return:
the invocations logged for a node are exactly one `initialize` when the node is
not initialized, exactly one `read` when it is initialized and the cycle index is
a multiple of its schedule, and none otherwise; no other node is called. -/
theorem readSensors_each_node_once {σ : Type} (drv : FnId → Driver σ) (fuel : Nat)
    (m : Machine σ) (ctr : Nat) (ps : List Ptr)
    (hreg : traverse m.sensors fuel m.sfg.pSensors = some ps)
    (hok : ∀ p ∈ ps, NodeOk (m.sensors p)) :
    ∃ st m1 new, readSensors drv fuel m ctr = some (st, m1) ∧
      m1.trace = m.trace ++ new ∧
      (∀ c ∈ new, c.node ∈ ps) ∧
      ∀ p ∈ ps, (new.filter (fun c => decide (c.node = p))).map (fun c => c.kind) =
        if (m.sensors p).isInitialized = 0 then [CapKind.init]
        else if ctr % (m.sensors p).schedule = 0 then [CapKind.read] else [] := by
  obtain ⟨st, m1, new, hE, hrun⟩ := readSensors_spec drv fuel m ctr ps hreg hok
  refine ⟨st, _, new, hrun, hE.trace_eq, ?_, ?_⟩
  · intro c hc
    have hmem : (c.kind, c.node) ∈ new.map (fun c => (c.kind, c.node)) :=
      List.mem_map.mpr ⟨c, hc, rfl⟩
    exact ((calls_mem_iff _ _ _ _ hE.calls_eq c.kind c.node).mp hmem).1
  · intro p hp
    have hnd := traverse_nodup m.sensors ps _ _ hreg
    have h1 := filter_calls_of_nodup m.sensors ctr p ps hnd
    rw [← hE.calls_eq, if_pos hp, List.filter_map] at h1
    have h2 := congrArg (List.map Prod.fst) h1
    rw [List.map_map] at h2
    have h3 : (new.filter (fun c => decide (c.node = p))).map (fun c => c.kind)
        = List.map Prod.fst (dueCall m.sensors ctr p).toList := by
      rw [← h2]; rfl
    rw [h3]
    unfold dueCall
    split_ifs <;> rfl

/-- C8, example: cycle index 1 on the two-sensor registry (node 1 is due, node 2 is
not). -/
theorem readSensors_each_node_once_witness :
    ∃ st m1 new, readSensors scenarioDrivers 2 scenarioMachine 1 = some (st, m1) ∧
      m1.trace = scenarioMachine.trace ++ new ∧
      (∀ c ∈ new, c.node ∈ [2, 1]) ∧
      ∀ p ∈ [2, 1], (new.filter (fun c => decide (c.node = p))).map (fun c => c.kind) =
        if (scenarioMachine.sensors p).isInitialized = 0 then [CapKind.init]
        else if 1 % (scenarioMachine.sensors p).schedule = 0 then [CapKind.read] else [] :=
  readSensors_each_node_once scenarioDrivers 2 scenarioMachine 1 [2, 1]
    (by decide) (by decide)

/-- C9: over a registry whose nodes have both capabilities installed and a
schedule of at least 1, `readSensors` returns, and reports asymmetrically.  If
every capability it invoked returned 0 it returns 0 and its only call on the
status collaborator is `queue(NORMAL)`, so the current status is unchanged and
becomes NORMAL on `update`.  If some invoked capability returned nonzero it
returns nonzero and its only call on the status collaborator is `set(SOFT_FAULT)`. -/
theorem readSensors_status_report {σ : Type} (drv : FnId → Driver σ) (fuel : Nat)
    (m : Machine σ) (ctr : Nat) (ps : List Ptr)
    (hreg : traverse m.sensors fuel m.sfg.pSensors = some ps)
    (hok : ∀ p ∈ ps, NodeOk (m.sensors p)) :
    ∃ st m1 new, readSensors drv fuel m ctr = some (st, m1) ∧
      m1.trace = m.trace ++ new ∧
      ((∀ c ∈ new, c.code = 0) →
        st = 0 ∧
        m1.sfg.pStatusSubsystem.calls =
          m.sfg.pStatusSubsystem.calls ++ [StatusCall.queue fusion_status_t.NORMAL] ∧
        getStatus m1.sfg = getStatus m.sfg ∧
        getStatus (updateStatus m1.sfg) = fusion_status_t.NORMAL) ∧
      ((∃ c ∈ new, c.code ≠ 0) →
        st ≠ 0 ∧
        m1.sfg.pStatusSubsystem.calls =
          m.sfg.pStatusSubsystem.calls ++ [StatusCall.set fusion_status_t.SOFT_FAULT] ∧
        getStatus m1.sfg = fusion_status_t.SOFT_FAULT) := by
  obtain ⟨st, m1, new, hE, hrun⟩ := readSensors_spec drv fuel m ctr ps hreg hok
  refine ⟨st, _, new, hrun, hE.trace_eq, ?_, ?_⟩
  · intro hall
    have hst : st = 0 := by
      rw [hE.status_eq]
      exact (foldStatus_eq_zero_iff new 0).mpr ⟨rfl, hall⟩
    simp [hst, queueStatus, StatusSubsystem.queue, getStatus, StatusSubsystem.get,
      updateStatus, StatusSubsystem.update, hE.status_sub_eq]
  · rintro ⟨c, hc, hcode⟩
    have hst : st ≠ 0 := by
      rw [hE.status_eq]
      intro h0
      exact hcode (((foldStatus_eq_zero_iff new 0).mp h0).2 c hc)
    simp [hst, setStatus, StatusSubsystem.set, getStatus, StatusSubsystem.get,
      hE.status_sub_eq]

/-- C9, example: cycle index 1 on the two-sensor registry. -/
theorem readSensors_status_report_witness :
    ∃ st m1 new, readSensors scenarioDrivers 2 scenarioMachine 1 = some (st, m1) ∧
      m1.trace = scenarioMachine.trace ++ new ∧
      ((∀ c ∈ new, c.code = 0) →
        st = 0 ∧
        m1.sfg.pStatusSubsystem.calls =
          scenarioMachine.sfg.pStatusSubsystem.calls
            ++ [StatusCall.queue fusion_status_t.NORMAL] ∧
        getStatus m1.sfg = getStatus scenarioMachine.sfg ∧
        getStatus (updateStatus m1.sfg) = fusion_status_t.NORMAL) ∧
      ((∃ c ∈ new, c.code ≠ 0) →
        st ≠ 0 ∧
        m1.sfg.pStatusSubsystem.calls =
          scenarioMachine.sfg.pStatusSubsystem.calls
            ++ [StatusCall.set fusion_status_t.SOFT_FAULT] ∧
        getStatus m1.sfg = fusion_status_t.SOFT_FAULT) :=
  readSensors_status_report scenarioDrivers 2 scenarioMachine 1 [2, 1]
    (by decide) (by decide)

lemma installOne_eq (g : SensorFusionGlobals) (sensors : Ptr → PhysicalSensor) (c : Install) :
    installOne (g, sensors) c =
      ({ g with pSensors := some c.pSensor },
       Function.update sensors c.pSensor
        { sensors c.pSensor with
          deviceInfo := { deviceInstance := 0, functionParam := none, idleFunction := none }
          initialize_ := some c.initialize_
          read := some c.read
          addr := c.addr
          schedule := c.schedule
          next := g.pSensors }) := rfl

lemma installAll_spec (g0 : SensorFusionGlobals) (s0 : Ptr → PhysicalSensor)
    (hempty : g0.pSensors = none) :
    ∀ calls : List Install, (calls.map (fun c => c.pSensor)).Nodup →
      traverse (installAll calls g0 s0).2 calls.length (installAll calls g0 s0).1.pSensors
        = some (calls.map (fun c => c.pSensor)).reverse ∧
      (∀ c ∈ calls,
        ((installAll calls g0 s0).2 c.pSensor).read = some c.read ∧
        ((installAll calls g0 s0).2 c.pSensor).initialize_ = some c.initialize_ ∧
        ((installAll calls g0 s0).2 c.pSensor).schedule = c.schedule ∧
        ((installAll calls g0 s0).2 c.pSensor).addr = c.addr ∧
        ((installAll calls g0 s0).2 c.pSensor).isInitialized = (s0 c.pSensor).isInitialized) ∧
      (∀ q, q ∉ calls.map (fun c => c.pSensor) → (installAll calls g0 s0).2 q = s0 q) := by
  intro calls
  induction calls using List.reverseRecOn with
  | nil =>
    intro _
    simp [installAll, traverse, hempty]
  | append_singleton cs c ih =>
    intro hnd
    rw [List.map_append, List.nodup_append] at hnd
    obtain ⟨hnd1, _, hdisj⟩ := hnd
    have hfresh : c.pSensor ∉ cs.map (fun c => c.pSensor) := fun hm =>
      hdisj hm (by simp)
    obtain ⟨htr, hfields, hout⟩ := ih hnd1
    have hstep : installAll (cs ++ [c]) g0 s0 = installOne (installAll cs g0 s0) c := by
      simp [installAll, List.foldl_append]
    rw [hstep]
    have hpair : installAll cs g0 s0 = ((installAll cs g0 s0).1, (installAll cs g0 s0).2) := rfl
    rw [hpair, installOne_eq]
    refine ⟨?_, ?_, ?_⟩
    · simp only [List.length_append, List.length_singleton, List.map_append, List.map_cons,
        List.map_nil, List.reverse_append, List.reverse_cons, List.reverse_nil, List.nil_append,
        List.singleton_append, traverse, Function.update_same, Option.map_eq_some']
      refine ⟨_, ?_, rfl⟩
      apply traverse_congr (installAll cs g0 s0).2 _ _ _ _ htr
      intro q hq
      have hne : q ≠ c.pSensor := by
        intro e
        apply hfresh
        rw [← e]
        exact List.mem_reverse.mp hq
      simp [Function.update_noteq hne]
    · intro d hd
      rcases List.mem_append.mp hd with hd1 | hd2
      · have hne : d.pSensor ≠ c.pSensor := by
          intro e
          apply hfresh
          rw [← e]
          exact List.mem_map.mpr ⟨d, hd1, rfl⟩
        simp only [Function.update_noteq hne]
        exact hfields d hd1
      · simp only [List.mem_singleton] at hd2
        subst hd2
        simp only [Function.update_same, true_and]
        rw [hout d.pSensor hfresh]
    · intro q hq
      simp only [List.map_append, List.map_cons, List.map_nil, List.mem_append,
        List.mem_singleton, not_or] at hq
      simp only [Function.update_noteq hq.2]
      exact hout q hq.1

lemma firstNonzero_eq_zero_iff (cs : List Int) : firstNonzero cs = 0 ↔ ∀ c ∈ cs, c = 0 := by
  induction cs with
  | nil => simp [firstNonzero]
  | cons c cs ih =>
    simp only [firstNonzero, List.mem_cons, forall_eq_or_imp]
    by_cases h : c = 0
    · simp [h, ih]
    · simp [h]

lemma firstNonzero_append_singleton (cs : List Int) (y : Int) :
    firstNonzero (cs ++ [y]) = if firstNonzero cs ≠ 0 then firstNonzero cs else y := by
  induction cs with
  | nil =>
    by_cases hy : y = 0 <;> simp [firstNonzero, hy]
  | cons c cs ih =>
    simp only [List.cons_append, firstNonzero]
    by_cases h : c = 0
    · simp [h, ih]
    · simp [h]

lemma foldStatus_firstNonzero (log : List CapCall) :
    InitFailuresLead log → log.foldl foldStatus 0 = firstNonzero (log.map (fun c => c.code)) := by
  induction log using List.reverseRecOn with
  | nil => intro _; rfl
  | append_singleton pre c ih =>
    intro h
    unfold InitFailuresLead at h
    rw [List.pairwise_append] at h
    obtain ⟨hpre, _, hlast⟩ := h
    have ih2 := ih hpre
    rw [List.foldl_append, List.map_append, List.map_singleton, firstNonzero_append_singleton,
      List.foldl_cons, List.foldl_nil, ih2]
    unfold foldStatus
    cases hk : c.kind with
    | read =>
      simp only
      split_ifs <;> simp_all
    | init =>
      simp only
      by_cases hc : c.code = 0
      · by_cases hf : firstNonzero (pre.map (fun c => c.code)) = 0 <;> simp [hc, hf]
      · have hz : firstNonzero (pre.map (fun c => c.code)) = 0 := by
          rw [firstNonzero_eq_zero_iff]
          intro x hx
          obtain ⟨d, hd, rfl⟩ := List.mem_map.mp hx
          exact hlast d hd c (by simp) ⟨hk, hc⟩
        simp [hc, hz]

lemma codesInOrder_cons_notin (ps : List Ptr) (c : CapCall) (log : List CapCall)
    (h : c.node ∉ ps) : codesInOrder ps (c :: log) = codesInOrder ps log := by
  induction ps with
  | nil => rfl
  | cons q rest ih =>
    simp only [List.mem_cons, not_or] at h
    have hf : (c :: log).filter (fun d => decide (d.node = q))
        = log.filter (fun d => decide (d.node = q)) := by
      simp [List.filter_cons, h.1]
    have ih2 := ih h.2
    simp only [codesInOrder, List.flatMap_cons] at ih2 ⊢
    rw [ih2, hf]

lemma codesInOrder_of_calls (sensors : Ptr → PhysicalSensor) (ctr : Nat) :
    ∀ (ps : List Ptr) (new : List CapCall), ps.Nodup →
      new.map (fun c => (c.kind, c.node)) = ps.filterMap (dueCall sensors ctr) →
      codesInOrder ps new = new.map (fun c => c.code) := by
  intro ps
  induction ps with
  | nil =>
    intro new _ h
    simp only [List.filterMap_nil, List.map_eq_nil_iff] at h
    subst h
    rfl
  | cons p rest ih =>
    intro new hnd h
    obtain ⟨hp, hrest⟩ := List.nodup_cons.mp hnd
    rw [filterMap_cons_toList] at h
    have hnodes : ∀ new2 : List CapCall,
        new2.map (fun c => (c.kind, c.node)) = rest.filterMap (dueCall sensors ctr) →
        new2.filter (fun d => decide (d.node = p)) = [] := by
      intro new2 h2
      rw [List.filter_eq_nil_iff]
      intro c hc
      have hmem : (c.kind, c.node) ∈ new2.map (fun c => (c.kind, c.node)) :=
        List.mem_map.mpr ⟨c, hc, rfl⟩
      have hin := ((calls_mem_iff _ _ _ _ h2 c.kind c.node).mp hmem).1
      simp only [decide_eq_true_eq]
      intro e
      exact hp (e ▸ hin)
    cases hd : dueCall sensors ctr p with
    | none =>
      rw [hd] at h
      simp only [Option.toList_none, List.nil_append] at h
      simp only [codesInOrder, List.flatMap_cons, hnodes new h, List.map_nil, List.nil_append]
      exact ih new hrest h
    | some x =>
      rw [hd] at h
      simp only [Option.toList_some, List.singleton_append] at h
      cases new with
      | nil => simp at h
      | cons c new2 =>
        simp only [List.map_cons, List.cons.injEq] at h
        obtain ⟨hx, h2⟩ := h
        have hnode : c.node = p := by
          have := dueCall_node _ _ _ _ hd
          rw [← hx] at this
          exact this
        have hf : (c :: new2).filter (fun d => decide (d.node = p)) = [c] := by
          simp [List.filter_cons, hnode, hnodes new2 h2]
        have hrest2 : codesInOrder rest (c :: new2) = codesInOrder rest new2 :=
          codesInOrder_cons_notin rest c new2 (by rw [hnode]; exact hp)
        have ih2 := ih new2 hrest h2
        simp only [codesInOrder, List.flatMap_cons] at hrest2 ih2 ⊢
        rw [hf, hrest2, ih2]
        rfl

/-- C7 (as amended): for every registry built by `installSensor` calls on distinct
nodes with schedules of at least 1, and every behaviour of the drivers,
`readSensors` returns; the value is 0 when no invoked capability fails, and,
provided no `initialize` fails after an earlier failure, it is the first nonzero
code returned by an invoked capability taking the sensors in list-traversal
order, which is the reverse of the order in which they were installed. -/
theorem readSensors_first_error_newest_first {σ : Type} (drv : FnId → Driver σ)
    (calls : List Install) (g0 : SensorFusionGlobals) (s0 : Ptr → PhysicalSensor)
    (env : σ) (fuel ctr : Nat)
    (hempty : g0.pSensors = none)
    (hnd : (calls.map (fun c => c.pSensor)).Nodup)
    (hsched : ∀ c ∈ calls, 1 ≤ c.schedule)
    (hfuel : calls.length ≤ fuel) :
    ∃ st m1,
      readSensors drv fuel
        { sfg := (installAll calls g0 s0).1, sensors := (installAll calls g0 s0).2,
          env := env, trace := [] } ctr = some (st, m1) ∧
      ((∀ c ∈ m1.trace, c.code = 0) → st = 0) ∧
      (InitFailuresLead m1.trace →
        st = firstNonzero
          (codesInOrder (calls.map (fun c => c.pSensor)).reverse m1.trace)) := by
  obtain ⟨htr, hfields, _⟩ := installAll_spec g0 s0 hempty calls hnd
  have hreg := traverse_mono_le _ _ fuel _ _ htr hfuel
  have hok : ∀ p ∈ (calls.map (fun c => c.pSensor)).reverse,
      NodeOk ((installAll calls g0 s0).2 p) := by
    intro p hp
    obtain ⟨c, hc, rfl⟩ := List.mem_map.mp (List.mem_reverse.mp hp)
    obtain ⟨h1, h2, h3, _, _⟩ := hfields c hc
    exact ⟨by simp [h1], by simp [h2], by rw [h3]; exact hsched c hc⟩
  obtain ⟨st, m1, new, hE, hrun⟩ := readSensors_spec drv fuel
    { sfg := (installAll calls g0 s0).1, sensors := (installAll calls g0 s0).2,
      env := env, trace := [] } ctr _ hreg hok
  have htrace : m1.trace = new := by simpa using hE.trace_eq
  refine ⟨st, _, hrun, ?_, ?_⟩
  · intro hall
    rw [hE.status_eq]
    exact (foldStatus_eq_zero_iff new 0).mpr ⟨rfl, by simpa [htrace] using hall⟩
  · intro hlead
    simp only [htrace] at hlead ⊢
    rw [codesInOrder_of_calls _ ctr _ new (traverse_nodup _ _ _ _ hreg) hE.calls_eq,
      hE.status_eq]
    exact foldStatus_firstNonzero new hlead

/-- C7, example: the two-sensor registry with failing reads. -/
theorem readSensors_first_error_newest_first_witness :
    ∃ st m1,
      readSensors failingDrivers 2
        { sfg := (installAll
            [{ pSensor := 1, addr := 30, schedule := 1, initialize_ := 10, read := 11 },
             { pSensor := 2, addr := 31, schedule := 2, initialize_ := 20, read := 21 }]
            emptyGlobals (fun _ => staleNode)).1,
          sensors := (installAll
            [{ pSensor := 1, addr := 30, schedule := 1, initialize_ := 10, read := 11 },
             { pSensor := 2, addr := 31, schedule := 2, initialize_ := 20, read := 21 }]
            emptyGlobals (fun _ => staleNode)).2,
          env := (), trace := [] } 0 = some (st, m1) ∧
      ((∀ c ∈ m1.trace, c.code = 0) → st = 0) ∧
      (InitFailuresLead m1.trace →
        st = firstNonzero
          (codesInOrder (([{ pSensor := 1, addr := 30, schedule := 1, initialize_ := 10, read := 11 },
             { pSensor := 2, addr := 31, schedule := 2, initialize_ := 20, read := 21 }] :
              List Install).map (fun c => c.pSensor)).reverse m1.trace)) :=
  readSensors_first_error_newest_first failingDrivers
    [{ pSensor := 1, addr := 30, schedule := 1, initialize_ := 10, read := 11 },
     { pSensor := 2, addr := 31, schedule := 2, initialize_ := 20, read := 21 }]
    emptyGlobals (fun _ => staleNode) () 2 0 rfl (by decide) (by decide) (by decide)

/-- C7, counterexample.  Nodes 1 and 2 are installed in this order and both reads
fail (codes 5 and 7): `readSensors` returns 7, the code of the sensor installed
last, while the first nonzero code in registration order is 5.  With three
nodes where the read of node 3 fails (7), the initialize of node 2 fails (9)
and the read of node 1 fails (5), it returns 9, which is the first nonzero code
in neither order. -/
theorem readSensors_returns_newest_failure :
    (readSensors failingDrivers 2 failingMachine 0).map (fun r => r.1) = some 7 ∧
    (readSensors failingDrivers 2 failingMachine 0).map (fun r => r.2.trace)
      = some [⟨CapKind.read, 2, 7⟩, ⟨CapKind.read, 1, 5⟩] ∧
    (readSensors failingDrivers 2 failingMachine 0).map
      (fun r => firstNonzero (codesInOrder [1, 2] r.2.trace)) = some 5 ∧
    (readSensors failingDrivers 3 failingMachine3 0).map (fun r => r.1) = some 9 ∧
    (readSensors failingDrivers 3 failingMachine3 0).map (fun r => r.2.trace)
      = some [⟨CapKind.read, 3, 7⟩, ⟨CapKind.init, 2, 9⟩, ⟨CapKind.read, 1, 5⟩] ∧
    (readSensors failingDrivers 3 failingMachine3 0).map
      (fun r => firstNonzero (codesInOrder [1, 2, 3] r.2.trace)) = some 5 ∧
    (readSensors failingDrivers 3 failingMachine3 0).map
      (fun r => firstNonzero (codesInOrder [3, 2, 1] r.2.trace)) = some 7 := by
  decide

lemma readSensors_cycle {σ : Type} (drv : FnId → Driver σ) (fuel : Nat) (m : Machine σ)
    (ctr : Nat) (ps : List Ptr)
    (hreg : traverse m.sensors fuel m.sfg.pSensors = some ps)
    (hok : ∀ p ∈ ps, NodeOk (m.sensors p)) :
    ∃ st m1 new, readSensors drv fuel m ctr = some (st, m1) ∧
      m1.trace = m.trace ++ new ∧
      new.map (fun c => (c.kind, c.node)) = ps.filterMap (dueCall m.sensors ctr) ∧
      traverse m1.sensors fuel m1.sfg.pSensors = some ps ∧
      (∀ p ∈ ps, NodeOk (m1.sensors p)) ∧
      (∀ p, (m1.sensors p).schedule = (m.sensors p).schedule) ∧
      (∀ c ∈ new, c.kind = CapKind.read → c.code ≠ 0 →
        (m1.sensors c.node).isInitialized = 0) ∧
      (∀ q ∈ ps, dueCall m.sensors ctr q = none → m1.sensors q = m.sensors q) := by
  obtain ⟨st, m1, new, hE, hrun⟩ := readSensors_spec drv fuel m ctr ps hreg hok
  obtain ⟨h1, h2, h3⟩ := registry_preserved ctr ps 0 m st m1 new fuel hE hreg hok
  refine ⟨st, _, new, hrun, hE.trace_eq, hE.calls_eq, ?_, h2, h3, hE.read_fail_clears,
    hE.idle_same⟩
  have hhead : (if st = 0 then queueStatus m1.sfg fusion_status_t.NORMAL
      else setStatus m1.sfg fusion_status_t.SOFT_FAULT).pSensors = m1.sfg.pSensors := by
    split_ifs <;> rfl
  simp only [hhead]
  exact h1

lemma dueCall_init (sensors : Ptr → PhysicalSensor) (ctr : Nat) (p : Ptr)
    (h : (sensors p).isInitialized = 0) : dueCall sensors ctr p = some (CapKind.init, p) := by
  simp [dueCall, h]

lemma dueCall_read (sensors : Ptr → PhysicalSensor) (ctr : Nat) (p : Ptr)
    (h : (sensors p).isInitialized ≠ 0) (hdue : ctr % (sensors p).schedule = 0) :
    dueCall sensors ctr p = some (CapKind.read, p) := by
  simp [dueCall, h, hdue]

lemma dueCall_idle (sensors : Ptr → PhysicalSensor) (ctr : Nat) (p : Ptr)
    (h : (sensors p).isInitialized ≠ 0) (hdue : ctr % (sensors p).schedule ≠ 0) :
    dueCall sensors ctr p = none := by
  simp [dueCall, h, hdue]

/-- C10 (as amended): two registered, initialized sensors `fast` (schedule 1) and
`slow` (schedule 2), `readSensors` run for the loop indices 0, 1, 2, 3, 4 in turn,
each call on the state left by the previous one.  At index 0 both reads are
invoked.  If both nodes are still initialized afterwards, at index 1 the only
invocation is the read of `fast`, and at index 2 the read of `slow` is invoked.
If that read fails, `slow` is marked uninitialized and at index 3 (the next
cycle) its initialize is invoked and not its read.  At index 4 its initialize
and not its read is invoked again if the node is still uninitialized; if the
initialize of index 3 left it initialized, its read and not its initialize is
invoked. -/
theorem readSensors_schedule_scenario {σ : Type} (drv : FnId → Driver σ) (fuel : Nat)
    (m0 : Machine σ) (fast slow : Ptr) (ps : List Ptr)
    (hreg : traverse m0.sensors fuel m0.sfg.pSensors = some ps)
    (hps : ps = [fast, slow] ∨ ps = [slow, fast])
    (hokf : NodeOk (m0.sensors fast)) (hoks : NodeOk (m0.sensors slow))
    (hsf : (m0.sensors fast).schedule = 1) (hss : (m0.sensors slow).schedule = 2)
    (hif : (m0.sensors fast).isInitialized ≠ 0)
    (his : (m0.sensors slow).isInitialized ≠ 0) :
    ∃ st0 m1 new0, readSensors drv fuel m0 0 = some (st0, m1) ∧
      m1.trace = m0.trace ++ new0 ∧
      (CapKind.read, fast) ∈ new0.map (fun c => (c.kind, c.node)) ∧
      (CapKind.read, slow) ∈ new0.map (fun c => (c.kind, c.node)) ∧
      ((m1.sensors fast).isInitialized ≠ 0 → (m1.sensors slow).isInitialized ≠ 0 →
        ∃ st1 m2 new1, readSensors drv fuel m1 1 = some (st1, m2) ∧
          m2.trace = m1.trace ++ new1 ∧
          new1.map (fun c => (c.kind, c.node)) = [(CapKind.read, fast)] ∧
          ∃ st2 m3 new2, readSensors drv fuel m2 2 = some (st2, m3) ∧
            m3.trace = m2.trace ++ new2 ∧
            (CapKind.read, slow) ∈ new2.map (fun c => (c.kind, c.node)) ∧
            ((∃ c ∈ new2, c.kind = CapKind.read ∧ c.node = slow ∧ c.code ≠ 0) →
              (m3.sensors slow).isInitialized = 0 ∧
              ∃ st3 m4 new3, readSensors drv fuel m3 3 = some (st3, m4) ∧
                m4.trace = m3.trace ++ new3 ∧
                (CapKind.init, slow) ∈ new3.map (fun c => (c.kind, c.node)) ∧
                (CapKind.read, slow) ∉ new3.map (fun c => (c.kind, c.node)) ∧
                ∃ st4 m5 new4, readSensors drv fuel m4 4 = some (st4, m5) ∧
                  m5.trace = m4.trace ++ new4 ∧
                  ((m4.sensors slow).isInitialized = 0 →
                    (CapKind.init, slow) ∈ new4.map (fun c => (c.kind, c.node)) ∧
                    (CapKind.read, slow) ∉ new4.map (fun c => (c.kind, c.node))) ∧
                  ((m4.sensors slow).isInitialized ≠ 0 →
                    (CapKind.read, slow) ∈ new4.map (fun c => (c.kind, c.node)) ∧
                    (CapKind.init, slow) ∉ new4.map (fun c => (c.kind, c.node))))) := by
  have hfm : fast ∈ ps := by rcases hps with h | h <;> simp [h]
  have hsm : slow ∈ ps := by rcases hps with h | h <;> simp [h]
  have hok0 : ∀ p ∈ ps, NodeOk (m0.sensors p) := by
    intro p hp
    rcases hps with h | h <;> (rw [h] at hp; simp at hp; rcases hp with rfl | rfl <;> assumption)
  -- index 0
  obtain ⟨st0, m1, new0, hrun0, htr0, hc0, hreg1, hok1, hsch1, _, _⟩ :=
    readSensors_cycle drv fuel m0 0 ps hreg hok0
  refine ⟨st0, m1, new0, hrun0, htr0, ?_, ?_, ?_⟩
  · exact (calls_mem_iff _ _ _ _ hc0 _ _).mpr
      ⟨hfm, dueCall_read _ _ _ hif (by simp)⟩
  · exact (calls_mem_iff _ _ _ _ hc0 _ _).mpr
      ⟨hsm, dueCall_read _ _ _ his (by simp)⟩
  intro hif1 his1
  -- index 1
  have hsf1 : (m1.sensors fast).schedule = 1 := by rw [hsch1, hsf]
  have hss1 : (m1.sensors slow).schedule = 2 := by rw [hsch1, hss]
  have hdf1 : dueCall m1.sensors 1 fast = some (CapKind.read, fast) :=
    dueCall_read _ _ _ hif1 (by rw [hsf1])
  have hds1 : dueCall m1.sensors 1 slow = none :=
    dueCall_idle _ _ _ his1 (by rw [hss1]; decide)
  obtain ⟨st1, m2, new1, hrun1, htr1, hc1, hreg2, hok2, hsch2, _, hidle1⟩ :=
    readSensors_cycle drv fuel m1 1 ps hreg1 hok1
  refine ⟨st1, m2, new1, hrun1, htr1, ?_, ?_⟩
  · rw [hc1]
    rcases hps with h | h <;> simp [h, List.filterMap_cons, hdf1, hds1]
  -- index 2
  have hslow2 : m2.sensors slow = m1.sensors slow := hidle1 slow hsm hds1
  have his2 : (m2.sensors slow).isInitialized ≠ 0 := by rw [hslow2]; exact his1
  have hss2 : (m2.sensors slow).schedule = 2 := by rw [hsch2, hss1]
  obtain ⟨st2, m3, new2, hrun2, htr2, hc2, hreg3, hok3, hsch3, hclear2, _⟩ :=
    readSensors_cycle drv fuel m2 2 ps hreg2 hok2
  refine ⟨st2, m3, new2, hrun2, htr2, ?_, ?_⟩
  · exact (calls_mem_iff _ _ _ _ hc2 _ _).mpr
      ⟨hsm, dueCall_read _ _ _ his2 (by rw [hss2])⟩
  rintro ⟨c, hc, hkind, hnode, hcode⟩
  have his3 : (m3.sensors slow).isInitialized = 0 := by
    have := hclear2 c hc hkind hcode
    rwa [hnode] at this
  refine ⟨his3, ?_⟩
  -- index 3
  have hds3 : dueCall m3.sensors 3 slow = some (CapKind.init, slow) := dueCall_init _ _ _ his3
  obtain ⟨st3, m4, new3, hrun3, htr3, hc3, hreg4, hok4, hsch4, _, _⟩ :=
    readSensors_cycle drv fuel m3 3 ps hreg3 hok3
  refine ⟨st3, m4, new3, hrun3, htr3, ?_, ?_, ?_⟩
  · exact (calls_mem_iff _ _ _ _ hc3 _ _).mpr ⟨hsm, hds3⟩
  · intro hmem
    have := ((calls_mem_iff _ _ _ _ hc3 _ _).mp hmem).2
    rw [hds3] at this
    simp at this
  -- index 4
  have hss4 : (m4.sensors slow).schedule = 2 := by rw [hsch4, hsch3, hss2]
  obtain ⟨st4, m5, new4, hrun4, htr4, hc4, _, _, _, _, _⟩ :=
    readSensors_cycle drv fuel m4 4 ps hreg4 hok4
  refine ⟨st4, m5, new4, hrun4, htr4, ?_, ?_⟩
  · intro h0
    have hd : dueCall m4.sensors 4 slow = some (CapKind.init, slow) := dueCall_init _ _ _ h0
    refine ⟨(calls_mem_iff _ _ _ _ hc4 _ _).mpr ⟨hsm, hd⟩, ?_⟩
    intro hmem
    have := ((calls_mem_iff _ _ _ _ hc4 _ _).mp hmem).2
    rw [hd] at this
    simp at this
  · intro h1
    have hd : dueCall m4.sensors 4 slow = some (CapKind.read, slow) :=
      dueCall_read _ _ _ h1 (by rw [hss4])
    refine ⟨(calls_mem_iff _ _ _ _ hc4 _ _).mpr ⟨hsm, hd⟩, ?_⟩
    intro hmem
    have := ((calls_mem_iff _ _ _ _ hc4 _ _).mp hmem).2
    rw [hd] at this
    simp at this

/-- C10, example: the two-sensor registry (node 1 with schedule 1, node 2 with
schedule 2) with the scenario drivers. -/
theorem readSensors_schedule_scenario_witness :
    ∃ st0 m1 new0, readSensors scenarioDrivers 2 scenarioMachine 0 = some (st0, m1) ∧
      m1.trace = scenarioMachine.trace ++ new0 ∧
      (CapKind.read, 1) ∈ new0.map (fun c => (c.kind, c.node)) ∧
      (CapKind.read, 2) ∈ new0.map (fun c => (c.kind, c.node)) ∧
      ((m1.sensors 1).isInitialized ≠ 0 → (m1.sensors 2).isInitialized ≠ 0 →
        ∃ st1 m2 new1, readSensors scenarioDrivers 2 m1 1 = some (st1, m2) ∧
          m2.trace = m1.trace ++ new1 ∧
          new1.map (fun c => (c.kind, c.node)) = [(CapKind.read, 1)] ∧
          ∃ st2 m3 new2, readSensors scenarioDrivers 2 m2 2 = some (st2, m3) ∧
            m3.trace = m2.trace ++ new2 ∧
            (CapKind.read, 2) ∈ new2.map (fun c => (c.kind, c.node)) ∧
            ((∃ c ∈ new2, c.kind = CapKind.read ∧ c.node = 2 ∧ c.code ≠ 0) →
              (m3.sensors 2).isInitialized = 0 ∧
              ∃ st3 m4 new3, readSensors scenarioDrivers 2 m3 3 = some (st3, m4) ∧
                m4.trace = m3.trace ++ new3 ∧
                (CapKind.init, 2) ∈ new3.map (fun c => (c.kind, c.node)) ∧
                (CapKind.read, 2) ∉ new3.map (fun c => (c.kind, c.node)) ∧
                ∃ st4 m5 new4, readSensors scenarioDrivers 2 m4 4 = some (st4, m5) ∧
                  m5.trace = m4.trace ++ new4 ∧
                  ((m4.sensors 2).isInitialized = 0 →
                    (CapKind.init, 2) ∈ new4.map (fun c => (c.kind, c.node)) ∧
                    (CapKind.read, 2) ∉ new4.map (fun c => (c.kind, c.node))) ∧
                  ((m4.sensors 2).isInitialized ≠ 0 →
                    (CapKind.read, 2) ∈ new4.map (fun c => (c.kind, c.node)) ∧
                    (CapKind.init, 2) ∉ new4.map (fun c => (c.kind, c.node))))) :=
  readSensors_schedule_scenario scenarioDrivers 2 scenarioMachine 1 2 [2, 1]
    (by decide) (Or.inr rfl) (by decide) (by decide) (by decide) (by decide)
    (by decide) (by decide)

/-- C10, counterexample: node 1 has schedule 1, node 2 has schedule 2, both are
initialized, and the read of node 2 fails (code 7) at loop index 2.  Its
initialize is invoked at loop index 3 and succeeds; at loop index 4 `readSensors`
invokes the read of node 2 and not its initialize. -/
theorem readSensors_reinitializes_at_next_cycle :
    cycleLogs scenarioDrivers 2 scenarioMachine [0, 1, 2, 3, 4] =
      some [[⟨CapKind.read, 2, 0⟩, ⟨CapKind.read, 1, 0⟩],
            [⟨CapKind.read, 1, 0⟩],
            [⟨CapKind.read, 2, 7⟩, ⟨CapKind.read, 1, 0⟩],
            [⟨CapKind.init, 2, 0⟩, ⟨CapKind.read, 1, 0⟩],
            [⟨CapKind.read, 2, 0⟩, ⟨CapKind.read, 1, 0⟩]] := by
  decide

/-! ## Frame of the read loop -/

lemma readSensorsBody_origin {σ : Type} (drv : FnId → Driver σ) (ctr : Nat) (p : Ptr)
    (m : Machine σ) (status : Int) (st1 : Int) (m1 : Machine σ) (e : List CapCall)
    (hbody : readSensorsBody drv ctr p m status = some (st1, m1))
    (htr : m1.trace = m.trace ++ e) :
    ∀ c ∈ e, ¬ (c.kind = CapKind.read ∧ c.code ≠ 0) →
      ∃ f, ((m.sensors p).read = some f ∨ (m.sensors p).initialize_ = some f) ∧
        (m1.sensors p).isInitialized = (drv f p (m.sensors p) m.sfg m.env).isInitialized := by
  intro c hc hnot
  unfold readSensorsBody at hbody
  simp only at hbody
  by_cases hflag : (m.sensors p).isInitialized = 0
  · simp only [hflag, ne_eq, not_true_eq_false, if_false] at hbody
    cases hi : (m.sensors p).initialize_ with
    | none => simp [hi] at hbody
    | some f =>
      simp only [hi, Option.some.injEq, Prod.mk.injEq] at hbody
      obtain ⟨_, hm⟩ := hbody
      refine ⟨f, Or.inr rfl, ?_⟩
      rw [← hm]
      simp [Machine.afterCall]
  · simp only [hflag, ne_eq, not_false_eq_true, if_true] at hbody
    by_cases hs : (m.sensors p).schedule = 0
    · simp [hs] at hbody
    · simp only [hs, if_false] at hbody
      by_cases hdue : 0 = ctr % (m.sensors p).schedule
      · simp only [hdue.symm, if_true] at hbody
        cases hr : (m.sensors p).read with
        | none => simp [hr] at hbody
        | some f =>
          simp only [hr, Option.some.injEq, Prod.mk.injEq] at hbody
          obtain ⟨_, hm⟩ := hbody
          by_cases hcode : (drv f p (m.sensors p) m.sfg m.env).code = SENSOR_ERROR_NONE
          · refine ⟨f, Or.inl rfl, ?_⟩
            rw [← hm]
            simp [hcode, Machine.afterCall]
          · exfalso
            rw [← hm] at htr
            simp only [hcode, not_false_eq_true, if_true, Machine.setInitialized,
              Machine.afterCall, List.append_cancel_left_eq] at htr
            rw [← htr] at hc
            simp only [List.mem_singleton] at hc
            subst hc
            exact hnot ⟨rfl, hcode⟩
      · simp only [hdue, if_false, Option.some.injEq, Prod.mk.injEq] at hbody
        obtain ⟨_, hm⟩ := hbody
        rw [← hm] at htr
        have : e = [] := by simpa using htr
        rw [this] at hc
        simp at hc

lemma readSensorsLoop_origin {σ : Type} (drv : FnId → Driver σ) (ctr : Nat) :
    ∀ (fuel : Nat) (head : Option Ptr) (m : Machine σ) (status : Int) (ps : List Ptr),
      traverse m.sensors fuel head = some ps → (∀ p ∈ ps, NodeOk (m.sensors p)) →
      ∀ (st : Int) (m2 : Machine σ) (new : List CapCall),
        readSensorsLoop drv ctr fuel head m status = some (st, m2) →
        m2.trace = m.trace ++ new →
        ∀ c ∈ new, ¬ (c.kind = CapKind.read ∧ c.code ≠ 0) →
          ∃ f g env,
            ((m.sensors c.node).read = some f ∨ (m.sensors c.node).initialize_ = some f) ∧
            (m2.sensors c.node).isInitialized
              = (drv f c.node (m.sensors c.node) g env).isInitialized := by
  intro fuel
  induction fuel with
  | zero =>
    intro head m status ps h _ st m2 new hloop htr c hc
    cases head with
    | some p => simp [traverse] at h
    | none =>
      simp only [readSensorsLoop, Option.some.injEq, Prod.mk.injEq] at hloop
      rw [← hloop.2] at htr
      have : new = [] := by simpa using htr
      rw [this] at hc
      simp at hc
  | succ f ih =>
    intro head m status ps h hok st m2 new hloop htr c hc hnot
    cases head with
    | none =>
      simp only [readSensorsLoop, Option.some.injEq, Prod.mk.injEq] at hloop
      rw [← hloop.2] at htr
      have : new = [] := by simpa using htr
      rw [this] at hc
      simp at hc
    | some p =>
      have hnd := traverse_nodup m.sensors ps _ _ h
      simp only [traverse, Option.map_eq_some'] at h
      obtain ⟨rest, hrest, rfl⟩ := h
      obtain ⟨hp_notin, _⟩ := List.nodup_cons.mp hnd
      obtain ⟨st1, m1, e, hbody, he_tr, he_calls, _, he_frame, he_fields, _, _, _, _⟩ :=
        readSensorsBody_spec drv ctr p m status (hok p (by simp))
      have hne : ∀ q ∈ rest, q ≠ p := fun q hq e => hp_notin (e ▸ hq)
      have hnext : (m1.sensors p).next = (m.sensors p).next := by rw [he_fields]
      have hrest1 : traverse m1.sensors f (m1.sensors p).next = some rest := by
        rw [hnext]
        exact traverse_congr m.sensors m1.sensors f _ rest hrest
          (fun q hq => by rw [he_frame q (hne q hq)])
      have hok1 : ∀ q ∈ rest, NodeOk (m1.sensors q) := fun q hq => by
        rw [he_frame q (hne q hq)]; exact hok q (by simp [hq])
      simp only [readSensorsLoop, hbody] at hloop
      obtain ⟨st', m', new2, hloop', hE⟩ :=
        readSensorsLoop_spec drv ctr f (m1.sensors p).next m1 st1 rest hrest1 hok1
      rw [hloop] at hloop'
      simp only [Option.some.injEq, Prod.mk.injEq] at hloop'
      obtain ⟨rfl, rfl⟩ := hloop'
      have hnew : new = e ++ new2 := by
        have h1 := hE.trace_eq
        rw [he_tr, htr, List.append_assoc] at h1
        exact List.append_cancel_left h1
      have he_node : ∀ c ∈ e, c.node = p := by
        intro c hc
        have hmem : (c.kind, c.node) ∈ e.map (fun c => (c.kind, c.node)) :=
          List.mem_map.mpr ⟨c, hc, rfl⟩
        rw [he_calls] at hmem
        cases hd : dueCall m.sensors ctr p with
        | none => simp [hd] at hmem
        | some x =>
          simp only [hd, Option.toList_some, List.mem_singleton] at hmem
          have := dueCall_node _ _ _ _ hd
          rw [← hmem] at this
          exact this
      rw [hnew] at hc
      rcases List.mem_append.mp hc with hc1 | hc2
      · obtain ⟨fn, hfn, hflag⟩ := readSensorsBody_origin drv ctr p m status st1 m1 e hbody
          he_tr c hc1 hnot
        refine ⟨fn, m.sfg, m.env, ?_, ?_⟩
        · rw [he_node c hc1]; exact hfn
        · rw [he_node c hc1, hE.frame_out p hp_notin]; exact hflag
      · obtain ⟨fn, g, env, hfn, hflag⟩ :=
          ih (m1.sensors p).next m1 st1 rest hrest1 hok1 st m2 new2 hloop hE.trace_eq c hc2 hnot
        have hin : c.node ∈ rest := by
          have hmem : (c.kind, c.node) ∈ new2.map (fun c => (c.kind, c.node)) :=
            List.mem_map.mpr ⟨c, hc2, rfl⟩
          exact ((calls_mem_iff _ _ _ _ hE.calls_eq c.kind c.node).mp hmem).1
        rw [he_frame c.node (hne _ hin)] at hfn hflag
        exact ⟨fn, g, env, hfn, hflag⟩

/-- C11: over a registry whose nodes have both capabilities installed and a
schedule of at least 1, `readSensors` returns and leaves the head, the link order
and, for every node, the schedule, the address, the link and the installed
capabilities as they were.  The flag of a node is 0 after the call when its read
was invoked and returned a nonzero code; after any other invocation (successful
read, initialize) the flag is the value the invoked driver left in it; a node
on which nothing was invoked is unchanged.  Hence, with drivers that leave the
flag as they find it, the flag is cleared exactly for the nodes whose read was
invoked and failed, and is unchanged for every other node. -/
theorem readSensors_flag_frame {σ : Type} (drv : FnId → Driver σ) (fuel : Nat)
    (m : Machine σ) (ctr : Nat) (ps : List Ptr)
    (hreg : traverse m.sensors fuel m.sfg.pSensors = some ps)
    (hok : ∀ p ∈ ps, NodeOk (m.sensors p)) :
    ∃ st m1 new, readSensors drv fuel m ctr = some (st, m1) ∧
      m1.trace = m.trace ++ new ∧
      m1.sfg.pSensors = m.sfg.pSensors ∧
      traverse m1.sensors fuel m1.sfg.pSensors = some ps ∧
      (∀ q, (m1.sensors q).schedule = (m.sensors q).schedule ∧
        (m1.sensors q).addr = (m.sensors q).addr ∧
        (m1.sensors q).next = (m.sensors q).next ∧
        (m1.sensors q).read = (m.sensors q).read ∧
        (m1.sensors q).initialize_ = (m.sensors q).initialize_ ∧
        (m1.sensors q).deviceInfo = (m.sensors q).deviceInfo) ∧
      (∀ c ∈ new, c.kind = CapKind.read → c.code ≠ 0 →
        (m1.sensors c.node).isInitialized = 0) ∧
      (∀ c ∈ new, ¬ (c.kind = CapKind.read ∧ c.code ≠ 0) →
        ∃ f g env,
          ((m.sensors c.node).read = some f ∨ (m.sensors c.node).initialize_ = some f) ∧
          (m1.sensors c.node).isInitialized
            = (drv f c.node (m.sensors c.node) g env).isInitialized) ∧
      (∀ q, (∀ c ∈ new, c.node ≠ q) → m1.sensors q = m.sensors q) ∧
      ((∀ f q n g env, (drv f q n g env).isInitialized = n.isInitialized) →
        ∀ q,
          ((∃ c ∈ new, c.kind = CapKind.read ∧ c.node = q ∧ c.code ≠ 0) →
            (m1.sensors q).isInitialized = 0) ∧
          (¬ (∃ c ∈ new, c.kind = CapKind.read ∧ c.node = q ∧ c.code ≠ 0) →
            (m1.sensors q).isInitialized = (m.sensors q).isInitialized)) := by
  obtain ⟨st, m1, new, hloop, hE⟩ :=
    readSensorsLoop_spec drv ctr fuel m.sfg.pSensors m 0 ps hreg hok
  obtain ⟨hreg1, _, _⟩ := registry_preserved ctr ps 0 m st m1 new fuel hE hreg hok
  have horigin := readSensorsLoop_origin drv ctr fuel m.sfg.pSensors m 0 ps hreg hok
    st m1 new hloop hE.trace_eq
  have hrun : readSensors drv fuel m ctr = some (st,
      { m1 with sfg := if st = 0 then queueStatus m1.sfg fusion_status_t.NORMAL
                       else setStatus m1.sfg fusion_status_t.SOFT_FAULT }) := by
    simp only [readSensors, SENSOR_ERROR_NONE, hloop]
    split_ifs <;> rfl
  have hhead : (if st = 0 then queueStatus m1.sfg fusion_status_t.NORMAL
      else setStatus m1.sfg fusion_status_t.SOFT_FAULT).pSensors = m1.sfg.pSensors := by
    split_ifs <;> rfl
  have hidle : ∀ q, (∀ c ∈ new, c.node ≠ q) → m1.sensors q = m.sensors q := by
    intro q hq
    by_cases hqm : q ∈ ps
    · apply hE.idle_same q hqm
      cases hd : dueCall m.sensors ctr q with
      | none => rfl
      | some x =>
        exfalso
        have hx := dueCall_node _ _ _ _ hd
        have hmem : (x.1, q) ∈ new.map (fun c => (c.kind, c.node)) := by
          apply (calls_mem_iff _ _ _ _ hE.calls_eq x.1 q).mpr
          refine ⟨hqm, ?_⟩
          rw [hd, ← hx]
        obtain ⟨c, hc, hcq⟩ := List.mem_map.mp hmem
        simp only [Prod.mk.injEq] at hcq
        exact hq c hc hcq.2
    · exact hE.frame_out q hqm
  refine ⟨st, _, new, hrun, hE.trace_eq, ?_, ?_, ?_, hE.read_fail_clears, horigin, hidle, ?_⟩
  · simp only [hhead]; exact hE.head_eq
  · simp only [hhead]; exact hreg1
  · intro q
    have h := hE.frame_fields q
    simp only
    refine ⟨?_, ?_, ?_, ?_, ?_, ?_⟩ <;> rw [h]
  · intro hkeep q
    refine ⟨?_, ?_⟩
    · rintro ⟨c, hc, hk, hn, hcode⟩
      have := hE.read_fail_clears c hc hk hcode
      rwa [hn] at this
    · intro hnone
      by_cases hcall : ∃ c ∈ new, c.node = q
      · obtain ⟨c, hc, hn⟩ := hcall
        have hnot : ¬ (c.kind = CapKind.read ∧ c.code ≠ 0) :=
          fun h => hnone ⟨c, hc, h.1, hn, h.2⟩
        obtain ⟨f, g, env, _, hflag⟩ := horigin c hc hnot
        rw [hn] at hflag
        simp only
        rw [hflag, hkeep]
      · have : ∀ c ∈ new, c.node ≠ q := fun c hc hn => hcall ⟨c, hc, hn⟩
        simp only
        rw [hidle q this]

/-- C11, example: cycle index 1 on the two-sensor registry. -/
theorem readSensors_flag_frame_witness :
    ∃ st m1 new, readSensors scenarioDrivers 2 scenarioMachine 1 = some (st, m1) ∧
      m1.trace = scenarioMachine.trace ++ new ∧
      m1.sfg.pSensors = scenarioMachine.sfg.pSensors ∧
      traverse m1.sensors 2 m1.sfg.pSensors = some [2, 1] ∧
      (∀ q, (m1.sensors q).schedule = (scenarioMachine.sensors q).schedule ∧
        (m1.sensors q).addr = (scenarioMachine.sensors q).addr ∧
        (m1.sensors q).next = (scenarioMachine.sensors q).next ∧
        (m1.sensors q).read = (scenarioMachine.sensors q).read ∧
        (m1.sensors q).initialize_ = (scenarioMachine.sensors q).initialize_ ∧
        (m1.sensors q).deviceInfo = (scenarioMachine.sensors q).deviceInfo) ∧
      (∀ c ∈ new, c.kind = CapKind.read → c.code ≠ 0 →
        (m1.sensors c.node).isInitialized = 0) ∧
      (∀ c ∈ new, ¬ (c.kind = CapKind.read ∧ c.code ≠ 0) →
        ∃ f g env,
          ((scenarioMachine.sensors c.node).read = some f ∨
            (scenarioMachine.sensors c.node).initialize_ = some f) ∧
          (m1.sensors c.node).isInitialized
            = (scenarioDrivers f c.node (scenarioMachine.sensors c.node) g env).isInitialized) ∧
      (∀ q, (∀ c ∈ new, c.node ≠ q) → m1.sensors q = scenarioMachine.sensors q) ∧
      ((∀ f q n g env, (scenarioDrivers f q n g env).isInitialized = n.isInitialized) →
        ∀ q,
          ((∃ c ∈ new, c.kind = CapKind.read ∧ c.node = q ∧ c.code ≠ 0) →
            (m1.sensors q).isInitialized = 0) ∧
          (¬ (∃ c ∈ new, c.kind = CapKind.read ∧ c.node = q ∧ c.code ≠ 0) →
            (m1.sensors q).isInitialized = (scenarioMachine.sensors q).isInitialized)) :=
  readSensors_flag_frame scenarioDrivers 2 scenarioMachine 1 [2, 1]
    (by decide) (by decide)

/-! ## Initialization of the sensors -/

lemma initializeSensorsLoop_spec {σ : Type} (drv : FnId → Driver σ) :
    ∀ (fuel : Nat) (head : Option Ptr) (m : Machine σ) (status : Int) (ps : List Ptr),
      traverse m.sensors fuel head = some ps →
      (∀ p ∈ ps, (m.sensors p).initialize_ ≠ none) →
      ∃ st m1 new, initializeSensorsLoop drv fuel head m status = some (st, m1) ∧
        m1.trace = m.trace ++ new ∧
        new.map (fun c => (c.kind, c.node)) = ps.map (fun p => (CapKind.init, p)) ∧
        st = new.foldl firstWins status ∧
        m1.sfg.pSensors = m.sfg.pSensors ∧
        m1.sfg.pStatusSubsystem = m.sfg.pStatusSubsystem ∧
        m1.sfg.iFlags = m.sfg.iFlags ∧
        m1.sfg.loopcounter = m.sfg.loopcounter ∧
        (∀ q, m1.sensors q
          = { m.sensors q with isInitialized := (m1.sensors q).isInitialized }) ∧
        (∀ q, q ∉ ps → m1.sensors q = m.sensors q) := by
  intro fuel
  induction fuel with
  | zero =>
    intro head m status ps h _
    cases head with
    | some p => simp [traverse] at h
    | none =>
      simp only [traverse, Option.some.injEq] at h
      subst h
      exact ⟨status, m, [], rfl, by simp, by simp, by simp, rfl, rfl, rfl, rfl,
        fun _ => rfl, fun _ _ => rfl⟩
  | succ f ih =>
    intro head m status ps h hok
    cases head with
    | none =>
      simp only [traverse, Option.some.injEq] at h
      subst h
      exact ⟨status, m, [], rfl, by simp, by simp, by simp, rfl, rfl, rfl, rfl,
        fun _ => rfl, fun _ _ => rfl⟩
    | some p =>
      have hnd := traverse_nodup m.sensors ps _ _ h
      simp only [traverse, Option.map_eq_some'] at h
      obtain ⟨rest, hrest, rfl⟩ := h
      obtain ⟨hp_notin, _⟩ := List.nodup_cons.mp hnd
      obtain ⟨fn, hfn⟩ := Option.ne_none_iff_exists'.mp (hok p (by simp))
      have hne : ∀ q ∈ rest, q ≠ p := fun q hq e => hp_notin (e ▸ hq)
      have hframe : ∀ q, q ≠ p →
          ((m.afterCall CapKind.init p (drv fn p (m.sensors p) m.sfg m.env)).sensors q)
            = m.sensors q := by
        intro q hq
        simp [Machine.afterCall, Function.update_noteq hq]
      have hnext : ((m.afterCall CapKind.init p
          (drv fn p (m.sensors p) m.sfg m.env)).sensors p).next = (m.sensors p).next := by
        simp [Machine.afterCall]
      have hrest1 : traverse (m.afterCall CapKind.init p
          (drv fn p (m.sensors p) m.sfg m.env)).sensors f
          ((m.afterCall CapKind.init p (drv fn p (m.sensors p) m.sfg m.env)).sensors p).next
            = some rest := by
        rw [hnext]
        exact traverse_congr m.sensors _ f _ rest hrest
          (fun q hq => by rw [hframe q (hne q hq)])
      have hok1 : ∀ q ∈ rest, ((m.afterCall CapKind.init p
          (drv fn p (m.sensors p) m.sfg m.env)).sensors q).initialize_ ≠ none :=
        fun q hq => by rw [hframe q (hne q hq)]; exact hok q (by simp [hq])
      obtain ⟨st, m2, new2, hloop, htr, hcalls, hst, hhead, hsub, hfl, hlc, hfields, hout⟩ :=
        ih _ (m.afterCall CapKind.init p (drv fn p (m.sensors p) m.sfg m.env))
          (if status = 0 then (drv fn p (m.sensors p) m.sfg m.env).code else status)
          rest hrest1 hok1
      refine ⟨st, m2,
        ⟨CapKind.init, p, (drv fn p (m.sensors p) m.sfg m.env).code⟩ :: new2,
        ?_, ?_, ?_, ?_, ?_, ?_, ?_, ?_, ?_, ?_⟩
      · simp only [initializeSensorsLoop, hfn]
        exact hloop
      · rw [htr]; simp [Machine.afterCall]
      · simp [hcalls]
      · rw [hst]; simp [firstWins]
      · rw [hhead]; rfl
      · rw [hsub]; rfl
      · rw [hfl]; rfl
      · rw [hlc]; rfl
      · intro q
        have h2 := hfields q
        by_cases hqp : q = p
        · subst hqp
          rw [h2]
          simp [Machine.afterCall]
        · rw [h2, hframe q hqp]
      · intro q hq
        simp only [List.mem_cons, not_or] at hq
        rw [hout q hq.2, hframe q hq.1]

lemma foldl_firstWins (new : List CapCall) :
    ∀ s : Int, new.foldl firstWins s
      = if s ≠ 0 then s else firstNonzero (new.map (fun c => c.code)) := by
  induction new with
  | nil => intro s; by_cases h : s = 0 <;> simp [firstNonzero, h]
  | cons c cs ih =>
    intro s
    rw [List.foldl_cons, ih]
    by_cases h : s = 0
    · by_cases hc : c.code = 0 <;> simp [firstWins, firstNonzero, h, hc]
    · simp [firstWins, h]

/-- C13: `clearFIFOs` sets the sample count to 0 and the overflow flag to false (0)
for each sensor class whose feature constant is enabled (nonzero), leaves the
block of every other class as it is, and changes nothing else: buffered sample
values, stored averages, enabled flags and the other members of the context
are untouched. -/
theorem clearFIFOs_frame (b : Build) (sfg : SensorFusionGlobals) (k : SensorClass) :
    (k.feature b ≠ 0 →
      (k.block (clearFIFOs b sfg)).iFIFOCount = 0 ∧
      (k.block (clearFIFOs b sfg)).iFIFOExceeded = 0) ∧
    (k.feature b = 0 →
      (k.block (clearFIFOs b sfg)).iFIFOCount = (k.block sfg).iFIFOCount ∧
      (k.block (clearFIFOs b sfg)).iFIFOExceeded = (k.block sfg).iFIFOExceeded) ∧
    (k.block (clearFIFOs b sfg)).iGsFIFO = (k.block sfg).iGsFIFO ∧
    (k.block (clearFIFOs b sfg)).iGs = (k.block sfg).iGs ∧
    (k.block (clearFIFOs b sfg)).isEnabled = (k.block sfg).isEnabled ∧
    (clearFIFOs b sfg).iFlags = sfg.iFlags ∧
    (clearFIFOs b sfg).loopcounter = sfg.loopcounter ∧
    (clearFIFOs b sfg).pSensors = sfg.pSensors ∧
    (clearFIFOs b sfg).pStatusSubsystem = sfg.pStatusSubsystem := by
  unfold clearFIFOs
  cases k <;>
    by_cases h1 : b.F_USING_ACCEL = 0 <;> by_cases h2 : b.F_USING_MAG = 0 <;>
      by_cases h3 : b.F_USING_GYRO = 0 <;>
        simp [SensorClass.block, SensorClass.feature, h1, h2, h3]

/-- C19, the code at the failing input: the accelerometer is compiled in but
switched off at run time (`isEnabled` false) with one buffered sample and
overflow counter 3; `clearFIFOs` resets both its count and its overflow counter. -/
theorem clearFIFOs_clears_disabled_class :
    (globalsWith disabledFifo clearedFifo4 clearedFifo4).Accel.isEnabled = false ∧
    (globalsWith disabledFifo clearedFifo4 clearedFifo4).Accel.iFIFOCount = 1 ∧
    (globalsWith disabledFifo clearedFifo4 clearedFifo4).Accel.iFIFOExceeded = 3 ∧
    (clearFIFOs buildAccelGyro
      (globalsWith disabledFifo clearedFifo4 clearedFifo4)).Accel.isEnabled = false ∧
    (clearFIFOs buildAccelGyro
      (globalsWith disabledFifo clearedFifo4 clearedFifo4)).Accel.iFIFOCount = 0 ∧
    (clearFIFOs buildAccelGyro
      (globalsWith disabledFifo clearedFifo4 clearedFifo4)).Accel.iFIFOExceeded = 0 := by
  decide

/-! ## The buffer utility -/

lemma zeroLoop_length (numElements : Nat) :
    ∀ data : List Nat, (zeroLoop data numElements).length = data.length := by
  induction numElements with
  | zero => intro data; rfl
  | succ n ih =>
    intro data
    have : zeroLoop data (n + 1) = (zeroLoop data n).set n 0 := by
      simp [zeroLoop, List.range_succ, List.foldl_append]
    rw [this, List.length_set, ih]

lemma zeroLoop_getElem? (numElements : Nat) :
    ∀ (data : List Nat) (i : Nat),
      (zeroLoop data numElements)[i]? =
        if i < numElements ∧ i < data.length then some 0 else data[i]? := by
  induction numElements with
  | zero => intro data i; simp [zeroLoop]
  | succ n ih =>
    intro data i
    have hstep : zeroLoop data (n + 1) = (zeroLoop data n).set n 0 := by
      simp [zeroLoop, List.range_succ, List.foldl_append]
    rw [hstep, List.getElem?_set, ih, zeroLoop_length]
    by_cases hin : n = i
    · subst hin
      by_cases hl : n < data.length
      · simp [hl]
      · have : data[n]? = none := by simp [List.getElem?_eq_none_iff]; omega
        simp [hl, this]
    · by_cases hlt : i < n
      · have : i < n + 1 := by omega
        simp [hin, hlt, this]
      · have : ¬ i < n + 1 := by omega
        simp [hin, hlt, this]

lemma checkLoop_zero (data : List Nat) :
    ∀ (n i : Nat) (p : StatusSubsystem),
      (∀ j, i ≤ j → j < i + n → data.getD j 0 = 0) →
      checkLoop data n i p = Outcome.returned (p, data) := by
  intro n
  induction n with
  | zero => intro i p _; rfl
  | succ n ih =>
    intro i p h
    have h0 : data.getD i 0 = 0 := h i (le_refl _) (by omega)
    simp only [checkLoop, h0, ne_eq, not_true_eq_false, if_false]
    exact ih (i + 1) p (fun j hj1 hj2 => h j (by omega) (by omega))

/-- C18: for an element width of 8, 16 or 32 and a buffer of `numElements` elements,
`zeroArray` returns with every element 0 and without any call on the status
subsystem (so HARD_FAULT is never set), whether or not the check flag is on; for
any other width the buffer is left unchanged and the one status call made is
`set(HARD_FAULT)`. -/
theorem zeroArray_zeroes_or_faults (pStatus : StatusSubsystem) (data : List Nat)
    (size numElements check : Nat) (hlen : data.length = numElements) :
    ((size = 8 ∨ size = 16 ∨ size = 32) →
      zeroArray pStatus data size numElements check
        = Outcome.returned (pStatus, List.replicate numElements 0) ∧
      (∀ i, i < numElements →
        (zeroArray pStatus data size numElements check).state.2[i]? = some 0) ∧
      (zeroArray pStatus data size numElements check).state.1 = pStatus) ∧
    (¬ (size = 8 ∨ size = 16 ∨ size = 32) →
      (zeroArray pStatus data size numElements check).state.2 = data ∧
      (zeroArray pStatus data size numElements check).state.1.calls
        = pStatus.calls ++ [StatusCall.set fusion_status_t.HARD_FAULT] ∧
      (zeroArray pStatus data size numElements check).state.1.status
        = fusion_status_t.HARD_FAULT) := by
  have hz : zeroLoop data numElements = List.replicate numElements 0 := by
    apply List.ext_getElem?
    intro i
    rw [zeroLoop_getElem?]
    by_cases hi : i < numElements
    · simp [hi, hlen, List.getElem?_replicate]
    · have : data[i]? = none := by simp [List.getElem?_eq_none_iff]; omega
      simp [hi, this, List.getElem?_replicate]
  have hcheck : ∀ p, checkLoop (List.replicate numElements 0) numElements 0 p
      = Outcome.returned (p, List.replicate numElements 0) := by
    intro p
    apply checkLoop_zero
    intro j _ _
    by_cases hj : j < numElements
    · simp [List.getD_eq_getElem?_getD, List.getElem?_replicate, hj]
    · simp [List.getD_eq_getElem?_getD, List.getElem?_replicate, hj]
  refine ⟨?_, ?_⟩
  · intro hw
    have hret : zeroArray pStatus data size numElements check
        = Outcome.returned (pStatus, List.replicate numElements 0) := by
      unfold zeroArray
      simp only [hw, if_true, hz]
      by_cases hc : check = 0
      · simp [hc]
      · simp [hc, hcheck]
    refine ⟨hret, ?_, ?_⟩
    · intro i hi
      rw [hret]
      simp [Outcome.state, List.getElem?_replicate, hi]
    · rw [hret]; rfl
  · intro hw
    unfold zeroArray
    simp [hw, setOrTrap, StatusSubsystem.traps, Outcome.state, StatusSubsystem.set]

/-- C18, example: a buffer of three 16-bit elements, check flag on. -/
theorem zeroArray_zeroes_or_faults_witness :
    ((16 = 8 ∨ 16 = 16 ∨ 16 = 32) →
      zeroArray idleStatus [7, 0, 9] 16 3 1
        = Outcome.returned (idleStatus, List.replicate 3 0) ∧
      (∀ i, i < 3 → (zeroArray idleStatus [7, 0, 9] 16 3 1).state.2[i]? = some 0) ∧
      (zeroArray idleStatus [7, 0, 9] 16 3 1).state.1 = idleStatus) ∧
    (¬ (16 = 8 ∨ 16 = 16 ∨ 16 = 32) →
      (zeroArray idleStatus [7, 0, 9] 16 3 1).state.2 = [7, 0, 9] ∧
      (zeroArray idleStatus [7, 0, 9] 16 3 1).state.1.calls
        = idleStatus.calls ++ [StatusCall.set fusion_status_t.HARD_FAULT] ∧
      (zeroArray idleStatus [7, 0, 9] 16 3 1).state.1.status
        = fusion_status_t.HARD_FAULT) :=
  zeroArray_zeroes_or_faults idleStatus [7, 0, 9] 16 3 1 rfl

/-! ## Conditioning pipeline -/

lemma toInt32_eq (x : Int) (h1 : -2147483648 ≤ x) (h2 : x ≤ 2147483647) : toInt32 x = x := by
  unfold toInt32; omega

lemma toInt16_eq (x : Int) (h1 : -32768 ≤ x) (h2 : x ≤ 32767) : toInt16 x = x := by
  unfold toInt16; omega

lemma sumFifo_succ (fifo : List Sample) (n : Nat) :
    sumFifo fifo (n + 1) =
      { chx := toInt32 ((sumFifo fifo n).chx + (fifo.getD n ⟨0, 0, 0⟩).chx)
        chy := toInt32 ((sumFifo fifo n).chy + (fifo.getD n ⟨0, 0, 0⟩).chy)
        chz := toInt32 ((sumFifo fifo n).chz + (fifo.getD n ⟨0, 0, 0⟩).chz) } := by
  simp [sumFifo, List.range_succ, List.foldl_append]

lemma sumFifo_exact (fifo : List Sample) :
    ∀ n : Nat, n ≤ fifo.length → n ≤ 65535 → (∀ x ∈ fifo.take n, x.inRange) →
      ((sumFifo fifo n).chx = ((fifo.take n).map (fun s => s.chx)).sum ∧
       (sumFifo fifo n).chy = ((fifo.take n).map (fun s => s.chy)).sum ∧
       (sumFifo fifo n).chz = ((fifo.take n).map (fun s => s.chz)).sum) ∧
      (-32768 * (n : Int) ≤ (sumFifo fifo n).chx ∧ (sumFifo fifo n).chx ≤ 32767 * (n : Int)) ∧
      (-32768 * (n : Int) ≤ (sumFifo fifo n).chy ∧ (sumFifo fifo n).chy ≤ 32767 * (n : Int)) ∧
      (-32768 * (n : Int) ≤ (sumFifo fifo n).chz ∧ (sumFifo fifo n).chz ≤ 32767 * (n : Int)) := by
  intro n
  induction n with
  | zero => intro _ _ _; simp [sumFifo]
  | succ n ih =>
    intro hlen hmax hrange
    have hlt : n < fifo.length := by omega
    have htake : fifo.take (n + 1) = fifo.take n ++ [fifo.get ⟨n, hlt⟩] := by
      rw [List.take_succ, List.getElem?_eq_getElem hlt]; rfl
    have hget : fifo.getD n ⟨0, 0, 0⟩ = fifo.get ⟨n, hlt⟩ := by
      simp [List.getD_eq_getElem?_getD, List.getElem?_eq_getElem hlt]
    have hprev : ∀ x ∈ fifo.take n, x.inRange := fun x hx =>
      hrange x (by rw [htake]; exact List.mem_append_left _ hx)
    have hlast : (fifo.get ⟨n, hlt⟩).inRange :=
      hrange _ (by rw [htake]; exact List.mem_append_right _ (List.mem_singleton.mpr rfl))
    obtain ⟨⟨hx, hy, hz⟩, ⟨hx1, hx2⟩, ⟨hy1, hy2⟩, ⟨hz1, hz2⟩⟩ := ih (by omega) (by omega) hprev
    obtain ⟨a1, a2, b1, b2, c1, c2⟩ := hlast
    have hn : (n : Int) ≤ 65534 := by omega
    rw [sumFifo_succ, hget, htake]
    simp only [List.map_append, List.map_cons, List.map_nil, List.sum_append, List.sum_cons,
      List.sum_nil, add_zero]
    rw [toInt32_eq _ (by omega) (by omega), toInt32_eq _ (by omega) (by omega),
      toInt32_eq _ (by omega) (by omega), hx, hy, hz]
    rw [hx] at hx1 hx2
    rw [hy] at hy1 hy2
    rw [hz] at hz1 hz2
    push_cast
    refine ⟨⟨rfl, rfl, rfl⟩, ⟨?_, ?_⟩, ⟨?_, ?_⟩, ⟨?_, ?_⟩⟩ <;> omega

lemma tdiv_in_int16 (S : Int) (n : Nat) (hn : 0 < n)
    (h1 : -32768 * (n : Int) ≤ S) (h2 : S ≤ 32767 * (n : Int)) :
    -32768 ≤ Int.tdiv S (n : Int) ∧ Int.tdiv S (n : Int) ≤ 32767 := by
  have hnpos : (0 : Int) < (n : Int) := by exact_mod_cast hn
  by_cases hS : 0 ≤ S
  · rw [Int.tdiv_eq_ediv hS (le_of_lt hnpos)]
    have h3 : 0 ≤ S / (n : Int) := Int.ediv_nonneg hS (le_of_lt hnpos)
    have h4 : S / (n : Int) ≤ 32767 := Int.ediv_le_of_le_mul hnpos h2
    omega
  · have hneg : 0 ≤ -S := by omega
    have h5 : Int.tdiv S (n : Int) = -(Int.tdiv (-S) (n : Int)) := by
      rw [Int.neg_tdiv, neg_neg]
    rw [h5, Int.tdiv_eq_ediv hneg (le_of_lt hnpos)]
    have h3 : 0 ≤ (-S) / (n : Int) := Int.ediv_nonneg hneg (le_of_lt hnpos)
    have h4 : (-S) / (n : Int) ≤ 32768 := Int.ediv_le_of_le_mul hnpos (by omega)
    omega

lemma averageFifo_spec (s : FifoSensor) (hcount : s.iFIFOCount ≤ 255)
    (hlen : s.iFIFOCount ≤ s.iGsFIFO.length)
    (hrange : ∀ x ∈ s.iGsFIFO.take s.iFIFOCount, x.inRange) :
    (0 < s.iFIFOCount →
      (averageFifo s).iGs.chx
        = Int.tdiv ((s.iGsFIFO.take s.iFIFOCount).map (fun x => x.chx)).sum s.iFIFOCount ∧
      (averageFifo s).iGs.chy
        = Int.tdiv ((s.iGsFIFO.take s.iFIFOCount).map (fun x => x.chy)).sum s.iFIFOCount ∧
      (averageFifo s).iGs.chz
        = Int.tdiv ((s.iGsFIFO.take s.iFIFOCount).map (fun x => x.chz)).sum s.iFIFOCount) ∧
    (s.iFIFOCount = 0 → (averageFifo s).iGs = s.iGs) ∧
    (averageFifo s).iFIFOCount = s.iFIFOCount ∧
    (averageFifo s).iFIFOExceeded = s.iFIFOExceeded ∧
    (averageFifo s).isEnabled = s.isEnabled ∧
    (averageFifo s).iGsFIFO = s.iGsFIFO := by
  obtain ⟨⟨hx, hy, hz⟩, ⟨hx1, hx2⟩, ⟨hy1, hy2⟩, ⟨hz1, hz2⟩⟩ :=
    sumFifo_exact s.iGsFIFO s.iFIFOCount hlen (by omega) hrange
  refine ⟨?_, ?_, ?_, ?_, ?_, ?_⟩
  · intro hpos
    have bx := tdiv_in_int16 _ _ hpos hx1 hx2
    have b_y := tdiv_in_int16 _ _ hpos hy1 hy2
    have bz := tdiv_in_int16 _ _ hpos hz1 hz2
    simp only [averageFifo, hpos, gt_iff_lt, if_true]
    rw [toInt16_eq _ bx.1 bx.2, toInt16_eq _ b_y.1 b_y.2, toInt16_eq _ bz.1 bz.2, hx, hy, hz]
    exact ⟨rfl, rfl, rfl⟩
  · intro h0
    simp [averageFifo, h0]
  all_goals
    unfold averageFifo
    split_ifs <;> rfl

lemma processData_block {τ : Type} (c : Collaborators τ) (k : SensorClass)
    (sfg : SensorFusionGlobals) (t : τ) :
    k.block (processData c k sfg t).1
      = averageFifo { k.block sfg with iGsFIFO := k.hal c (k.block sfg) } := by
  cases k <;>
    simp only [processData, processAccelData, processMagData, processGyroData,
      SensorClass.block, SensorClass.hal] <;>
    split_ifs <;> rfl

/-- C15: in `processAccelData`, `processMagData` and `processGyroData`, for a block
whose count `n` is at most 255 and within the array and whose `n`
HAL-corrected buffered samples are 16-bit values: when `n > 0` each axis of the
integer average is the sum of the `n` HAL-corrected buffered samples of that
axis divided by `n` with truncation toward zero; when `n = 0` the stored
integer average is left unchanged. -/
theorem processData_average {τ : Type} (c : Collaborators τ) (k : SensorClass)
    (sfg : SensorFusionGlobals) (t : τ)
    (hcount : (k.block sfg).iFIFOCount ≤ 255)
    (hlen : (k.block sfg).iFIFOCount ≤ (k.hal c (k.block sfg)).length)
    (hrange : ∀ x ∈ (k.hal c (k.block sfg)).take (k.block sfg).iFIFOCount, x.inRange) :
    (0 < (k.block sfg).iFIFOCount →
      (k.block (processData c k sfg t).1).iGs.chx
        = Int.tdiv (((k.hal c (k.block sfg)).take (k.block sfg).iFIFOCount).map
            (fun x => x.chx)).sum (k.block sfg).iFIFOCount ∧
      (k.block (processData c k sfg t).1).iGs.chy
        = Int.tdiv (((k.hal c (k.block sfg)).take (k.block sfg).iFIFOCount).map
            (fun x => x.chy)).sum (k.block sfg).iFIFOCount ∧
      (k.block (processData c k sfg t).1).iGs.chz
        = Int.tdiv (((k.hal c (k.block sfg)).take (k.block sfg).iFIFOCount).map
            (fun x => x.chz)).sum (k.block sfg).iFIFOCount) ∧
    ((k.block sfg).iFIFOCount = 0 →
      (k.block (processData c k sfg t).1).iGs = (k.block sfg).iGs) := by
  rw [processData_block]
  obtain ⟨h1, h2, _⟩ := averageFifo_spec
    { k.block sfg with iGsFIFO := k.hal c (k.block sfg) } hcount hlen hrange
  exact ⟨h1, h2⟩

/-- C15, example: the accelerometer block with the samples (-7, 1, 4), (2, 1, 4),
(0, 2, 4): the sums are -5, 4, 12 and the averages -1, 1, 4. -/
theorem processData_average_witness :
    (0 < (SensorClass.accel.block (globalsWith fifoThree fifoAt1 fifoAt1)).iFIFOCount →
      (SensorClass.accel.block (processData idleCollaborators SensorClass.accel
          (globalsWith fifoThree fifoAt1 fifoAt1) ()).1).iGs.chx
        = Int.tdiv (((SensorClass.accel.hal idleCollaborators
            (SensorClass.accel.block (globalsWith fifoThree fifoAt1 fifoAt1))).take
              (SensorClass.accel.block (globalsWith fifoThree fifoAt1 fifoAt1)).iFIFOCount).map
            (fun x => x.chx)).sum
            (SensorClass.accel.block (globalsWith fifoThree fifoAt1 fifoAt1)).iFIFOCount ∧
      (SensorClass.accel.block (processData idleCollaborators SensorClass.accel
          (globalsWith fifoThree fifoAt1 fifoAt1) ()).1).iGs.chy
        = Int.tdiv (((SensorClass.accel.hal idleCollaborators
            (SensorClass.accel.block (globalsWith fifoThree fifoAt1 fifoAt1))).take
              (SensorClass.accel.block (globalsWith fifoThree fifoAt1 fifoAt1)).iFIFOCount).map
            (fun x => x.chy)).sum
            (SensorClass.accel.block (globalsWith fifoThree fifoAt1 fifoAt1)).iFIFOCount ∧
      (SensorClass.accel.block (processData idleCollaborators SensorClass.accel
          (globalsWith fifoThree fifoAt1 fifoAt1) ()).1).iGs.chz
        = Int.tdiv (((SensorClass.accel.hal idleCollaborators
            (SensorClass.accel.block (globalsWith fifoThree fifoAt1 fifoAt1))).take
              (SensorClass.accel.block (globalsWith fifoThree fifoAt1 fifoAt1)).iFIFOCount).map
            (fun x => x.chz)).sum
            (SensorClass.accel.block (globalsWith fifoThree fifoAt1 fifoAt1)).iFIFOCount) ∧
    ((SensorClass.accel.block (globalsWith fifoThree fifoAt1 fifoAt1)).iFIFOCount = 0 →
      (SensorClass.accel.block (processData idleCollaborators SensorClass.accel
          (globalsWith fifoThree fifoAt1 fifoAt1) ()).1).iGs
        = (SensorClass.accel.block (globalsWith fifoThree fifoAt1 fifoAt1)).iGs) :=
  processData_average idleCollaborators SensorClass.accel
    (globalsWith fifoThree fifoAt1 fifoAt1) () (by decide) (by decide) (by decide)

/-! ## Initialization sequence -/

lemma defaultQuaternion_eq_lastEnabled (v : Variants) (iFlags : Nat) :
    defaultQuaternion v iFlags = lastEnabled (variantBits v iFlags) := by
  unfold defaultQuaternion lastEnabled variantBits
  by_cases h1 : iFlags &&& v.F_3DOF_B_BASIC = 0 <;>
    by_cases h2 : iFlags &&& v.F_3DOF_Y_BASIC = 0 <;>
      by_cases h3 : iFlags &&& v.F_6DOF_GB_BASIC = 0 <;>
        by_cases h4 : iFlags &&& v.F_6DOF_GY_KALMAN = 0 <;>
          by_cases h5 : iFlags &&& v.F_9DOF_GBY_KALMAN = 0 <;>
            simp [h1, h2, h3, h4, h5, List.filter, List.getLast?, List.getLast]

lemma clearFIFOs_others (b : Build) (sfg : SensorFusionGlobals) :
    (clearFIFOs b sfg).pStatusSubsystem = sfg.pStatusSubsystem ∧
    (clearFIFOs b sfg).loopcounter = sfg.loopcounter ∧
    (clearFIFOs b sfg).iFlags = sfg.iFlags ∧
    (clearFIFOs b sfg).pSensors = sfg.pSensors := by
  unfold clearFIFOs
  by_cases h1 : b.F_USING_ACCEL = 0 <;> by_cases h2 : b.F_USING_MAG = 0 <;>
    by_cases h3 : b.F_USING_GYRO = 0 <;> simp [h1, h2, h3]

lemma clearFIFOs_cleared (b : Build) (sfg : SensorFusionGlobals) (k : SensorClass)
    (h : k.feature b ≠ 0) :
    (k.block (clearFIFOs b sfg)).iFIFOCount = 0 ∧
    (k.block (clearFIFOs b sfg)).iFIFOExceeded = 0 := by
  unfold clearFIFOs
  cases k <;>
    by_cases h1 : b.F_USING_ACCEL = 0 <;> by_cases h2 : b.F_USING_MAG = 0 <;>
      by_cases h3 : b.F_USING_GYRO = 0 <;>
        simp_all [SensorClass.block, SensorClass.feature]

lemma initializeFusionEngineRest_spec {σ τ : Type} (b : Build) (v : Variants)
    (drv : FnId → Driver σ) (c : Collaborators τ) (fuel : Nat) (e : Engine σ τ)
    (ps : List Ptr)
    (hreg : traverse e.machine.sensors fuel e.machine.sfg.pSensors = some ps)
    (hinit : ∀ p ∈ ps, (e.machine.sensors p).initialize_ ≠ none) :
    ∃ st new e1,
      initializeFusionEngineRest b v drv c fuel e = some (Outcome.returned e1) ∧
      e1.machine.trace = e.machine.trace ++ new ∧
      new.map (fun c => (c.kind, c.node)) = ps.map (fun p => (CapKind.init, p)) ∧
      st = firstNonzero (new.map (fun c => c.code)) ∧
      e1.machine.sfg.pStatusSubsystem =
        (if st = 0 then e.machine.sfg.pStatusSubsystem.set fusion_status_t.NORMAL
         else e.machine.sfg.pStatusSubsystem.set fusion_status_t.SOFT_FAULT) ∧
      e1.machine.sfg.loopcounter = 0 ∧
      (∀ k : SensorClass, k.feature b ≠ 0 →
        (k.block e1.machine.sfg).iFIFOCount = 0 ∧
        (k.block e1.machine.sfg).iFIFOExceeded = 0) ∧
      e1.control.DefaultQuaternionPacketType = defaultQuaternion v e.machine.sfg.iFlags ∧
      e1.control.QuaternionPacketType = e1.control.DefaultQuaternionPacketType := by
  obtain ⟨st, m2, new, hloop, htr, hcalls, hst, _, hsub, hfl, _, _, _⟩ :=
    initializeSensorsLoop_spec drv fuel e.machine.sfg.pSensors e.machine 0 ps hreg hinit
  have hst2 : st = firstNonzero (new.map (fun c => c.code)) := by
    rw [hst, foldl_firstWins]; simp
  have hrun : initializeSensors drv fuel e.machine = some (st, m2) := hloop
  refine ⟨st, new, ?_⟩
  simp only [initializeFusionEngineRest, hrun]
  refine ⟨_, rfl, htr, hcalls, hst2, ?_, ?_, ?_, ?_, ?_⟩
  · by_cases h0 : st = 0
    · simp [h0, SENSOR_ERROR_NONE, setStatus, (clearFIFOs_others b _).1, hsub]
    · simp [h0, SENSOR_ERROR_NONE, setStatus, (clearFIFOs_others b _).1, hsub]
  · by_cases h0 : st = 0
    · simp [h0, SENSOR_ERROR_NONE, setStatus, (clearFIFOs_others b _).2.1]
    · simp [h0, SENSOR_ERROR_NONE, setStatus, (clearFIFOs_others b _).2.1]
  · intro k hk
    by_cases h0 : st = 0
    · simp only [h0, SENSOR_ERROR_NONE, ne_eq, not_true_eq_false, if_false, if_true]
      have := clearFIFOs_cleared b { m2.sfg with loopcounter := 0 } k hk
      cases k <;> simpa [SensorClass.block, setStatus] using this
    · simp only [h0, SENSOR_ERROR_NONE, ne_eq, not_false_eq_true, if_false, if_true]
      have := clearFIFOs_cleared b
        { setStatus m2.sfg fusion_status_t.SOFT_FAULT with loopcounter := 0 } k hk
      cases k <;> simpa [SensorClass.block, setStatus] using this
  · by_cases h0 : st = 0
    · simp [h0, SENSOR_ERROR_NONE, hfl]
    · simp [h0, SENSOR_ERROR_NONE, setStatus, hfl]
  · rfl

/-- C14: whenever the bus bring-up succeeds (so that `initializeFusionEngine` goes
past it) on a registry that ends with initialize capabilities installed, the
function returns and, for every feature bitmask, the default output type it
leaves is the designation of the last variant whose bit is set in the fixed
order 3DOF-mag, 3DOF-gyro, 6DOF-accel+mag, 6DOF-accel+gyro, 9DOF (`Q3M`, `Q3G`,
`Q6MA`, `Q6AG`, `Q9`), and `Q3` if none is set; so only the 3DOF-mag bit gives
`Q3M` and a set 9DOF bit (in particular all bits set) gives `Q9`; the active
output type equals the default. -/
theorem initializeFusionEngine_default_quaternion {σ τ : Type} (b : Build) (v : Variants)
    (drv : FnId → Driver σ) (I2CInitialize : Int → Int → σ → Bool × σ)
    (c : Collaborators τ) (fuel : Nat) (e : Engine σ τ) (sda scl : Int) (ps : List Ptr)
    (hreg : traverse e.machine.sensors fuel e.machine.sfg.pSensors = some ps)
    (hinit : ∀ p ∈ ps, (e.machine.sensors p).initialize_ ≠ none)
    (hi2c : (I2CInitialize sda scl e.machine.env).1 = true) :
    ∃ e1, initializeFusionEngine b v drv I2CInitialize c fuel e sda scl
        = some (Outcome.returned e1) ∧
      e1.control.DefaultQuaternionPacketType
        = lastEnabled (variantBits v e.machine.sfg.iFlags) ∧
      e1.control.QuaternionPacketType = e1.control.DefaultQuaternionPacketType ∧
      ((e.machine.sfg.iFlags &&& v.F_3DOF_B_BASIC = 0 ∧
        e.machine.sfg.iFlags &&& v.F_3DOF_Y_BASIC = 0 ∧
        e.machine.sfg.iFlags &&& v.F_6DOF_GB_BASIC = 0 ∧
        e.machine.sfg.iFlags &&& v.F_6DOF_GY_KALMAN = 0 ∧
        e.machine.sfg.iFlags &&& v.F_9DOF_GBY_KALMAN = 0) →
        e1.control.DefaultQuaternionPacketType = quaternion_type.Q3) ∧
      ((e.machine.sfg.iFlags &&& v.F_3DOF_B_BASIC ≠ 0 ∧
        e.machine.sfg.iFlags &&& v.F_3DOF_Y_BASIC = 0 ∧
        e.machine.sfg.iFlags &&& v.F_6DOF_GB_BASIC = 0 ∧
        e.machine.sfg.iFlags &&& v.F_6DOF_GY_KALMAN = 0 ∧
        e.machine.sfg.iFlags &&& v.F_9DOF_GBY_KALMAN = 0) →
        e1.control.DefaultQuaternionPacketType = quaternion_type.Q3M) ∧
      (e.machine.sfg.iFlags &&& v.F_9DOF_GBY_KALMAN ≠ 0 →
        e1.control.DefaultQuaternionPacketType = quaternion_type.Q9) := by
  obtain ⟨st, new, e1, hrest, _, _, _, _, _, _, hdef, hact⟩ :=
    initializeFusionEngineRest_spec b v drv c fuel
      { e with machine :=
          { e.machine with
            sfg := setStatus e.machine.sfg fusion_status_t.INITIALIZING
            env := (I2CInitialize sda scl e.machine.env).2 } } ps hreg hinit
  have hdef2 : e1.control.DefaultQuaternionPacketType
      = defaultQuaternion v e.machine.sfg.iFlags := hdef
  refine ⟨e1, ?_, ?_, hact, ?_, ?_, ?_⟩
  · simp only [initializeFusionEngine, hi2c, Bool.true_eq_false, if_false]
    exact hrest
  · rw [hdef2, defaultQuaternion_eq_lastEnabled]
  · rintro ⟨h1, h2, h3, h4, h5⟩
    rw [hdef2]
    simp [defaultQuaternion, h1, h2, h3, h4, h5]
  · rintro ⟨h1, h2, h3, h4, h5⟩
    rw [hdef2]
    simp [defaultQuaternion, h1, h2, h3, h4, h5]
  · intro h5
    rw [hdef2]
    simp [defaultQuaternion, h5]

/-- C14, example: the two-sensor engine with the 3DOF-mag and 6DOF accel+gyro bits
set in the bitmask. -/
theorem initializeFusionEngine_default_quaternion_witness :
    ∃ e1, initializeFusionEngine buildAccelGyro allVariants goodDrivers i2cOk
        idleCollaborators 2 twoSensorEngine 21 22 = some (Outcome.returned e1) ∧
      e1.control.DefaultQuaternionPacketType
        = lastEnabled (variantBits allVariants twoSensorEngine.machine.sfg.iFlags) ∧
      e1.control.QuaternionPacketType = e1.control.DefaultQuaternionPacketType ∧
      ((twoSensorEngine.machine.sfg.iFlags &&& allVariants.F_3DOF_B_BASIC = 0 ∧
        twoSensorEngine.machine.sfg.iFlags &&& allVariants.F_3DOF_Y_BASIC = 0 ∧
        twoSensorEngine.machine.sfg.iFlags &&& allVariants.F_6DOF_GB_BASIC = 0 ∧
        twoSensorEngine.machine.sfg.iFlags &&& allVariants.F_6DOF_GY_KALMAN = 0 ∧
        twoSensorEngine.machine.sfg.iFlags &&& allVariants.F_9DOF_GBY_KALMAN = 0) →
        e1.control.DefaultQuaternionPacketType = quaternion_type.Q3) ∧
      ((twoSensorEngine.machine.sfg.iFlags &&& allVariants.F_3DOF_B_BASIC ≠ 0 ∧
        twoSensorEngine.machine.sfg.iFlags &&& allVariants.F_3DOF_Y_BASIC = 0 ∧
        twoSensorEngine.machine.sfg.iFlags &&& allVariants.F_6DOF_GB_BASIC = 0 ∧
        twoSensorEngine.machine.sfg.iFlags &&& allVariants.F_6DOF_GY_KALMAN = 0 ∧
        twoSensorEngine.machine.sfg.iFlags &&& allVariants.F_9DOF_GBY_KALMAN = 0) →
        e1.control.DefaultQuaternionPacketType = quaternion_type.Q3M) ∧
      (twoSensorEngine.machine.sfg.iFlags &&& allVariants.F_9DOF_GBY_KALMAN ≠ 0 →
        e1.control.DefaultQuaternionPacketType = quaternion_type.Q9) :=
  initializeFusionEngine_default_quaternion buildAccelGyro allVariants goodDrivers i2cOk
    idleCollaborators 2 twoSensorEngine 21 22 [2, 1] (by decide) (by decide) rfl

lemma replay_calls (L : List StatusCall) :
    ∀ p : StatusSubsystem, (p.replay L).calls = p.calls ++ L := by
  induction L with
  | nil => intro p; simp [StatusSubsystem.replay]
  | cons x xs ih =>
    intro p
    have hstep : p.replay (x :: xs) = (p.apply x).replay xs := rfl
    rw [hstep, ih]
    cases x <;>
      simp [StatusSubsystem.apply, StatusSubsystem.set, StatusSubsystem.queue,
        StatusSubsystem.update]

lemma replay_append (p : StatusSubsystem) (L1 L2 : List StatusCall) :
    p.replay (L1 ++ L2) = (p.replay L1).replay L2 := by
  simp [StatusSubsystem.replay, List.foldl_append]

lemma processAccelData_effect {τ : Type} (c : Collaborators τ) (sfg : SensorFusionGlobals)
    (t : τ) :
    (processAccelData c sfg t).1.pStatusSubsystem
      = sfg.pStatusSubsystem.replay
          (if 0 < sfg.Accel.iFIFOExceeded then [StatusCall.set fusion_status_t.SOFT_FAULT]
           else []) ∧
    (processAccelData c sfg t).1.Mag = sfg.Mag ∧
    (processAccelData c sfg t).1.Gyro = sfg.Gyro := by
  unfold processAccelData
  by_cases h : 0 < sfg.Accel.iFIFOExceeded <;>
    simp [h, setStatus, StatusSubsystem.replay, StatusSubsystem.apply]

lemma processMagData_effect {τ : Type} (c : Collaborators τ) (sfg : SensorFusionGlobals)
    (t : τ) :
    (processMagData c sfg t).1.pStatusSubsystem
      = sfg.pStatusSubsystem.replay
          (if 0 < sfg.Mag.iFIFOExceeded then [StatusCall.set fusion_status_t.SOFT_FAULT]
           else []) ∧
    (processMagData c sfg t).1.Gyro = sfg.Gyro := by
  unfold processMagData
  by_cases h : 0 < sfg.Mag.iFIFOExceeded <;>
    simp [h, setStatus, StatusSubsystem.replay, StatusSubsystem.apply]

lemma processGyroData_effect {τ : Type} (c : Collaborators τ) (sfg : SensorFusionGlobals)
    (t : τ) :
    (processGyroData c sfg t).1.pStatusSubsystem
      = sfg.pStatusSubsystem.replay
          (if 0 < sfg.Gyro.iFIFOExceeded then [StatusCall.set fusion_status_t.SOFT_FAULT]
           else []) := by
  unfold processGyroData
  by_cases h : 0 < sfg.Gyro.iFIFOExceeded <;>
    simp [h, setStatus, StatusSubsystem.replay, StatusSubsystem.apply]

lemma conditionSensorReadings_replay {τ : Type} (b : Build) (c : Collaborators τ)
    (sfg : SensorFusionGlobals) (t : τ) :
    (conditionSensorReadings b c sfg t).1.pStatusSubsystem
      = sfg.pStatusSubsystem.replay
          (overflowFault b sfg SensorClass.accel ++ overflowFault b sfg SensorClass.mag ++
            overflowFault b sfg SensorClass.gyro) := by
  have h1 : ∀ r1 : SensorFusionGlobals × τ,
      r1 = (if b.F_USING_ACCEL ≠ 0 then
        (if sfg.Accel.isEnabled then processAccelData c sfg t else (sfg, t)) else (sfg, t)) →
      r1.1.pStatusSubsystem
        = sfg.pStatusSubsystem.replay (overflowFault b sfg SensorClass.accel) ∧
      r1.1.Mag = sfg.Mag ∧ r1.1.Gyro = sfg.Gyro := by
    intro r1 hr1
    obtain ⟨e1, e2, e3⟩ := processAccelData_effect c sfg t
    by_cases hb : b.F_USING_ACCEL = 0 <;> by_cases he : sfg.Accel.isEnabled = true <;>
      by_cases hx : 0 < sfg.Accel.iFIFOExceeded <;>
        simp_all [overflowFault, SensorClass.feature, SensorClass.block,
          StatusSubsystem.replay]
  have h2 : ∀ r1 r2 : SensorFusionGlobals × τ,
      r2 = (if b.F_USING_MAG ≠ 0 then
        (if r1.1.Mag.isEnabled then processMagData c r1.1 r1.2 else r1) else r1) →
      r1.1.Mag = sfg.Mag →
      r2.1.pStatusSubsystem
        = r1.1.pStatusSubsystem.replay (overflowFault b sfg SensorClass.mag) ∧
      r2.1.Gyro = r1.1.Gyro := by
    intro r1 r2 hr2 hm
    obtain ⟨e1, e2⟩ := processMagData_effect c r1.1 r1.2
    rw [hm] at e1
    by_cases hb : b.F_USING_MAG = 0 <;> by_cases he : sfg.Mag.isEnabled = true <;>
      by_cases hx : 0 < sfg.Mag.iFIFOExceeded <;>
        simp_all [overflowFault, SensorClass.feature, SensorClass.block,
          StatusSubsystem.replay]
  have h3 : ∀ r2 r3 : SensorFusionGlobals × τ,
      r3 = (if b.F_USING_GYRO ≠ 0 then
        (if r2.1.Gyro.isEnabled then processGyroData c r2.1 r2.2 else r2) else r2) →
      r2.1.Gyro = sfg.Gyro →
      r3.1.pStatusSubsystem
        = r2.1.pStatusSubsystem.replay (overflowFault b sfg SensorClass.gyro) := by
    intro r2 r3 hr3 hg
    have e1 := processGyroData_effect c r2.1 r2.2
    rw [hg] at e1
    by_cases hb : b.F_USING_GYRO = 0 <;> by_cases he : sfg.Gyro.isEnabled = true <;>
      by_cases hx : 0 < sfg.Gyro.iFIFOExceeded <;>
        simp_all [overflowFault, SensorClass.feature, SensorClass.block,
          StatusSubsystem.replay]
  obtain ⟨a1, a2, a3⟩ := h1 _ rfl
  obtain ⟨b1, b2⟩ := h2 _ _ rfl a2
  have c1 := h3 _ _ rfl (b2.trans a3)
  unfold conditionSensorReadings
  simp only
  rw [c1, b1, a1, ← replay_append, ← replay_append, List.append_assoc]

lemma replay_faults_status (L : List StatusCall) :
    ∀ p : StatusSubsystem, L ≠ [] →
      (∀ x ∈ L, x = StatusCall.set fusion_status_t.SOFT_FAULT) →
      (p.replay L).status = fusion_status_t.SOFT_FAULT := by
  induction L with
  | nil => intro p h; exact absurd rfl h
  | cons x xs ih =>
    intro p _ hall
    have hx : x = StatusCall.set fusion_status_t.SOFT_FAULT := hall x (by simp)
    have hstep : p.replay (x :: xs) = (p.apply x).replay xs := rfl
    rw [hstep]
    by_cases hxs : xs = []
    · subst hxs
      subst hx
      rfl
    · exact ih _ hxs (fun y hy => hall y (by simp [hy]))

lemma overflowFault_mem (b : Build) (sfg : SensorFusionGlobals) (k : SensorClass) :
    ∀ x ∈ overflowFault b sfg k, x = StatusCall.set fusion_status_t.SOFT_FAULT := by
  intro x hx
  unfold overflowFault at hx
  split_ifs at hx <;> simp_all

lemma processData_other_block {τ : Type} (c : Collaborators τ) (sfg : SensorFusionGlobals)
    (t : τ) (k k2 : SensorClass) (hne : k ≠ k2) :
    k2.block (processData c k sfg t).1 = k2.block sfg := by
  cases k <;> cases k2 <;>
    first
    | exact absurd rfl hne
    | (simp only [processData, processAccelData, processMagData, processGyroData,
        SensorClass.block]
       split_ifs <;> rfl)

lemma foldl_processData_block {τ : Type} (c : Collaborators τ) (k : SensorClass) :
    ∀ (l : List SensorClass) (r : SensorFusionGlobals × τ), k ∉ l →
      k.block (l.foldl (fun r k2 => processData c k2 r.1 r.2) r).1 = k.block r.1 := by
  intro l
  induction l with
  | nil => intro r _; rfl
  | cons x xs ih =>
    intro r hk
    have hx : x ≠ k := fun h => hk (by simp [h])
    have hxs : k ∉ xs := fun h => hk (by simp [h])
    rw [List.foldl_cons, ih _ hxs]
    exact processData_other_block c r.1 r.2 x k hx

lemma conditionSensorReadings_fold {τ : Type} (b : Build) (c : Collaborators τ)
    (sfg : SensorFusionGlobals) (t : τ) :
    conditionSensorReadings b c sfg t
      = (processedClasses b sfg).foldl (fun r k => processData c k r.1 r.2) (sfg, t) := by
  have hAM := processData_other_block c sfg t SensorClass.accel SensorClass.mag (by decide)
  have hAG := processData_other_block c sfg t SensorClass.accel SensorClass.gyro (by decide)
  have hMG : ∀ (g : SensorFusionGlobals) (u : τ), (processMagData c g u).1.Gyro = g.Gyro :=
    fun g u => processData_other_block c g u SensorClass.mag SensorClass.gyro (by decide)
  simp only [processData, SensorClass.block] at hAM hAG
  by_cases hA : b.F_USING_ACCEL = 0 <;> by_cases hM : b.F_USING_MAG = 0 <;>
    by_cases hG : b.F_USING_GYRO = 0 <;>
    by_cases eA : sfg.Accel.isEnabled = true <;> by_cases eM : sfg.Mag.isEnabled = true <;>
    by_cases eG : sfg.Gyro.isEnabled = true <;>
    simp [conditionSensorReadings, processedClasses, List.filter, SensorClass.feature,
      SensorClass.block, processData, hA, hM, hG, eA, eM, eG, hAM, hAG, hMG]

lemma not_mem_processedClasses (b : Build) (sfg : SensorFusionGlobals) (k : SensorClass)
    (h : k.feature b = 0 ∨ (k.block sfg).isEnabled = false) : k ∉ processedClasses b sfg := by
  intro hk
  unfold processedClasses at hk
  have := (List.mem_filter.mp hk).2
  rcases h with h | h <;> simp [h] at this

/-- C20: function `conditionSensorReadings` processes exactly the sensor classes that
are compiled in and whose `isEnabled` flag is set at the start of conditioning,
in the order accelerometer, magnetometer, gyroscope: its result is that of
running their `process...Data` functions one after the other.  Its status
writes are one `set(SOFT_FAULT)` for each such class whose overflow counter is
greater than 0 at the start of conditioning, and nothing else: after such a
write the current status is SOFT_FAULT; when every enabled class has overflow
counter 0 the status subsystem is left as it was.  A class whose `isEnabled`
flag is false is not processed: it is not among the processed classes, its
block is left as it was, and it contributes no status write; when no
compiled-in class is enabled, the context and the calibration state are
returned unchanged. -/
theorem conditionSensorReadings_overflow_faults {τ : Type} (b : Build)
    (c : Collaborators τ) (sfg : SensorFusionGlobals) (t : τ) :
    (conditionSensorReadings b c sfg t).1.pStatusSubsystem.calls
      = sfg.pStatusSubsystem.calls ++
          (overflowFault b sfg SensorClass.accel ++ overflowFault b sfg SensorClass.mag ++
            overflowFault b sfg SensorClass.gyro) ∧
    (∀ k : SensorClass, k.feature b ≠ 0 → (k.block sfg).isEnabled = true →
      0 < (k.block sfg).iFIFOExceeded →
      overflowFault b sfg k = [StatusCall.set fusion_status_t.SOFT_FAULT] ∧
      getStatus (conditionSensorReadings b c sfg t).1 = fusion_status_t.SOFT_FAULT) ∧
    ((∀ k : SensorClass, k.feature b ≠ 0 → (k.block sfg).isEnabled = true →
        (k.block sfg).iFIFOExceeded = 0) →
      (conditionSensorReadings b c sfg t).1.pStatusSubsystem = sfg.pStatusSubsystem) ∧
    (∀ k : SensorClass, (k.block sfg).isEnabled = false → overflowFault b sfg k = []) ∧
    conditionSensorReadings b c sfg t
      = (processedClasses b sfg).foldl (fun r k => processData c k r.1 r.2) (sfg, t) ∧
    (∀ k : SensorClass, (k.block sfg).isEnabled = false →
      k ∉ processedClasses b sfg ∧
      k.block (conditionSensorReadings b c sfg t).1 = k.block sfg) ∧
    ((∀ k : SensorClass, k.feature b ≠ 0 → (k.block sfg).isEnabled = false) →
      conditionSensorReadings b c sfg t = (sfg, t)) := by
  have hrep := conditionSensorReadings_replay b c sfg t
  have hfold := conditionSensorReadings_fold b c sfg t
  refine ⟨?_, ?_, ?_, ?_, hfold, ?_, ?_⟩
  · rw [hrep, replay_calls]
  · intro k hf he hx
    have hk : overflowFault b sfg k = [StatusCall.set fusion_status_t.SOFT_FAULT] := by
      simp [overflowFault, hf, he, hx]
    refine ⟨hk, ?_⟩
    unfold getStatus StatusSubsystem.get
    rw [hrep]
    apply replay_faults_status
    · cases k <;> simp [hk]
    · intro x hx
      simp only [List.mem_append] at hx
      rcases hx with (h | h) | h <;> exact overflowFault_mem b sfg _ x h
  · intro hall
    have hnil : ∀ k : SensorClass, overflowFault b sfg k = [] := by
      intro k
      unfold overflowFault
      split_ifs with h
      · have := hall k h.1 h.2.1
        omega
      · rfl
    rw [hrep, hnil, hnil, hnil]
    rfl
  · intro k he
    simp [overflowFault, he]
  · intro k he
    have hk := not_mem_processedClasses b sfg k (Or.inr he)
    refine ⟨hk, ?_⟩
    rw [hfold]
    exact foldl_processData_block c k _ _ hk
  · intro hall
    have hnil : processedClasses b sfg = [] := by
      apply List.eq_nil_iff_forall_not_mem.mpr
      intro k
      by_cases hf : k.feature b = 0
      · exact not_mem_processedClasses b sfg k (Or.inl hf)
      · exact not_mem_processedClasses b sfg k (Or.inr (hall k hf))
    rw [hfold, hnil]
    rfl

lemma readSensorsBody_status {σ : Type} (drv : FnId → Driver σ) (ctr : Nat) (p : Ptr)
    (m : Machine σ) (status st1 : Int) (m1 : Machine σ)
    (hbody : readSensorsBody drv ctr p m status = some (st1, m1)) :
    m1.sfg.pStatusSubsystem = m.sfg.pStatusSubsystem := by
  unfold readSensorsBody at hbody
  simp only at hbody
  by_cases hflag : (m.sensors p).isInitialized = 0
  · simp only [hflag, ne_eq, not_true_eq_false, if_false] at hbody
    cases hi : (m.sensors p).initialize_ with
    | none => simp [hi] at hbody
    | some f =>
      simp only [hi, Option.some.injEq, Prod.mk.injEq] at hbody
      rw [← hbody.2]
      rfl
  · simp only [hflag, ne_eq, not_false_eq_true, if_true] at hbody
    by_cases hs : (m.sensors p).schedule = 0
    · simp [hs] at hbody
    · simp only [hs, if_false] at hbody
      by_cases hdue : 0 = ctr % (m.sensors p).schedule
      · simp only [hdue.symm, if_true] at hbody
        cases hr : (m.sensors p).read with
        | none => simp [hr] at hbody
        | some f =>
          simp only [hr, Option.some.injEq, Prod.mk.injEq] at hbody
          rw [← hbody.2]
          split_ifs <;> rfl
      · simp only [hdue, if_false, Option.some.injEq, Prod.mk.injEq] at hbody
        rw [← hbody.2]

lemma readSensorsLoop_status {σ : Type} (drv : FnId → Driver σ) (ctr : Nat) :
    ∀ (fuel : Nat) (head : Option Ptr) (m : Machine σ) (status st : Int) (m1 : Machine σ),
      readSensorsLoop drv ctr fuel head m status = some (st, m1) →
      m1.sfg.pStatusSubsystem = m.sfg.pStatusSubsystem := by
  intro fuel
  induction fuel with
  | zero =>
    intro head m status st m1 h
    cases head with
    | none =>
      simp only [readSensorsLoop, Option.some.injEq, Prod.mk.injEq] at h
      rw [← h.2]
    | some p => simp [readSensorsLoop] at h
  | succ f ih =>
    intro head m status st m1 h
    cases head with
    | none =>
      simp only [readSensorsLoop, Option.some.injEq, Prod.mk.injEq] at h
      rw [← h.2]
    | some p =>
      simp only [readSensorsLoop] at h
      cases hb : readSensorsBody drv ctr p m status with
      | none => simp [hb] at h
      | some r =>
        obtain ⟨st1, m2⟩ := r
        simp only [hb] at h
        rw [ih _ _ _ _ _ h, readSensorsBody_status drv ctr p m status st1 m2 hb]

lemma checkLoop_replay (data : List Nat) :
    ∀ (n i : Nat) (p : StatusSubsystem),
      ∃ L, (checkLoop data n i p).state.1 = p.replay L ∧
        ∀ x ∈ L, x = StatusCall.set fusion_status_t.HARD_FAULT := by
  intro n
  induction n with
  | zero => intro i p; exact ⟨[], by simp [checkLoop, Outcome.state, StatusSubsystem.replay],
      by simp⟩
  | succ n ih =>
    intro i p
    by_cases h0 : data.getD i 0 = 0
    · simp only [checkLoop, h0, ne_eq, not_true_eq_false, if_false]
      exact ih (i + 1) p
    · refine ⟨[StatusCall.set fusion_status_t.HARD_FAULT], ?_, by simp⟩
      simp only [checkLoop, h0, ne_eq, not_false_eq_true, if_true]
      simp [setOrTrap, StatusSubsystem.traps, Outcome.state, StatusSubsystem.replay,
        StatusSubsystem.apply]

lemma replay_not_normal (L : List StatusCall) :
    ∀ p : StatusSubsystem, StatusCall.set fusion_status_t.NORMAL ∉ L →
      StatusCall.update ∉ L → p.status ≠ fusion_status_t.NORMAL →
      (p.replay L).status ≠ fusion_status_t.NORMAL := by
  induction L with
  | nil => intro p _ _ h; exact h
  | cons x xs ih =>
    intro p hset hupd hp
    have hstep : p.replay (x :: xs) = (p.apply x).replay xs := rfl
    rw [hstep]
    simp only [List.mem_cons, not_or] at hset hupd
    apply ih _ hset.2 hupd.2
    cases x with
    | set status =>
      simp only [StatusSubsystem.apply, StatusSubsystem.set]
      intro h
      exact hset.1 (by rw [h])
    | queue status => exact hp
    | update => exact absurd rfl hupd.1

/-- C16 (as amended): no per-cycle operation of the core ever calls the status
collaborator's immediate `set` with NORMAL, nor `update`.  Whenever `readSensors`
returns, its one status call is `queue(NORMAL)` or `set(SOFT_FAULT)`;
`conditionSensorReadings` only makes `set(SOFT_FAULT)` calls and `zeroArray` only
`set(HARD_FAULT)` calls; `runFusion` and `clearFIFOs` leave the status subsystem as
it was.  A sequence of status calls without `set(NORMAL)` and without `update` never
turns a current status other than NORMAL into NORMAL.  (`initializeFusionEngine`,
which does set NORMAL, is left out.) -/
theorem perCycle_never_sets_normal {σ τ : Type} (drv : FnId → Driver σ) (fuel : Nat)
    (m : Machine σ) (ctr : Nat) (b : Build) (c : Collaborators τ)
    (sfg : SensorFusionGlobals) (t : τ) (pStatus : StatusSubsystem) (data : List Nat)
    (size numElements check : Nat) :
    (match readSensors drv fuel m ctr with
      | none => True
      | some r =>
        ∃ L, r.2.sfg.pStatusSubsystem = m.sfg.pStatusSubsystem.replay L ∧
          (L = [StatusCall.queue fusion_status_t.NORMAL] ∨
            L = [StatusCall.set fusion_status_t.SOFT_FAULT]) ∧
          StatusCall.set fusion_status_t.NORMAL ∉ L ∧ StatusCall.update ∉ L) ∧
    (∃ L, (conditionSensorReadings b c sfg t).1.pStatusSubsystem
        = sfg.pStatusSubsystem.replay L ∧
      (∀ x ∈ L, x = StatusCall.set fusion_status_t.SOFT_FAULT) ∧
      StatusCall.set fusion_status_t.NORMAL ∉ L ∧ StatusCall.update ∉ L) ∧
    (runFusion b c sfg t).1.pStatusSubsystem = sfg.pStatusSubsystem ∧
    (clearFIFOs b sfg).pStatusSubsystem = sfg.pStatusSubsystem ∧
    (∃ L, (zeroArray pStatus data size numElements check).state.1 = pStatus.replay L ∧
      (∀ x ∈ L, x = StatusCall.set fusion_status_t.HARD_FAULT) ∧
      StatusCall.set fusion_status_t.NORMAL ∉ L ∧ StatusCall.update ∉ L) ∧
    (∀ (p : StatusSubsystem) (L : List StatusCall),
      StatusCall.set fusion_status_t.NORMAL ∉ L → StatusCall.update ∉ L →
      p.status ≠ fusion_status_t.NORMAL →
      (p.replay L).status ≠ fusion_status_t.NORMAL ∧
      (p.replay L).calls = p.calls ++ L) := by
  have hnot : ∀ (L : List StatusCall) (s : fusion_status_t),
      s ≠ fusion_status_t.NORMAL → (∀ x ∈ L, x = StatusCall.set s) →
      StatusCall.set fusion_status_t.NORMAL ∉ L ∧ StatusCall.update ∉ L := by
    intro L s hs hall
    refine ⟨fun h => ?_, fun h => ?_⟩
    · have := hall _ h
      simp only [StatusCall.set.injEq] at this
      exact hs this.symm
    · have := hall _ h
      simp at this
  refine ⟨?_, ?_, ?_, ?_, ?_, ?_⟩
  · unfold readSensors
    cases hloop : readSensorsLoop drv ctr fuel m.sfg.pSensors m SENSOR_ERROR_NONE with
    | none => simp
    | some r =>
      obtain ⟨st, m1⟩ := r
      have hsub := readSensorsLoop_status drv ctr fuel _ m _ st m1 hloop
      by_cases h0 : st = SENSOR_ERROR_NONE
      · simp only [h0, if_true]
        refine ⟨[StatusCall.queue fusion_status_t.NORMAL], ?_, Or.inl rfl, by simp, by simp⟩
        simp [queueStatus, StatusSubsystem.replay, StatusSubsystem.apply, hsub]
      · simp only [h0, if_false]
        refine ⟨[StatusCall.set fusion_status_t.SOFT_FAULT], ?_, Or.inr rfl, by simp, by simp⟩
        simp [setStatus, StatusSubsystem.replay, StatusSubsystem.apply, hsub]
  · have hall : ∀ x ∈ overflowFault b sfg SensorClass.accel ++
        overflowFault b sfg SensorClass.mag ++ overflowFault b sfg SensorClass.gyro,
        x = StatusCall.set fusion_status_t.SOFT_FAULT := by
      intro x hx
      simp only [List.mem_append] at hx
      rcases hx with (h | h) | h <;> exact overflowFault_mem b sfg _ x h
    obtain ⟨n1, n2⟩ := hnot _ fusion_status_t.SOFT_FAULT (by decide) hall
    exact ⟨_, conditionSensorReadings_replay b c sfg t, hall, n1, n2⟩
  · simp only [runFusion]
    exact (clearFIFOs_others b sfg).1
  · exact (clearFIFOs_others b sfg).1
  · unfold zeroArray
    by_cases hw : size = 8 ∨ size = 16 ∨ size = 32
    · simp only [hw, if_true]
      by_cases hc : check = 0
      · exact ⟨[], by simp [hc, Outcome.state, StatusSubsystem.replay], by simp, by simp,
          by simp⟩
      · simp only [hc, ne_eq, not_false_eq_true, if_true]
        obtain ⟨L, hL, hall⟩ :=
          checkLoop_replay (zeroLoop data numElements) numElements 0 pStatus
        obtain ⟨n1, n2⟩ := hnot L fusion_status_t.HARD_FAULT (by decide) hall
        exact ⟨L, hL, hall, n1, n2⟩
    · refine ⟨[StatusCall.set fusion_status_t.HARD_FAULT], ?_, by simp, by simp, by simp⟩
      simp [hw, setOrTrap, StatusSubsystem.traps, Outcome.state, StatusSubsystem.replay,
        StatusSubsystem.apply]
  · intro p L h1 h2 h3
    exact ⟨replay_not_normal L p h1 h2 h3, replay_calls L p⟩

/-- C16, counterexample: `initializeFusionEngine` on the two-sensor engine, with a
bus bring-up and sensor initializations that succeed, calls the immediate `set`
with NORMAL: its status calls are `set(INITIALIZING)` then `set(NORMAL)`, and the
current status is NORMAL without any `update`. -/
theorem initializeFusionEngine_sets_normal :
    (initializeFusionEngine buildAccelGyro allVariants goodDrivers i2cOk
        idleCollaborators 2 twoSensorEngine 21 22).map
      (fun o => o.state.machine.sfg.pStatusSubsystem.calls)
      = some [StatusCall.set fusion_status_t.INITIALIZING,
              StatusCall.set fusion_status_t.NORMAL] ∧
    (initializeFusionEngine buildAccelGyro allVariants goodDrivers i2cOk
        idleCollaborators 2 twoSensorEngine 21 22).map
      (fun o => getStatus o.state.machine.sfg) = some fusion_status_t.NORMAL ∧
    (initializeFusionEngine buildAccelGyro allVariants goodDrivers i2cOk
        idleCollaborators 2 twoSensorEngine 21 22).map
      (fun o => o.isReturned) = some true := by
  decide

/-! ## First failing read -/

lemma initFailuresLead_of_reads (log : List CapCall)
    (h : ∀ c ∈ log, c.kind = CapKind.read) : InitFailuresLead log := by
  unfold InitFailuresLead
  induction log with
  | nil => exact List.Pairwise.nil
  | cons x xs ih =>
    refine List.Pairwise.cons ?_ (ih (fun c hc => h c (by simp [hc])))
    intro b hb hinit
    have := h b (by simp [hb])
    rw [this] at hinit
    exact absurd hinit.1 (by decide)

lemma firstNonzero_first_failure (post : List Int) (y : Int) (hy : y ≠ 0) :
    ∀ pre : List Int, (∀ x ∈ pre, x = 0) → firstNonzero (pre ++ y :: post) = y := by
  intro pre
  induction pre with
  | nil => intro _; simp [firstNonzero, hy]
  | cons x xs ih =>
    intro h
    have hx : x = 0 := h x (by simp)
    simp only [List.cons_append, firstNonzero, hx, ne_eq, not_true_eq_false, if_false]
    exact ih (fun z hz => h z (by simp [hz]))

lemma dueCalls_of_initialized (sensors : Ptr → PhysicalSensor) (ctr : Nat) :
    ∀ l : List Install,
      (∀ c ∈ l, (sensors c.pSensor).isInitialized ≠ 0 ∧
        (sensors c.pSensor).schedule = c.schedule) →
      (l.map (fun c => c.pSensor)).filterMap (dueCall sensors ctr)
        = (l.filter (fun c => decide (ctr % c.schedule = 0))).map
            (fun c => (CapKind.read, c.pSensor)) := by
  intro l
  induction l with
  | nil => intro _; rfl
  | cons c cs ih =>
    intro h
    obtain ⟨hf, hs⟩ := h c (by simp)
    have ih2 := ih (fun d hd => h d (by simp [hd]))
    rw [List.map_cons, filterMap_cons_toList, ih2]
    by_cases hdue : ctr % c.schedule = 0
    · have hd : dueCall sensors ctr c.pSensor = some (CapKind.read, c.pSensor) := by
        simp [dueCall, hf, hs, hdue]
      simp [hd, List.filter_cons, hdue]
    · have hd : dueCall sensors ctr c.pSensor = none := by
        simp [dueCall, hf, hs, hdue]
      simp [hd, List.filter_cons, hdue]

/-- C21: for a registry built by `installSensor` calls on distinct nodes with
schedules of at least 1, every node being initialized on entry, `readSensors`
returns and invokes only read capabilities: the reads of the scheduled
sensors (cycle index a multiple of the schedule), starting from the most
recently installed one.  The value returned is the first nonzero code of these
reads in that order: a failing read preceded only by successful ones gives
the value whatever the later reads return, and the value is 0 if no scheduled
read fails. -/
theorem readSensors_first_read_failure {σ : Type} (drv : FnId → Driver σ)
    (calls : List Install) (g0 : SensorFusionGlobals) (s0 : Ptr → PhysicalSensor)
    (env : σ) (fuel ctr : Nat)
    (hempty : g0.pSensors = none)
    (hnd : (calls.map (fun c => c.pSensor)).Nodup)
    (hsched : ∀ c ∈ calls, 1 ≤ c.schedule)
    (hfuel : calls.length ≤ fuel)
    (hflag : ∀ c ∈ calls, (s0 c.pSensor).isInitialized ≠ 0) :
    ∃ st m1,
      readSensors drv fuel
        { sfg := (installAll calls g0 s0).1, sensors := (installAll calls g0 s0).2,
          env := env, trace := [] } ctr = some (st, m1) ∧
      m1.trace.map (fun c => (c.kind, c.node))
        = (calls.reverse.filter (fun c => decide (ctr % c.schedule = 0))).map
            (fun c => (CapKind.read, c.pSensor)) ∧
      (∀ c ∈ m1.trace, c.kind = CapKind.read) ∧
      st = firstNonzero (m1.trace.map (fun c => c.code)) ∧
      (∀ pre c post, m1.trace = pre ++ c :: post → (∀ d ∈ pre, d.code = 0) →
        c.code ≠ 0 → st = c.code) ∧
      ((∀ c ∈ m1.trace, c.code = 0) → st = 0) := by
  obtain ⟨htr, hfields, _⟩ := installAll_spec g0 s0 hempty calls hnd
  have hreg := traverse_mono_le _ _ fuel _ _ htr hfuel
  have hok : ∀ p ∈ (calls.map (fun c => c.pSensor)).reverse,
      NodeOk ((installAll calls g0 s0).2 p) := by
    intro p hp
    obtain ⟨c, hc, rfl⟩ := List.mem_map.mp (List.mem_reverse.mp hp)
    obtain ⟨h1, h2, h3, _, _⟩ := hfields c hc
    exact ⟨by simp [h1], by simp [h2], by rw [h3]; exact hsched c hc⟩
  obtain ⟨st, m1, new, hE, hrun⟩ := readSensors_spec drv fuel
    { sfg := (installAll calls g0 s0).1, sensors := (installAll calls g0 s0).2,
      env := env, trace := [] } ctr _ hreg hok
  have htrace : m1.trace = new := by simpa using hE.trace_eq
  have hcalls : new.map (fun c => (c.kind, c.node))
      = (calls.reverse.filter (fun c => decide (ctr % c.schedule = 0))).map
          (fun c => (CapKind.read, c.pSensor)) := by
    rw [hE.calls_eq, ← List.map_reverse]
    apply dueCalls_of_initialized
    intro c hc
    obtain ⟨_, _, h3, _, h5⟩ := hfields c (List.mem_reverse.mp hc)
    exact ⟨by rw [h5]; exact hflag c (List.mem_reverse.mp hc), h3⟩
  have hreads : ∀ c ∈ new, c.kind = CapKind.read := by
    intro c hc
    have hmem : (c.kind, c.node) ∈ new.map (fun c => (c.kind, c.node)) :=
      List.mem_map.mpr ⟨c, hc, rfl⟩
    rw [hcalls] at hmem
    obtain ⟨d, _, hd⟩ := List.mem_map.mp hmem
    simp only [Prod.mk.injEq] at hd
    exact hd.1.symm
  have hst : st = firstNonzero (new.map (fun c => c.code)) := by
    rw [hE.status_eq]
    exact foldStatus_firstNonzero new (initFailuresLead_of_reads new hreads)
  refine ⟨st, _, hrun, ?_, ?_, ?_, ?_, ?_⟩
  · simp only [htrace]; exact hcalls
  · simp only [htrace]; exact hreads
  · simp only [htrace]; exact hst
  · intro pre c post hsplit hpre hc
    simp only [htrace] at hsplit
    rw [hst, hsplit, List.map_append, List.map_cons]
    apply firstNonzero_first_failure _ _ hc
    intro x hx
    obtain ⟨d, hd, rfl⟩ := List.mem_map.mp hx
    exact hpre d hd
  · intro hall
    simp only [htrace] at hall
    rw [hst, firstNonzero_eq_zero_iff]
    intro x hx
    obtain ⟨d, hd, rfl⟩ := List.mem_map.mp hx
    exact hall d hd

/-- C21, example: nodes 1 and 2 installed in this order, both initialized, with
failing reads. -/
theorem readSensors_first_read_failure_witness :
    ∃ st m1,
      readSensors failingDrivers 2
        { sfg := (installAll
            [{ pSensor := 1, addr := 30, schedule := 1, initialize_ := 10, read := 11 },
             { pSensor := 2, addr := 31, schedule := 2, initialize_ := 20, read := 21 }]
            emptyGlobals (fun _ => staleNode)).1,
          sensors := (installAll
            [{ pSensor := 1, addr := 30, schedule := 1, initialize_ := 10, read := 11 },
             { pSensor := 2, addr := 31, schedule := 2, initialize_ := 20, read := 21 }]
            emptyGlobals (fun _ => staleNode)).2,
          env := (), trace := [] } 0 = some (st, m1) ∧
      m1.trace.map (fun c => (c.kind, c.node))
        = ((([{ pSensor := 1, addr := 30, schedule := 1, initialize_ := 10, read := 11 },
             { pSensor := 2, addr := 31, schedule := 2, initialize_ := 20, read := 21 }] :
              List Install).reverse).filter (fun c => decide (0 % c.schedule = 0))).map
            (fun c => (CapKind.read, c.pSensor)) ∧
      (∀ c ∈ m1.trace, c.kind = CapKind.read) ∧
      st = firstNonzero (m1.trace.map (fun c => c.code)) ∧
      (∀ pre c post, m1.trace = pre ++ c :: post → (∀ d ∈ pre, d.code = 0) →
        c.code ≠ 0 → st = c.code) ∧
      ((∀ c ∈ m1.trace, c.code = 0) → st = 0) :=
  readSensors_first_read_failure failingDrivers
    [{ pSensor := 1, addr := 30, schedule := 1, initialize_ := 10, read := 11 },
     { pSensor := 2, addr := 31, schedule := 2, initialize_ := 20, read := 21 }]
    emptyGlobals (fun _ => staleNode) () 2 0 rfl (by decide) (by decide) (by decide)
    (by decide)

/-! ## Range of the averaging arithmetic -/

lemma sum_ge_of_forall_ge (lo : Int) :
    ∀ l : List Int, (∀ x ∈ l, lo ≤ x) → lo * (l.length : Int) ≤ l.sum := by
  intro l
  induction l with
  | nil => intro _; simp
  | cons x xs ih =>
    intro h
    have hx := h x (by simp)
    have hxs := ih (fun y hy => h y (by simp [hy]))
    simp only [List.length_cons, List.sum_cons]
    push_cast
    rw [mul_add, mul_one]
    omega

lemma sum_le_of_forall_le (hi : Int) :
    ∀ l : List Int, (∀ x ∈ l, x ≤ hi) → l.sum ≤ hi * (l.length : Int) := by
  intro l
  induction l with
  | nil => intro _; simp
  | cons x xs ih =>
    intro h
    have hx := h x (by simp)
    have hxs := ih (fun y hy => h y (by simp [hy]))
    simp only [List.length_cons, List.sum_cons]
    push_cast
    rw [mul_add, mul_one]
    omega

lemma tdiv_ge_of_mul_le (S lo : Int) (n : Nat) (hn : 0 < n) (h : lo * (n : Int) ≤ S) :
    lo ≤ Int.tdiv S (n : Int) := by
  have hnpos : (0 : Int) < (n : Int) := by exact_mod_cast hn
  by_cases hS : 0 ≤ S
  · rw [Int.tdiv_eq_ediv hS (le_of_lt hnpos)]
    exact Int.le_ediv_of_mul_le hnpos h
  · have hneg : 0 ≤ -S := by omega
    have h5 : Int.tdiv S (n : Int) = -(Int.tdiv (-S) (n : Int)) := by
      rw [Int.neg_tdiv, neg_neg]
    rw [h5, Int.tdiv_eq_ediv hneg (le_of_lt hnpos)]
    have h4 : (-S) / (n : Int) ≤ -lo :=
      Int.ediv_le_of_le_mul hnpos (by rw [neg_mul]; omega)
    omega

lemma tdiv_le_of_le_mul (S hi : Int) (n : Nat) (hn : 0 < n) (h : S ≤ hi * (n : Int)) :
    Int.tdiv S (n : Int) ≤ hi := by
  have hnpos : (0 : Int) < (n : Int) := by exact_mod_cast hn
  by_cases hS : 0 ≤ S
  · rw [Int.tdiv_eq_ediv hS (le_of_lt hnpos)]
    exact Int.ediv_le_of_le_mul hnpos h
  · have hneg : 0 ≤ -S := by omega
    have h5 : Int.tdiv S (n : Int) = -(Int.tdiv (-S) (n : Int)) := by
      rw [Int.neg_tdiv, neg_neg]
    rw [h5, Int.tdiv_eq_ediv hneg (le_of_lt hnpos)]
    have h4 : -hi ≤ (-S) / (n : Int) :=
      Int.le_ediv_of_mul_le hnpos (by rw [neg_mul]; omega)
    omega

lemma channel_inRange (x : Sample) (j : Channel) (h : x.inRange) :
    -32768 ≤ x.channel j ∧ x.channel j ≤ 32767 := by
  obtain ⟨a1, a2, b1, b2, c1, c2⟩ := h
  cases j
  · exact ⟨a1, a2⟩
  · exact ⟨b1, b2⟩
  · exact ⟨c1, c2⟩

lemma sumFifo_channel (fifo : List Sample) (n : Nat) (j : Channel)
    (hlen : n ≤ fifo.length) (hmax : n ≤ 65535) (hrange : ∀ x ∈ fifo.take n, x.inRange) :
    (sumFifo fifo n).channel j = ((fifo.take n).map (fun x => x.channel j)).sum ∧
    -32768 * (n : Int) ≤ (sumFifo fifo n).channel j ∧
    (sumFifo fifo n).channel j ≤ 32767 * (n : Int) := by
  obtain ⟨⟨hx, hy, hz⟩, hbx, hby, hbz⟩ := sumFifo_exact fifo n hlen hmax hrange
  cases j
  · exact ⟨hx, hbx⟩
  · exact ⟨hy, hby⟩
  · exact ⟨hz, hbz⟩

lemma averageFifo_channel (s : FifoSensor) (j : Channel) (hpos : 0 < s.iFIFOCount) :
    (averageFifo s).iGs.channel j
      = toInt16 (Int.tdiv ((sumFifo s.iGsFIFO s.iFIFOCount).channel j) (s.iFIFOCount : Int)) := by
  simp only [averageFifo, hpos, gt_iff_lt, if_true]
  cases j <;> rfl

lemma mean_between_samples (l : List Int) (n : Nat) (hn : 0 < n) (hl : l.length = n) :
    (∃ x ∈ l, x ≤ Int.tdiv l.sum (n : Int)) ∧ (∃ y ∈ l, Int.tdiv l.sum (n : Int) ≤ y) := by
  constructor
  · by_contra hno
    push_neg at hno
    have h1 := sum_ge_of_forall_ge (Int.tdiv l.sum (n : Int) + 1) l
      (fun x hx => by have := hno x hx; omega)
    rw [hl] at h1
    have h2 := tdiv_ge_of_mul_le _ _ n hn h1
    omega
  · by_contra hno
    push_neg at hno
    have h1 := sum_le_of_forall_le (Int.tdiv l.sum (n : Int) - 1) l
      (fun x hx => by have := hno x hx; omega)
    rw [hl] at h1
    have h2 := tdiv_le_of_le_mul _ _ n hn h1
    omega

lemma step_in_int32 (fifo : List Sample) (n : Nat) (j : Channel)
    (hcount : n ≤ 255) (hlen : n ≤ fifo.length) (hrange : ∀ x ∈ fifo.take n, x.inRange) :
    ∀ i, i < n →
      -2147483648 ≤ (sumFifo fifo i).channel j + (fifo.getD i ⟨0, 0, 0⟩).channel j ∧
      (sumFifo fifo i).channel j + (fifo.getD i ⟨0, 0, 0⟩).channel j ≤ 2147483647 := by
  intro i hi
  have hlt : i < fifo.length := by omega
  have htake : fifo.take (i + 1) = fifo.take i ++ [fifo.get ⟨i, hlt⟩] := by
    rw [List.take_succ, List.getElem?_eq_getElem hlt]; rfl
  have hget : fifo.getD i ⟨0, 0, 0⟩ = fifo.get ⟨i, hlt⟩ := by
    simp [List.getD_eq_getElem?_getD, List.getElem?_eq_getElem hlt]
  have hsub : fifo.take (i + 1) = (fifo.take n).take (i + 1) := by
    rw [List.take_take, Nat.min_eq_left (by omega)]
  have hin : ∀ x ∈ fifo.take (i + 1), x.inRange := fun x hx =>
    hrange x (List.mem_of_mem_take (by rw [← hsub]; exact hx))
  have hprev : ∀ x ∈ fifo.take i, x.inRange := fun x hx =>
    hin x (by rw [htake]; exact List.mem_append_left _ hx)
  have hlast : (fifo.get ⟨i, hlt⟩).inRange :=
    hin _ (by rw [htake]; exact List.mem_append_right _ (List.mem_singleton.mpr rfl))
  obtain ⟨_, h1, h2⟩ := sumFifo_channel fifo i j (by omega) (by omega) hprev
  obtain ⟨h3, h4⟩ := channel_inRange _ j hlast
  rw [hget]
  have hi2 : (i : Int) ≤ 254 := by omega
  constructor <;> omega

/-- C22: in `processAccelData`, `processMagData` and `processGyroData`, for a block
with count `n` between 1 and 255 (within the array) whose `n` HAL-corrected
buffered samples are 16-bit signed values, on every axis `j`: no addition of
the summation loop leaves the `int32_t` range, so `iSum[j]` is the exact sum
of the `n` samples; the truncated quotient `iSum[j] / n` is at least one of
the `n` buffered values of the axis and at most one of them (it lies between
their minimum and their maximum); the cast to `int16_t` leaves the quotient
unchanged, and it is the value stored in the integer average. -/
theorem processData_mean_within_samples {τ : Type} (c : Collaborators τ) (k : SensorClass)
    (sfg : SensorFusionGlobals) (t : τ) (j : Channel) (fifo : List Sample) (n : Nat)
    (hfifo : fifo = k.hal c (k.block sfg))
    (hn : n = (k.block sfg).iFIFOCount)
    (hpos : 1 ≤ n) (hcount : n ≤ 255) (hlen : n ≤ fifo.length)
    (hrange : ∀ x ∈ fifo.take n, x.inRange) :
    (∀ i, i < n →
      -2147483648 ≤ (sumFifo fifo i).channel j + (fifo.getD i ⟨0, 0, 0⟩).channel j ∧
      (sumFifo fifo i).channel j + (fifo.getD i ⟨0, 0, 0⟩).channel j ≤ 2147483647) ∧
    (sumFifo fifo n).channel j = ((fifo.take n).map (fun x => x.channel j)).sum ∧
    (∃ x ∈ fifo.take n, x.channel j ≤ Int.tdiv ((sumFifo fifo n).channel j) (n : Int)) ∧
    (∃ y ∈ fifo.take n, Int.tdiv ((sumFifo fifo n).channel j) (n : Int) ≤ y.channel j) ∧
    toInt16 (Int.tdiv ((sumFifo fifo n).channel j) (n : Int))
      = Int.tdiv ((sumFifo fifo n).channel j) (n : Int) ∧
    (k.block (processData c k sfg t).1).iGs.channel j
      = Int.tdiv ((sumFifo fifo n).channel j) (n : Int) := by
  obtain ⟨hsum, hb1, hb2⟩ := sumFifo_channel fifo n j hlen (by omega) hrange
  have hlen2 : ((fifo.take n).map (fun x => x.channel j)).length = n := by
    rw [List.length_map, List.length_take, Nat.min_eq_left hlen]
  obtain ⟨⟨x, hx, hxle⟩, ⟨y, hy, hyle⟩⟩ :=
    mean_between_samples ((fifo.take n).map (fun x => x.channel j)) n hpos hlen2
  obtain ⟨x0, hx0, rfl⟩ := List.mem_map.mp hx
  obtain ⟨y0, hy0, rfl⟩ := List.mem_map.mp hy
  have hcast := tdiv_in_int16 _ n hpos hb1 hb2
  have hc16 := toInt16_eq _ hcast.1 hcast.2
  refine ⟨step_in_int32 fifo n j hcount hlen hrange, hsum, ⟨x0, hx0, ?_⟩, ⟨y0, hy0, ?_⟩,
    hc16, ?_⟩
  · rw [hsum]; exact hxle
  · rw [hsum]; exact hyle
  · rw [processData_block, averageFifo_channel _ _ (by simpa [← hn] using hpos)]
    simp only [← hn, ← hfifo]
    exact hc16

/-- C22, example: the accelerometer block with the samples (-7, 1, 4), (2, 1, 4),
(0, 2, 4), on the X axis: the sum is -5 and the mean -1, between -7 and 2. -/
theorem processData_mean_within_samples_witness :
    (∀ i, i < 3 →
      -2147483648 ≤ (sumFifo fifoThree.iGsFIFO i).channel Channel.CHX
          + (fifoThree.iGsFIFO.getD i ⟨0, 0, 0⟩).channel Channel.CHX ∧
      (sumFifo fifoThree.iGsFIFO i).channel Channel.CHX
          + (fifoThree.iGsFIFO.getD i ⟨0, 0, 0⟩).channel Channel.CHX ≤ 2147483647) ∧
    (sumFifo fifoThree.iGsFIFO 3).channel Channel.CHX
      = ((fifoThree.iGsFIFO.take 3).map (fun x => x.channel Channel.CHX)).sum ∧
    (∃ x ∈ fifoThree.iGsFIFO.take 3,
      x.channel Channel.CHX
        ≤ Int.tdiv ((sumFifo fifoThree.iGsFIFO 3).channel Channel.CHX) ((3 : Nat) : Int)) ∧
    (∃ y ∈ fifoThree.iGsFIFO.take 3,
      Int.tdiv ((sumFifo fifoThree.iGsFIFO 3).channel Channel.CHX) ((3 : Nat) : Int)
        ≤ y.channel Channel.CHX) ∧
    toInt16 (Int.tdiv ((sumFifo fifoThree.iGsFIFO 3).channel Channel.CHX) ((3 : Nat) : Int))
      = Int.tdiv ((sumFifo fifoThree.iGsFIFO 3).channel Channel.CHX) ((3 : Nat) : Int) ∧
    (SensorClass.accel.block (processData idleCollaborators SensorClass.accel
        (globalsWith fifoThree fifoAt1 fifoAt1) ()).1).iGs.channel Channel.CHX
      = Int.tdiv ((sumFifo fifoThree.iGsFIFO 3).channel Channel.CHX) ((3 : Nat) : Int) :=
  processData_mean_within_samples idleCollaborators SensorClass.accel
    (globalsWith fifoThree fifoAt1 fifoAt1) () Channel.CHX fifoThree.iGsFIFO 3
    rfl rfl (by decide) (by decide) (by decide) (by decide)

end SensorFusion
